import Mathlib

/-!
# battery.c : a verification development

A shallow embedding of `src/battery.c` (an OpenBSD utility that walks the
`hw.sensors` sysctl tree and prints AC / battery status) together with theorems
about it.

Modelling conventions
* C strings are Lean `String`s holding the bytes in front of the terminating NUL;
  `strcmp`, `strncmp`, `strlcpy`, `printf` and `getopt` are modelled from their
  manual pages.
* `int64_t` values are `Int`s (the program only copies them); the one narrowing
  conversion of the program, `int64_t` to `int`, is the explicit `to_int`.
* `float` / `double` values are the type `fp`: sign, integer significand and binary
  exponent, rounded to nearest-even at 24 / 53 bits, with infinities and NaN.
* The two `SIMPLEQ`s are lists: `SIMPLEQ_INSERT_HEAD` is cons, `SIMPLEQ_INSERT_TAIL`
  appends at the end, `SIMPLEQ_FOREACH` walks the list from its head.
* `sysctl(2)` is a pure query interface (`Env`); a failing call leaves the caller's
  buffer as it was. `malloc` returns `NULL` (`none`) or memory with arbitrary
  contents, as `Env` says.
-/

namespace Battery

/-! ## Data model -/

/-- The `enum sensor_type` of `<sys/sensors.h>`. -/
inductive sensor_type
  | SENSOR_TEMP | SENSOR_FANRPM | SENSOR_VOLTS_DC | SENSOR_VOLTS_AC | SENSOR_OHMS
  | SENSOR_WATTS | SENSOR_AMPS | SENSOR_WATTHOUR | SENSOR_AMPHOUR | SENSOR_INDICATOR
  | SENSOR_INTEGER | SENSOR_PERCENT | SENSOR_LUX | SENSOR_DRIVE | SENSOR_TIMEDELTA
  | SENSOR_HUMIDITY | SENSOR_FREQ | SENSOR_ANGLE | SENSOR_DISTANCE | SENSOR_PRESSURE
  | SENSOR_ACCEL | SENSOR_VELOCITY | SENSOR_ENERGY
  deriving DecidableEq, Repr

open sensor_type

/-- The fields of `struct sensor` the program reads: `desc`, `value`, `type`. -/
structure sensor where
  desc : String
  value : Int
  type : sensor_type
  deriving DecidableEq, Repr

/-- The fields of `struct sensordev` the program reads: `xname`, `sensors_count`. -/
structure sensordev where
  xname : String
  sensors_count : Int
  deriving DecidableEq, Repr

/-- The payload of `struct ac_stat`: `int online`. -/
structure ac_stat where
  online : Int
  deriving DecidableEq, Repr

/-- The payload of `struct bat_stat`: `char raw_bat[32]` and eight `int64_t`. -/
structure bat_stat where
  raw_bat : String
  voltage : Int
  cur_voltage : Int
  rate : Int
  last_cap : Int
  warn_cap : Int
  low_cap : Int
  rem_cap : Int
  cap : Int
  deriving DecidableEq, Repr

def acpi_pow : String := "acpiac"
def acpi_bat : String := "acpibat"
def bat_volt : String := "voltage"
def bat_cvolt : String := "current voltage"
def bat_rate : String := "rate"
def bat_last : String := "last full capacity"
def bat_warn : String := "warning capacity"
def bat_low : String := "low capacity"
def bat_rem : String := "remaining capacity"
def bat_cap : String := "design capacity"

def bat_types : List sensor_type :=
  [SENSOR_VOLTS_DC, SENSOR_WATTS, SENSOR_WATTHOUR, SENSOR_INTEGER]

/-! ## libc string functions -/

/-- Model of `strcmp(3)`: zero exactly when the two strings are equal, otherwise
negative or positive according to the order of the first differing bytes. -/
def strcmp (s1 s2 : String) : Int :=
  if s1.toList = s2.toList then 0 else if s1.toList < s2.toList then -1 else 1

/-- Model of `strncmp(3)`: as `strcmp`, looking at no more than the first `n`
characters of either string. -/
def strncmp (s1 s2 : String) (n : Nat) : Int :=
  if s1.toList.take n = s2.toList.take n then 0
  else if s1.toList.take n < s2.toList.take n then -1 else 1

def strlen (s : String) : Nat := s.toList.length

/-- The destination after `strlcpy(dst, src, dsize)`: the first `dsize - 1`
characters of `src` (the last byte of the buffer holds the NUL). -/
def strlcpy (src : String) (dsize : Nat) : String := String.mk (src.toList.take (dsize - 1))

/-! ## process_bat_sensor -/

/-- Source lines 91-121: dispatch on the sensor type, then compare the
description with the known strings, each comparison in its own `if`. -/
def process_bat_sensor (stat : bat_stat) (sensor : sensor) : bat_stat :=
  match sensor.type with
  | SENSOR_VOLTS_DC =>
    let stat := if strcmp sensor.desc bat_volt = 0
      then { stat with voltage := sensor.value } else stat
    let stat := if strcmp sensor.desc bat_cvolt = 0
      then { stat with cur_voltage := sensor.value } else stat
    stat
  | SENSOR_WATTS =>
    let stat := if strcmp sensor.desc bat_rate = 0
      then { stat with rate := sensor.value } else stat
    stat
  | SENSOR_WATTHOUR =>
    let stat := if strcmp sensor.desc bat_last = 0
      then { stat with last_cap := sensor.value } else stat
    let stat := if strcmp sensor.desc bat_warn = 0
      then { stat with warn_cap := sensor.value } else stat
    let stat := if strcmp sensor.desc bat_low = 0
      then { stat with low_cap := sensor.value } else stat
    let stat := if strcmp sensor.desc bat_rem = 0
      then { stat with rem_cap := sensor.value } else stat
    let stat := if strcmp sensor.desc bat_cap = 0
      then { stat with cap := sensor.value } else stat
    stat
  | SENSOR_INTEGER =>
    { stat with raw_bat := strlcpy sensor.desc 32 }
  | _ => stat

/-! ## Floating point

`float` and `double` values. A finite value is `(-1)^neg * m * 2^e`; results of
`fp_round p` have `2^(p-1) ≤ m < 2^p` or `m = 0`. The exponent range is not
bounded: quotients and products of 64-bit integers stay far inside the normal
range of both formats. -/

inductive fp
  | fin (neg : Bool) (m : Nat) (e : Int)
  | inf (neg : Bool)
  | nan
  deriving DecidableEq, Repr

def bitlen_aux : Nat → Nat → Nat
  | 0, _ => 0
  | fuel + 1, n => if n = 0 then 0 else bitlen_aux fuel (n / 2) + 1

/-- Number of binary digits of `n`. -/
def bitlen (n : Nat) : Nat := bitlen_aux n n

/-- Nearest integer to `N / D`, ties to even. -/
def rne (N D : Nat) : Nat :=
  if 2 * (N % D) < D then N / D
  else if D < 2 * (N % D) then N / D + 1
  else if (N / D) % 2 = 0 then N / D else N / D + 1

/-- Numerator of `(N / D) / 2^e`. -/
def scale_num (N : Nat) (e : Int) : Nat := N * 2 ^ (-e).toNat

/-- Denominator of `(N / D) / 2^e`. -/
def scale_den (D : Nat) (e : Int) : Nat := D * 2 ^ e.toNat

/-- Round the positive rational `N / D` to `p` significant bits, nearest-even. -/
def fp_round (p : Nat) (neg : Bool) (N D : Nat) : fp :=
  if N = 0 then fp.fin neg 0 0 else
  let e0 : Int := (bitlen N : Int) - (bitlen D : Int) - (p : Int)
  let e : Int := if 2 ^ p * scale_den D e0 ≤ scale_num N e0 then e0 + 1 else e0
  let m := rne (scale_num N e) (scale_den D e)
  if m = 2 ^ p then fp.fin neg (2 ^ (p - 1)) (e + 1) else fp.fin neg m e

/-- Conversion of an integer to a `p`-bit floating-point value. -/
def fp_of_int (p : Nat) (v : Int) : fp := fp_round p (decide (v < 0)) v.natAbs 1

/-- Conversion between the two formats (`float` to `double` is exact). -/
def fp_cvt (p : Nat) : fp → fp
  | fp.fin s m e => fp_round p s (scale_num m (-e)) (scale_den 1 (-e))
  | x => x

/-- IEEE 754 division, result rounded to `p` bits. -/
def fp_div (p : Nat) : fp → fp → fp
  | fp.nan, _ => fp.nan
  | _, fp.nan => fp.nan
  | fp.inf _, fp.inf _ => fp.nan
  | fp.inf s, fp.fin t _ _ => fp.inf (xor s t)
  | fp.fin s _ _, fp.inf t => fp.fin (xor s t) 0 0
  | fp.fin s m e, fp.fin t n f =>
    if n = 0 then (if m = 0 then fp.nan else fp.inf (xor s t))
    else fp_round p (xor s t) (scale_num m (f - e)) (scale_den n (f - e))

/-- IEEE 754 multiplication, result rounded to `p` bits. -/
def fp_mul (p : Nat) : fp → fp → fp
  | fp.nan, _ => fp.nan
  | _, fp.nan => fp.nan
  | fp.inf s, fp.inf t => fp.inf (xor s t)
  | fp.inf s, fp.fin t n _ => if n = 0 then fp.nan else fp.inf (xor s t)
  | fp.fin s m _, fp.inf t => if m = 0 then fp.nan else fp.inf (xor s t)
  | fp.fin s m e, fp.fin t n f =>
    fp_round p (xor s t) (scale_num (m * n) (-(e + f))) (scale_den 1 (-(e + f)))

/-- Exact value of a finite floating-point number. -/
def fp.toRat : fp → Option ℚ
  | fp.fin s m e => some ((if s then -1 else 1) * (m : ℚ) * (2 : ℚ) ^ e)
  | _ => none

/-- Output of `printf("%.2f", x)` (OpenBSD libc): the decimal expansion of the
exact value, correctly rounded to two fractional digits. A `float` argument is
promoted to `double`, which keeps its value. -/
def fmt_f2 : fp → String
  | fp.nan => "nan"
  | fp.inf s => (if s then "-" else "") ++ "inf"
  | fp.fin s m e =>
    let n := rne (scale_num (m * 100) (-e)) (scale_den 1 (-e))
    (if s then "-" else "") ++ toString (n / 100) ++ "." ++
      toString (n % 100 / 10) ++ toString (n % 10)

/-- Output of `printf("%d", c)` for a non-negative counter. -/
def fmt_d (c : Nat) : String := toString c

/-! ## print_stat -/

/-- Source lines 141-142: `rem_per = (float) bat->rem_cap / bat->cap;` is a `float`
division (`bat->cap` is converted to `float`); `rem_per *= 100.0;` multiplies in
`double` and converts the product back to `float`. -/
def rem_per (bat : bat_stat) : fp :=
  let rem_per := fp_div 24 (fp_of_int 24 bat.rem_cap) (fp_of_int 24 bat.cap)
  fp_cvt 24 (fp_mul 53 (fp_cvt 53 rem_per) (fp_of_int 53 100))

/-- The `double` expression `x / 1000000.0` for an `int64_t` `x`. -/
def micro (x : Int) : fp := fp_div 53 (fp_of_int 53 x) (fp_of_int 53 1000000)

/-- Body of the first `SIMPLEQ_FOREACH` (lines 131-137) for one record. -/
def print_ac (print_short : Bool) (c_ac : Nat) (ac : ac_stat) : String :=
  if print_short then
    "AC" ++ fmt_d c_ac ++ ": " ++ (if ac.online ≠ 0 then "ON" else "OFF") ++ " "
  else
    "AC" ++ fmt_d c_ac ++ ": " ++
      (if ac.online ≠ 0 then "Connected" else "Disconnected") ++ "\n"

/-- Body of the second `SIMPLEQ_FOREACH` (lines 141-164) for one record. -/
def print_bat (print_short : Bool) (c_bat : Nat) (bat : bat_stat) : String :=
  let rem_per := rem_per bat
  if print_short then
    "BAT" ++ fmt_d c_bat ++ ": " ++ fmt_f2 rem_per ++ "% (" ++ bat.raw_bat ++ ") "
  else
    "Battery" ++ fmt_d c_bat ++ ": " ++ bat.raw_bat ++ "\n" ++
    "Battery" ++ fmt_d c_bat ++ ": " ++ fmt_f2 rem_per ++ "% remaining\n" ++
    "Battery" ++ fmt_d c_bat ++ ": design capacity of " ++ fmt_f2 (micro bat.cap) ++ " Wh\n" ++
    "Battery" ++ fmt_d c_bat ++ ": rate of " ++ fmt_f2 (micro bat.rate) ++ " W\n" ++
    "Battery" ++ fmt_d c_bat ++ ": Voltage is " ++ fmt_f2 (micro bat.cur_voltage) ++
      " VDC out of " ++ fmt_f2 (micro bat.voltage) ++ " VDC\n" ++
    "Battery" ++ fmt_d c_bat ++ ": last charged to " ++ fmt_f2 (micro bat.last_cap) ++ " Wh\n" ++
    "Battery" ++ fmt_d c_bat ++ ": low capacity is set for " ++ fmt_f2 (micro bat.low_cap) ++
      " Wh\n" ++
    "Battery" ++ fmt_d c_bat ++ ": warning capacity is set for " ++
      fmt_f2 (micro bat.warn_cap) ++ " Wh\n" ++
    "Battery" ++ fmt_d c_bat ++ ": remaining capacity at " ++ fmt_f2 (micro bat.rem_cap) ++
      " Wh\n"

/-- Source lines 123-168. Each loop carries its counter and the text printed so
far; the function returns everything written to standard output. -/
def print_stat (print_short : Bool) (ac_head : List ac_stat) (bat_head : List bat_stat) :
    String :=
  let out := (ac_head.foldl
    (fun (st : Nat × String) ac => (st.1 + 1, st.2 ++ print_ac print_short st.1 ac))
    (0, "")).2
  let out := (bat_head.foldl
    (fun (st : Nat × String) bat => (st.1 + 1, st.2 ++ print_bat print_short st.1 bat))
    (0, out)).2
  out ++ "\n"


/-! ## The sysctl interface and main's enumeration loop -/

def ENOENT : Nat := 2
def ENXIO : Nat := 6

/-- Result of one `sysctl(2)` call: the structure copied out, or `-1` with `errno`. -/
inductive sysctl_result (α : Type)
  | ok (v : α)
  | fail (errno : Nat)
  deriving DecidableEq, Repr

/-- The `mib` of a `sysctl(2)` call: `{CTL_HW, HW_SENSORS, sd_num}` for a device
descriptor, `{CTL_HW, HW_SENSORS, sd_num, type, n}` for a sensor reading. -/
inductive Query
  | dev (sd_num : Nat)
  | sens (sd_num : Nat) (type : sensor_type) (n : Nat)
  deriving DecidableEq, Repr

/-- Everything the run depends on outside the program text: the answers of the
kernel to the two kinds of sysctl query, the contents of the two automatic
buffers of `main` before they are written, and what `malloc` returns while
device `sd_num` is processed: `none` for `NULL`, otherwise the block with the
contents it happens to have. -/
structure Env where
  sensordev_at : Nat → sysctl_result sensordev
  sensor_at : Nat → sensor_type → Nat → sysctl_result sensor
  stack_sensordev : sensordev
  stack_sensor : sensor
  malloc_ac : Nat → Option ac_stat
  malloc_bat : Nat → Option bat_stat

/-- The variables of `main` that the loop changes, the two queues, and the list of
sysctl calls issued so far. -/
structure State where
  sensordev : sensordev
  sensor : sensor
  ac_head : List ac_stat
  bat_head : List bat_stat
  first_ac : Bool
  first_bat : Bool
  queries : List Query

/-- State at line 217: flags set, queues empty, buffers not yet written. -/
def init (env : Env) : State :=
  { sensordev := env.stack_sensordev, sensor := env.stack_sensor,
    ac_head := [], bat_head := [], first_ac := true, first_bat := true, queries := [] }

/-- What the statement `if (sysctl(...) == -1) { if (errno == ENXIO) continue;
if (errno == ENOENT) break; }` does: leave by `continue`, leave by `break`, or go
on with the buffer (fresh on success, as it was on any other failure). -/
inductive Outcome (α : Type)
  | continue_
  | break_
  | proceed (buf : α)

def sysctl_outcome {α : Type} (r : sysctl_result α) (buf : α) : Outcome α :=
  match r with
  | sysctl_result.ok v => Outcome.proceed v
  | sysctl_result.fail errno =>
    if errno = ENXIO then Outcome.continue_
    else if errno = ENOENT then Outcome.break_
    else Outcome.proceed buf

/-- Conversion of an `int64_t` to `int` (two's complement, low 32 bits). -/
def to_int (v : Int) : Int := (v + 2 ^ 31) % 2 ^ 32 - 2 ^ 31

/-- Source lines 245-250. -/
def insert_ac (st : State) (ac : ac_stat) : State :=
  if st.first_ac then { st with ac_head := ac :: st.ac_head, first_ac := false }
  else { st with ac_head := st.ac_head ++ [ac] }

/-- Source lines 281-286. -/
def insert_bat (st : State) (bat : bat_stat) : State :=
  if st.first_bat then { st with bat_head := bat :: st.bat_head, first_bat := false }
  else { st with bat_head := st.bat_head ++ [bat] }

/-- How the body of the device loop is left. -/
inductive Ctl
  | fall
  | continue_
  | break_
  deriving DecidableEq, Repr

/-- Source lines 226-252, the AC check; the record is allocated at line 242 and
filled and queued only when the allocation succeeded (line 243). -/
def check_ac (env : Env) (sd_num : Nat) (st : State) : Ctl × State :=
  if strncmp acpi_pow st.sensordev.xname (strlen acpi_pow) = 0 then
    let st := { st with queries := st.queries ++ [Query.sens sd_num SENSOR_INDICATOR 0] }
    match sysctl_outcome (env.sensor_at sd_num SENSOR_INDICATOR 0) st.sensor with
    | Outcome.continue_ => (Ctl.continue_, st)
    | Outcome.break_ => (Ctl.break_, st)
    | Outcome.proceed buf =>
      let st := { st with sensor := buf }
      match env.malloc_ac sd_num with
      | some ac => (Ctl.fall, insert_ac st { ac with online := to_int st.sensor.value })
      | none => (Ctl.fall, st)
  else (Ctl.fall, st)

/-- Source lines 263-277, the slot loop for one sensor type: `todo` iterations are
left, the next slot is `n`; `bat` is `none` when `malloc` returned `NULL`, and
then no reading is processed (line 274). -/
def slot_loop (env : Env) (sd_num : Nat) (type : sensor_type) :
    Nat → Nat → State → Option bat_stat → State × Option bat_stat
  | 0, _, st, bat => (st, bat)
  | todo + 1, n, st, bat =>
    let st := { st with queries := st.queries ++ [Query.sens sd_num type n] }
    match sysctl_outcome (env.sensor_at sd_num type n) st.sensor with
    | Outcome.continue_ => slot_loop env sd_num type todo (n + 1) st bat
    | Outcome.break_ => (st, bat)
    | Outcome.proceed buf =>
      let st := { st with sensor := buf }
      slot_loop env sd_num type todo (n + 1) st
        (match bat with
          | some b => some (process_bat_sensor b st.sensor)
          | none => none)

/-- Source lines 261-278, the loop over `bat_types`. -/
def type_loop (env : Env) (sd_num : Nat) (st : State) (bat : Option bat_stat) :
    State × Option bat_stat :=
  bat_types.foldl
    (fun (sb : State × Option bat_stat) type =>
      slot_loop env sd_num type sb.1.sensordev.sensors_count.toNat 0 sb.1 sb.2)
    (st, bat)

/-- Source lines 254-288, the battery check: the record is allocated (line 259),
the sensor loops run whether or not the allocation succeeded, and the record is
queued only when it is not `NULL` (line 280). -/
def check_bat (env : Env) (sd_num : Nat) (st : State) : State :=
  if strncmp acpi_bat st.sensordev.xname (strlen acpi_bat) = 0 then
    let bat := env.malloc_bat sd_num
    let sb := type_loop env sd_num st bat
    match sb.2 with
    | some b => insert_bat sb.1 b
    | none => sb.1
  else st

/-- Source lines 218-288, one pass through the body of the device loop. -/
def loop_body (env : Env) (sd_num : Nat) (st : State) : Ctl × State :=
  let st := { st with queries := st.queries ++ [Query.dev sd_num] }
  match sysctl_outcome (env.sensordev_at sd_num) st.sensordev with
  | Outcome.continue_ => (Ctl.continue_, st)
  | Outcome.break_ => (Ctl.break_, st)
  | Outcome.proceed buf =>
    let st := { st with sensordev := buf }
    match check_ac env sd_num st with
    | (Ctl.fall, st) => (Ctl.fall, check_bat env sd_num st)
    | r => r

/-- Source line 217, `for (sd_num = 0; ; sd_num++)`: the loop has no exit
condition of its own, so the model runs it for at most `fuel` passes and yields
`none` when it has not reached a `break` by then. -/
def device_loop (env : Env) : Nat → Nat → State → Option State
  | 0, _, _ => none
  | fuel + 1, sd_num, st =>
    match loop_body env sd_num st with
    | (Ctl.break_, st) => some st
    | (_, st) => device_loop env fuel (sd_num + 1) st

/-- Source lines 217-290: enumeration from device 0, then the report. -/
def run (env : Env) (print_short : Bool) (fuel : Nat) : Option String :=
  (device_loop env fuel 0 (init env)).map
    (fun st => print_stat print_short st.ac_head st.bat_head)

/-! ## Command line and main -/

/-- Source lines 170-175, the text `usage()` writes to standard output;
`progname` is what `getprogname()` returns. -/
def usage (progname : String) : String :=
  "usage: " ++ progname ++ " [OPTIONS]\n" ++
  "Simple utility for printing battery status\n" ++
  "\t-h\t\tthis help message\n" ++
  "\t-v\t\tverbose\n"

/-- Model of `getopt(3)` (POSIX) with the option string "hv": the values the
successive calls return before the final `-1`, for the arguments `args` that
follow `argv[0]`. An argument that does not begin with '-', the argument "-" and
the argument "--" end the options; every character after the '-' of an option
argument is an option character, returned as is when it is 'h' or 'v' and as
'?' otherwise. -/
def getopt_hv : List String → List Char
  | [] => []
  | arg :: rest =>
    match arg.toList with
    | '-' :: c :: cs =>
      if c = '-' ∧ cs = [] then []
      else (c :: cs).map (fun o => if o = 'h' ∨ o = 'v' then o else '?') ++ getopt_hv rest
    | _ => []

/-- Source lines 204-213, the option loop over the values of `getopt`: 'v'
clears `print_short`, any other value prints the usage and returns 1 (`none`);
the end of the options leaves the loop with `print_short` (`some`). -/
def parse_opts : List Char → Bool → Option Bool
  | [], print_short => some print_short
  | opt_ch :: more, _ =>
    if opt_ch = 'v' then parse_opts more false else none

/-- What a terminated run leaves behind: the text on standard output, the exit
status, and the sysctl calls it issued. -/
structure Exit where
  stdout : String
  status : Int
  queries : List Query
  deriving DecidableEq, Repr

/-- Source lines 177-292. `none` when the device loop has not ended within `fuel`
passes. -/
def main (env : Env) (progname : String) (args : List String) (fuel : Nat) : Option Exit :=
  match parse_opts (getopt_hv args) true with
  | none => some { stdout := usage progname, status := 1, queries := [] }
  | some print_short =>
    (device_loop env fuel 0 (init env)).map
      (fun st => { stdout := print_stat print_short st.ac_head st.bat_head, status := 0,
                   queries := st.queries })

/-! ## Specification-side definitions

The notions the claims are phrased in, written from their wording. -/

/-- The eight (type, description) pairs of the reading classification table. -/
def recognised (t : sensor_type) (d : String) : Bool :=
  (t = SENSOR_VOLTS_DC && (d = "voltage" || d = "current voltage")) ||
  (t = SENSOR_WATTS && d = "rate") ||
  (t = SENSOR_WATTHOUR && (d = "last full capacity" || d = "warning capacity" ||
    d = "low capacity" || d = "remaining capacity" || d = "design capacity"))

/-- C6 as worded: the two strings agree on their first `k` characters, `k` the
length of the shorter one. -/
def agree_on_shorter (a b : String) : Bool :=
  decide (a.toList.take (min a.length b.length) = b.toList.take (min a.length b.length))

/-! ### Example environments -/

/-- A kernel with no sensor devices at all, on a system where every `malloc`
succeeds and hands out a zero-filled block; the examples below override it. -/
def empty_env : Env where
  sensordev_at := fun _ => sysctl_result.fail ENOENT
  sensor_at := fun _ _ _ => sysctl_result.fail ENOENT
  stack_sensordev := ⟨"", 0⟩
  stack_sensor := ⟨"", 0, SENSOR_TEMP⟩
  malloc_ac := fun _ => some ⟨0⟩
  malloc_bat := fun _ => some ⟨"", 0, 0, 0, 0, 0, 0, 0, 0⟩

/-- Device 0 is `cpu0` with one temperature sensor. -/
def env_cpu : Env :=
  { empty_env with
    sensordev_at := fun i => if i = 0 then sysctl_result.ok ⟨"cpu0", 1⟩
      else sysctl_result.fail ENOENT
    sensor_at := fun _ _ _ => sysctl_result.ok ⟨"", 310150000, SENSOR_TEMP⟩ }

/-- Device 0 is `acpiac0`, whose indicator reads 2^32. -/
def env_ac_wide : Env :=
  { empty_env with
    sensordev_at := fun i => if i = 0 then sysctl_result.ok ⟨"acpiac0", 1⟩
      else sysctl_result.fail ENOENT
    sensor_at := fun _ _ _ => sysctl_result.ok ⟨"power supply", 4294967296, SENSOR_INDICATOR⟩ }

/-- Device 0 is `acpibat0` with two sensor slots, every sensor query fails with
`ENXIO`, and the block `malloc` hands out is not zero-filled. -/
def env_bat_unread : Env :=
  { empty_env with
    sensordev_at := fun i => if i = 0 then sysctl_result.ok ⟨"acpibat0", 2⟩
      else sysctl_result.fail ENOENT
    sensor_at := fun _ _ _ => sysctl_result.fail ENXIO
    malloc_bat := fun _ => some ⟨"junk", 11, 12, 13, 14, 15, 16, 17, 18⟩ }

/-- A device as a query interface presents it when every query on it succeeds:
its descriptor and the reading found at each (type, slot). -/
structure Device where
  descr : sensordev
  reading : sensor_type → Nat → sensor

/-- The query interface `env` presents exactly the devices `devs`, in this order,
at the indices `0 .. devs.length - 1`: every descriptor and sensor query on them
succeeds, and the descriptor query at the next index reports `ENOENT`. -/
def presents (env : Env) (devs : List Device) : Prop :=
  (∀ i d, devs[i]? = some d →
    env.sensordev_at i = sysctl_result.ok d.descr ∧
    ∀ t n, env.sensor_at i t n = sysctl_result.ok (d.reading t n)) ∧
  env.sensordev_at devs.length = sysctl_result.fail ENOENT

/-- An AC device: the name begins with "acpiac". -/
def is_ac (d : Device) : Bool := "acpiac".toList.isPrefixOf d.descr.xname.toList

/-- A battery device: the name begins with "acpibat". -/
def is_bat (d : Device) : Bool := "acpibat".toList.isPrefixOf d.descr.xname.toList

/-- The AC record of a device: its indicator reading in slot 0, as an `int`. -/
def ac_of (d : Device) : ac_stat := { online := to_int (d.reading SENSOR_INDICATOR 0).value }

/-- The readings of a battery device in the order they are visited: the four
types in the order of `bat_types`, the slots of each type in increasing order. -/
def bat_readings (d : Device) : List sensor :=
  bat_types.flatMap (fun t => (List.range d.descr.sensors_count.toNat).map (d.reading t))

/-- The battery record of a device: the allocated block after all its readings. -/
def bat_of (block : bat_stat) (d : Device) : bat_stat :=
  (bat_readings d).foldl process_bat_sensor block

/-- The AC records of the devices `ds` found at the indices `j, j+1, ...`, in
enumeration order: one for each AC device whose allocation succeeds. -/
def ac_records (env : Env) (j : Nat) (ds : List Device) : List ac_stat :=
  ((ds.enumFrom j).filter (fun p => is_ac p.2)).filterMap
    (fun p => (env.malloc_ac p.1).map (fun _ => ac_of p.2))

/-- The battery records of the devices `ds` found at the indices `j, j+1, ...`,
in enumeration order: one for each battery device whose allocation succeeds. -/
def bat_records (env : Env) (j : Nat) (ds : List Device) : List bat_stat :=
  ((ds.enumFrom j).filter (fun p => is_bat p.2)).filterMap
    (fun p => (env.malloc_bat p.1).map (fun block => bat_of block p.2))

/-- Concatenation of a list of strings, in list order. -/
def concat_all : List String → String
  | [] => ""
  | s :: l => s ++ concat_all l

/-- The short-form entry of the AC record at position `i` of the AC list. -/
def short_ac_entry (i : Nat) (ac : ac_stat) : String :=
  "AC" ++ toString i ++ ": " ++ (if ac.online ≠ 0 then "ON" else "OFF") ++ " "

/-- The short-form entry of the battery record at position `j` of the battery
list: the percentage with two decimals and the label. -/
def short_bat_entry (j : Nat) (bat : bat_stat) : String :=
  "BAT" ++ toString j ++ ": " ++ fmt_f2 (rem_per bat) ++ "% (" ++ bat.raw_bat ++ ") "

/-- The short report as C2 and C3 describe it: the AC entries in list order, then
the battery entries in list order, then one newline. -/
def short_report (acs : List ac_stat) (bats : List bat_stat) : String :=
  concat_all (acs.enum.map (fun p => short_ac_entry p.1 p.2)) ++
    concat_all (bats.enum.map (fun p => short_bat_entry p.1 p.2)) ++ "\n"

/-- The verbose-form entry of the AC record at position `i` of the AC list: one
line with the index and "Connected" or "Disconnected". -/
def verbose_ac_entry (i : Nat) (ac : ac_stat) : String :=
  "AC" ++ toString i ++ ": " ++ (if ac.online ≠ 0 then "Connected" else "Disconnected") ++ "\n"

/-- The verbose-form entry of the battery record at position `j` of the battery
list: label, percentage, design capacity, rate, current and maximum voltage,
last-charged capacity, low-capacity threshold, warning-capacity threshold and
remaining capacity, the values in micro-units divided by 1,000,000 and printed
with two decimals. -/
def verbose_bat_entry (j : Nat) (bat : bat_stat) : String :=
  "Battery" ++ toString j ++ ": " ++ bat.raw_bat ++ "\n" ++
  "Battery" ++ toString j ++ ": " ++ fmt_f2 (rem_per bat) ++ "% remaining\n" ++
  "Battery" ++ toString j ++ ": design capacity of " ++ fmt_f2 (micro bat.cap) ++ " Wh\n" ++
  "Battery" ++ toString j ++ ": rate of " ++ fmt_f2 (micro bat.rate) ++ " W\n" ++
  "Battery" ++ toString j ++ ": Voltage is " ++ fmt_f2 (micro bat.cur_voltage) ++
    " VDC out of " ++ fmt_f2 (micro bat.voltage) ++ " VDC\n" ++
  "Battery" ++ toString j ++ ": last charged to " ++ fmt_f2 (micro bat.last_cap) ++ " Wh\n" ++
  "Battery" ++ toString j ++ ": low capacity is set for " ++ fmt_f2 (micro bat.low_cap) ++
    " Wh\n" ++
  "Battery" ++ toString j ++ ": warning capacity is set for " ++ fmt_f2 (micro bat.warn_cap) ++
    " Wh\n" ++
  "Battery" ++ toString j ++ ": remaining capacity at " ++ fmt_f2 (micro bat.rem_cap) ++ " Wh\n"

/-- The verbose report: the AC entries in list order, then the battery entries
in list order, then one newline. -/
def verbose_report (acs : List ac_stat) (bats : List bat_stat) : String :=
  concat_all (acs.enum.map (fun p => verbose_ac_entry p.1 p.2)) ++
    concat_all (bats.enum.map (fun p => verbose_bat_entry p.1 p.2)) ++ "\n"

/-- The two `first_` flags are only set while their queue is still empty. -/
def flags_ok (st : State) : Prop :=
  (st.first_ac = true → st.ac_head = []) ∧ (st.first_bat = true → st.bat_head = [])

/-- The query interface that presents the devices `devs` at the indices
`0 .. devs.length - 1` and reports `ENOENT` everywhere else. -/
def env_of (devs : List Device) : Env :=
  { empty_env with
    sensordev_at := fun i =>
      match devs[i]? with
      | some d => sysctl_result.ok d.descr
      | none => sysctl_result.fail ENOENT
    sensor_at := fun i t n =>
      match devs[i]? with
      | some d => sysctl_result.ok (d.reading t n)
      | none => sysctl_result.fail ENOENT }

/-- Readings of a small battery: design capacity `cap`, remaining capacity `rem`,
label `label`; the integer reading sits in slot 0, as do voltage and rate. -/
def battery_reading (label : String) (rem cap : Int) (t : sensor_type) (n : Nat) : sensor :=
  match t, n with
  | SENSOR_VOLTS_DC, 0 => ⟨"voltage", 11100000, SENSOR_VOLTS_DC⟩
  | SENSOR_VOLTS_DC, _ => ⟨"current voltage", 12000000, SENSOR_VOLTS_DC⟩
  | SENSOR_WATTS, _ => ⟨"rate", 0, SENSOR_WATTS⟩
  | SENSOR_WATTHOUR, 0 => ⟨"last full capacity", cap, SENSOR_WATTHOUR⟩
  | SENSOR_WATTHOUR, 1 => ⟨"remaining capacity", rem, SENSOR_WATTHOUR⟩
  | SENSOR_WATTHOUR, _ => ⟨"design capacity", cap, SENSOR_WATTHOUR⟩
  | t, _ => ⟨label, 0, t⟩

/-- Five devices: a CPU sensor, a battery, two AC adapters, a second battery. -/
def example_devs : List Device :=
  [ ⟨⟨"cpu0", 1⟩, fun t _ => ⟨"", 310150000, t⟩⟩,
    ⟨⟨"acpibat0", 3⟩, battery_reading "LION0" 5000000 10000000⟩,
    ⟨⟨"acpiac0", 1⟩, fun t _ => ⟨"power supply", 1, t⟩⟩,
    ⟨⟨"acpiac1", 1⟩, fun t _ => ⟨"power supply", 0, t⟩⟩,
    ⟨⟨"acpibat1", 3⟩, battery_reading "LION1" 30000000 40000000⟩ ]

/-- The state at the top of the loop body for index `n` when no earlier pass
left the loop: the initial state after the passes for the indices `0 .. n - 1`. -/
def state_before_pass (env : Env) : Nat → State
  | 0 => init env
  | n + 1 => (loop_body env n (state_before_pass env n)).2

/-- The value `x'` approximates `x` with relative error at most `ε`. -/
def rel_close (ε x' x : ℚ) : Prop := |x' - x| ≤ ε * |x|

/-- Number of lines of a text: the number of newline characters in it. -/
def line_count (s : String) : Nat := s.toList.count '\n'

/-- Plain append at the end of a list, the rule C14 compares the queue insertion
with. -/
def plain_append {α : Type} (l : List α) (x : α) : List α := l ++ [x]

/-- What one pass of the loop body does once the descriptor query has left the
descriptor `d` in the buffer: the AC check, then (unless the AC check left the
body) the battery check. -/
def process_descriptor (env : Env) (sd_num : Nat) (st : State) (d : sensordev) : Ctl × State :=
  match check_ac env sd_num
      { st with queries := st.queries ++ [Query.dev sd_num], sensordev := d } with
  | (Ctl.fall, st) => (Ctl.fall, check_bat env sd_num st)
  | r => r

/-- Device 0 is the battery `acpibat0` with three sensor slots, the
descriptor query for device 1 fails with `EIO` (errno 5), device 2 is past the
end. -/
def env_stale : Env :=
  { empty_env with
    sensordev_at := fun i =>
      if i = 0 then sysctl_result.ok ⟨"acpibat0", 3⟩
      else if i = 1 then sysctl_result.fail 5
      else sysctl_result.fail ENOENT
    sensor_at := fun i t n =>
      if i = 0 then sysctl_result.ok (battery_reading "LION0" 5000000 10000000 t n)
      else sysctl_result.fail 5 }

/-- The interface of `env_stale` on a system where the `malloc` call made while
index 1 is processed returns `NULL`. -/
def env_stale_no_memory : Env :=
  { env_stale with malloc_bat := fun i => if i = 1 then none else env_stale.malloc_bat i }

/-- Device 0 is the AC adapter `acpiac0` whose indicator query fails with
`errno`; device 1 is the battery `acpibat0`; device 2 is past the end. -/
def env_ac_fails (errno : Nat) : Env :=
  { empty_env with
    sensordev_at := fun i =>
      if i = 0 then sysctl_result.ok ⟨"acpiac0", 1⟩
      else if i = 1 then sysctl_result.ok ⟨"acpibat0", 3⟩
      else sysctl_result.fail ENOENT
    sensor_at := fun i t n =>
      if i = 0 then sysctl_result.fail errno
      else sysctl_result.ok (battery_reading "LION0" 5000000 10000000 t n) }

/-- The slots of one sensor type that are queried on a device with `S` sensor
slots, given the answers `r` of the kernel: slot `j < S` is queried exactly when
no earlier slot answered `ENOENT`. The list is in increasing order. -/
def slots_queried (r : Nat → sysctl_result sensor) (S : Nat) : List Nat :=
  (List.range S).filter
    (fun j => (List.range j).all (fun m => decide (r m ≠ sysctl_result.fail ENOENT)))

/-- The readings of one sensor type that reach `process_bat_sensor` when no query
fails with an errno other than `ENXIO` and `ENOENT`: those of the queried slots
whose query succeeded. -/
def readings_fed (r : Nat → sysctl_result sensor) (S : Nat) : List sensor :=
  (slots_queried r S).filterMap
    (fun j => match r j with
      | sysctl_result.ok v => some v
      | sysctl_result.fail _ => none)

/-- The slots queried by `todo` iterations starting at slot `n`. -/
def slots_from (r : Nat → sysctl_result sensor) : Nat → Nat → List Nat
  | 0, _ => []
  | todo + 1, n =>
    n :: (if r n = sysctl_result.fail ENOENT then [] else slots_from r todo (n + 1))

/-- Device 0 is the battery `acpibat0` with four sensor slots. Voltage: slot 0
fails with `ENXIO`, slot 1 reads "voltage". Power: slot 0 fails with `ENOENT`.
Energy: slot 0 reads "design capacity", slot 1 "remaining capacity", slot 2
fails with `ENOENT`. Integer: slot 0 reads the label, slot 1 fails with `ENOENT`. -/
def env_bat_gaps : Env :=
  { empty_env with
    sensordev_at := fun i =>
      if i = 0 then sysctl_result.ok ⟨"acpibat0", 4⟩ else sysctl_result.fail ENOENT
    sensor_at := fun _ t n =>
      match t, n with
      | SENSOR_VOLTS_DC, 0 => sysctl_result.fail ENXIO
      | SENSOR_VOLTS_DC, 1 => sysctl_result.ok ⟨"voltage", 11100000, SENSOR_VOLTS_DC⟩
      | SENSOR_VOLTS_DC, _ => sysctl_result.fail ENXIO
      | SENSOR_WATTHOUR, 0 => sysctl_result.ok ⟨"design capacity", 60000000, SENSOR_WATTHOUR⟩
      | SENSOR_WATTHOUR, 1 => sysctl_result.ok ⟨"remaining capacity", 15000000, SENSOR_WATTHOUR⟩
      | SENSOR_INTEGER, 0 => sysctl_result.ok ⟨"LION0", 0, SENSOR_INTEGER⟩
      | _, _ => sysctl_result.fail ENOENT }

/-- The interface of `env_bat_gaps` on a system where `malloc` returns `NULL`. -/
def env_bat_gaps_no_memory : Env :=
  { env_bat_gaps with malloc_bat := fun _ => none }

/-- Number of sensor-reading queries in a query log. -/
def sensor_queries (qs : List Query) : Nat :=
  qs.countP (fun q => match q with
    | Query.sens _ _ _ => true
    | Query.dev _ => false)

/-- Number of device-descriptor queries in a query log. -/
def descriptor_queries (qs : List Query) : Nat :=
  qs.countP (fun q => match q with
    | Query.sens _ _ _ => false
    | Query.dev _ => true)

/-- The descriptors enumerated below index `E`: the number of indices `i < E`
whose descriptor query is not answered `ENXIO`, i.e. the passes of the loop that
go on to work with a descriptor (the one returned, or the one left in the buffer
when the query fails with another errno). -/
def enumerated (env : Env) (E : Nat) : Nat :=
  (List.range E).countP (fun i => decide (env.sensordev_at i ≠ sysctl_result.fail ENXIO))

/-- Device 0 is the AC adapter `acpiac0`, whose descriptor reports no sensor
slot; device 1 is past the end. -/
def env_ac_no_slots : Env :=
  { empty_env with
    sensordev_at := fun i =>
      if i = 0 then sysctl_result.ok ⟨"acpiac0", 0⟩ else sysctl_result.fail ENOENT
    sensor_at := fun _ t _ => sysctl_result.ok ⟨"power supply", 1, t⟩ }

/-- The first descriptor query fails with `EIO` (errno 5) while the descriptor
buffer, an uninitialised stack variable, happens to hold the name "acpibat9" and
a slot count of 2; index 1 is past the end. Every sensor query answers `ENXIO`. -/
def env_stack_garbage : Env :=
  { empty_env with
    sensordev_at := fun i => if i = 0 then sysctl_result.fail 5 else sysctl_result.fail ENOENT
    sensor_at := fun _ _ _ => sysctl_result.fail ENXIO
    stack_sensordev := ⟨"acpibat9", 2⟩ }

/-- Indices 0 to 39 answer `ENXIO`, device 40 is the battery `acpibat0` with one
sensor slot, index 41 is past the end. -/
def env_sparse : Env :=
  { empty_env with
    sensordev_at := fun i =>
      if i = 40 then sysctl_result.ok ⟨"acpibat0", 1⟩
      else if i = 41 then sysctl_result.fail ENOENT
      else sysctl_result.fail ENXIO
    sensor_at := fun _ t n => sysctl_result.ok (battery_reading "LION0" 5000000 10000000 t n) }

/-- A kernel that answers every descriptor query with `ENXIO`. -/
def env_all_enxio : Env :=
  { empty_env with sensordev_at := fun _ => sysctl_result.fail ENXIO }

/-- One battery with a single sensor slot, every query on it succeeding. -/
def one_battery : List Device :=
  [⟨⟨"acpibat0", 1⟩, battery_reading "LION0" 5000000 10000000⟩]

/-- The arguments scanned as options: the leading arguments that begin with '-'
and are neither "-" nor "--"; option parsing stops at the first other argument. -/
def option_args (args : List String) : List String :=
  args.takeWhile (fun a => decide (a.toList.head? = some '-' ∧ a ≠ "-" ∧ a ≠ "--"))

/-- The flags on the command line before option parsing stops: the characters
after the '-' of each option argument. -/
def flags (args : List String) : List Char :=
  (option_args args).flatMap (fun a => a.toList.drop 1)

/-! ## Theorems -/

/-! ### String functions -/

theorem strcmp_eq_zero_iff (s1 s2 : String) : strcmp s1 s2 = 0 ↔ s1 = s2 := by
  unfold strcmp
  constructor
  · intro h
    by_cases h1 : s1.toList = s2.toList
    · exact String.ext h1
    · rw [if_neg h1] at h
      split at h <;> omega
  · intro h
    simp [h]

/-! ### process_bat_sensor -/

theorem process_integer (r : bat_stat) (s : sensor) (h : s.type = SENSOR_INTEGER) :
    process_bat_sensor r s = { r with raw_bat := String.mk (s.desc.toList.take 31) } := by
  obtain ⟨d, v, t⟩ := s
  subst h
  rfl

/-- C1: a reading whose (type, description) is one of the eight recognised pairs
sets exactly its target field to the reading's value and leaves the seven other
numeric fields and the label as they were; energy / "design capacity" /
60,000,000 gives `cap = 60,000,000`. -/
theorem process_bat_sensor_recognised (r : bat_stat) (v : Int) :
    process_bat_sensor r ⟨"voltage", v, SENSOR_VOLTS_DC⟩ = { r with voltage := v } ∧
    process_bat_sensor r ⟨"current voltage", v, SENSOR_VOLTS_DC⟩
      = { r with cur_voltage := v } ∧
    process_bat_sensor r ⟨"rate", v, SENSOR_WATTS⟩ = { r with rate := v } ∧
    process_bat_sensor r ⟨"last full capacity", v, SENSOR_WATTHOUR⟩
      = { r with last_cap := v } ∧
    process_bat_sensor r ⟨"warning capacity", v, SENSOR_WATTHOUR⟩
      = { r with warn_cap := v } ∧
    process_bat_sensor r ⟨"low capacity", v, SENSOR_WATTHOUR⟩ = { r with low_cap := v } ∧
    process_bat_sensor r ⟨"remaining capacity", v, SENSOR_WATTHOUR⟩
      = { r with rem_cap := v } ∧
    process_bat_sensor r ⟨"design capacity", v, SENSOR_WATTHOUR⟩ = { r with cap := v } ∧
    (process_bat_sensor r ⟨"design capacity", 60000000, SENSOR_WATTHOUR⟩).cap = 60000000 := by
  simp only [process_bat_sensor, strcmp_eq_zero_iff, bat_volt, bat_cvolt, bat_rate, bat_last,
    bat_warn, bat_low, bat_rem, bat_cap]
  refine ⟨?_, ?_, ?_, ?_, ?_, ?_, ?_, ?_, ?_⟩ <;> simp

/-- C9: a reading that is not of integer type and whose (type, description) is
not one of the eight recognised pairs (a voltage, power or energy reading with
an unlisted description, or a reading of any other type) leaves the record
unchanged in every field. -/
theorem process_bat_sensor_frame (r : bat_stat) (s : sensor)
    (hint : s.type ≠ SENSOR_INTEGER) (hrec : recognised s.type s.desc = false) :
    process_bat_sensor r s = r := by
  obtain ⟨d, v, t⟩ := s
  cases t <;>
    simp_all [process_bat_sensor, strcmp_eq_zero_iff, recognised, bat_volt, bat_cvolt,
      bat_rate, bat_last, bat_warn, bat_low, bat_rem, bat_cap]

/-- Witness for C9: power / "voltage" (recognised only for the voltage type), a
description differing in case, one with a suffix, and a temperature reading. -/
theorem process_bat_sensor_frame_witness :
    process_bat_sensor ⟨"B", 1, 2, 3, 4, 5, 6, 7, 8⟩ ⟨"voltage", 9, SENSOR_WATTS⟩
        = ⟨"B", 1, 2, 3, 4, 5, 6, 7, 8⟩ ∧
      process_bat_sensor ⟨"B", 1, 2, 3, 4, 5, 6, 7, 8⟩ ⟨"Voltage", 9, SENSOR_VOLTS_DC⟩
        = ⟨"B", 1, 2, 3, 4, 5, 6, 7, 8⟩ ∧
      process_bat_sensor ⟨"B", 1, 2, 3, 4, 5, 6, 7, 8⟩ ⟨"rate of", 9, SENSOR_WATTS⟩
        = ⟨"B", 1, 2, 3, 4, 5, 6, 7, 8⟩ ∧
      process_bat_sensor ⟨"B", 1, 2, 3, 4, 5, 6, 7, 8⟩ ⟨"design capacity", 9, SENSOR_TEMP⟩
        = ⟨"B", 1, 2, 3, 4, 5, 6, 7, 8⟩ :=
  ⟨process_bat_sensor_frame _ _ (by decide) (by decide),
   process_bat_sensor_frame _ _ (by decide) (by decide),
   process_bat_sensor_frame _ _ (by decide) (by decide),
   process_bat_sensor_frame _ _ (by decide) (by decide)⟩

/-- C10: a reading of integer type sets the label to the first min(|d|, 31)
characters of its description d and leaves the eight numeric fields unchanged,
whatever its value; after several integer-type readings the label is that of the
last one. -/
theorem process_bat_sensor_label (r : bat_stat) (s : sensor)
    (h : s.type = SENSOR_INTEGER) :
    process_bat_sensor r s
        = { r with raw_bat := String.mk (s.desc.toList.take (min s.desc.length 31)) } ∧
      (process_bat_sensor r s).raw_bat.length = min s.desc.length 31 ∧
      ∀ ss : List sensor, (∀ x ∈ ss, x.type = SENSOR_INTEGER) →
        (ss ++ [s]).foldl process_bat_sensor r
          = { r with raw_bat := String.mk (s.desc.toList.take (min s.desc.length 31)) } := by
  have htake : s.desc.toList.take (min s.desc.length 31) = s.desc.toList.take 31 := by
    refine (List.take_take _ _ _).symm.trans (List.take_of_length_le ?_)
    exact List.length_take_le' _ _
  rw [htake]
  refine ⟨process_integer r s h, ?_, ?_⟩
  · rw [process_integer r s h]
    show (List.take 31 s.desc.toList).length = min s.desc.toList.length 31
    rw [List.length_take, Nat.min_comm]
  · intro ss hss
    rw [List.foldl_append]
    simp only [List.foldl_cons, List.foldl_nil]
    rw [process_integer _ s h]
    have key : ∀ (l : List sensor) (r0 : bat_stat), (∀ x ∈ l, x.type = SENSOR_INTEGER) →
        ∃ lbl, l.foldl process_bat_sensor r0 = { r0 with raw_bat := lbl } := by
      intro l
      induction l with
      | nil => intro r0 _; exact ⟨r0.raw_bat, rfl⟩
      | cons x xs ih =>
        intro r0 hx
        rw [List.foldl_cons, process_integer r0 x (hx x (List.mem_cons_self _ _))]
        obtain ⟨lbl, hl⟩ := ih _ (fun y hy => hx y (List.mem_cons_of_mem _ hy))
        exact ⟨lbl, by rw [hl]⟩
    obtain ⟨lbl, hl⟩ := key ss r hss
    rw [hl]

/-- Witness for C10: a 40-character description is cut to its first 31
characters, and of two integer readings the second one names the record. -/
theorem process_bat_sensor_label_witness :
    (⟨"0123456789012345678901234567890123456789", 7, SENSOR_INTEGER⟩ : sensor).type
        = SENSOR_INTEGER ∧
      process_bat_sensor ⟨"old", 1, 2, 3, 4, 5, 6, 7, 8⟩
        ⟨"0123456789012345678901234567890123456789", 7, SENSOR_INTEGER⟩
        = ⟨"0123456789012345678901234567890", 1, 2, 3, 4, 5, 6, 7, 8⟩ ∧
      ([⟨"first", 0, SENSOR_INTEGER⟩,
        ⟨"0123456789012345678901234567890123456789", 7, SENSOR_INTEGER⟩]).foldl
          process_bat_sensor ⟨"old", 1, 2, 3, 4, 5, 6, 7, 8⟩
        = ⟨"0123456789012345678901234567890", 1, 2, 3, 4, 5, 6, 7, 8⟩ := by
  have h := process_bat_sensor_label ⟨"old", 1, 2, 3, 4, 5, 6, 7, 8⟩
    ⟨"0123456789012345678901234567890123456789", 7, SENSOR_INTEGER⟩ rfl
  refine ⟨rfl, ?_, ?_⟩
  · rw [h.1]; decide
  · have h2 := h.2.2 [⟨"first", 0, SENSOR_INTEGER⟩] (by decide)
    rw [List.singleton_append] at h2
    rw [h2]; decide

theorem strncmp_eq_zero_iff (s1 s2 : String) (n : Nat) :
    strncmp s1 s2 n = 0 ↔ s1.toList.take n = s2.toList.take n := by
  unfold strncmp
  constructor
  · intro h
    by_cases h1 : s1.toList.take n = s2.toList.take n
    · exact h1
    · rw [if_neg h1] at h
      split at h <;> omega
  · intro h
    rw [if_pos h]

theorem strncmp_strlen_iff_starts (p s : String) :
    strncmp p s (strlen p) = 0 ↔ p.toList <+: s.toList := by
  rw [strncmp_eq_zero_iff, strlen, List.take_length, List.prefix_iff_eq_take, eq_comm]

/-- C6, counterexample: the name "acpi" agrees with "acpiac" on the first 4
characters, 4 being the length of the shorter string, yet the AC check of the
program fails for it. -/
theorem classification_counterexample :
    ¬ (strncmp acpi_pow "acpi" (strlen acpi_pow) = 0 ↔ agree_on_shorter "acpi" "acpiac" = true) := by
  decide

/-- C6, amended: a device is classified as AC exactly when its name begins with
"acpiac", and as battery exactly when it begins with "acpibat": the comparison
covers the full length of the prefix (6, resp. 7 characters), so it agrees with
the shorter-of-the-two rule only for names at least as long as the prefix, and a
shorter name is never classified. -/
theorem classification_full_length (name : String) :
    (strncmp acpi_pow name (strlen acpi_pow) = 0 ↔ "acpiac".toList <+: name.toList) ∧
    (strncmp acpi_bat name (strlen acpi_bat) = 0 ↔ "acpibat".toList <+: name.toList) ∧
    (strncmp acpi_pow name (strlen acpi_pow) = 0 ↔
      6 ≤ name.length ∧ agree_on_shorter name "acpiac" = true) ∧
    (strncmp acpi_bat name (strlen acpi_bat) = 0 ↔
      7 ≤ name.length ∧ agree_on_shorter name "acpibat" = true) := by
  have key : ∀ p : String, (strncmp p name (strlen p) = 0 ↔
      p.length ≤ name.length ∧ agree_on_shorter name p = true) := by
    intro p
    rw [strncmp_strlen_iff_starts]
    unfold agree_on_shorter
    rw [decide_eq_true_iff]
    constructor
    · intro h
      have hl : p.length ≤ name.length := h.length_le
      refine ⟨hl, ?_⟩
      rw [Nat.min_eq_right hl]
      rw [List.prefix_iff_eq_take] at h
      show List.take p.toList.length name.toList = List.take p.toList.length p.toList
      rw [List.take_length]
      exact h.symm
    · rintro ⟨hl, h⟩
      rw [Nat.min_eq_right hl] at h
      rw [List.prefix_iff_eq_take]
      have : List.take p.toList.length p.toList = p.toList := List.take_length _
      exact (this.symm.trans h.symm)
  exact ⟨strncmp_strlen_iff_starts _ _, strncmp_strlen_iff_starts _ _, key acpi_pow, key acpi_bat⟩

/-! ### The device loop -/

/-- C5: when the descriptor query succeeds and the name begins with neither
"acpiac" nor "acpibat", the pass through the loop body changes neither list and
issues no sysctl call besides the descriptor query itself. -/
theorem loop_body_unclassified (env : Env) (sd_num : Nat) (st : State) (d : sensordev)
    (hq : env.sensordev_at sd_num = sysctl_result.ok d)
    (hac : ¬ "acpiac".toList <+: d.xname.toList)
    (hbat : ¬ "acpibat".toList <+: d.xname.toList) :
    loop_body env sd_num st
        = (Ctl.fall, { st with sensordev := d, queries := st.queries ++ [Query.dev sd_num] }) ∧
      (loop_body env sd_num st).2.ac_head = st.ac_head ∧
      (loop_body env sd_num st).2.bat_head = st.bat_head ∧
      (loop_body env sd_num st).2.queries = st.queries ++ [Query.dev sd_num] := by
  have h1 : ¬ strncmp acpi_pow d.xname (strlen acpi_pow) = 0 := by
    rw [strncmp_strlen_iff_starts]; exact hac
  have h2 : ¬ strncmp acpi_bat d.xname (strlen acpi_bat) = 0 := by
    rw [strncmp_strlen_iff_starts]; exact hbat
  have h : loop_body env sd_num st
      = (Ctl.fall, { st with sensordev := d, queries := st.queries ++ [Query.dev sd_num] }) := by
    simp [loop_body, hq, sysctl_outcome, check_ac, check_bat, h1, h2]
  rw [h]
  exact ⟨rfl, rfl, rfl, rfl⟩

/-- Witness for C5: device 0 named `cpu0`. -/
theorem loop_body_unclassified_witness :
    env_cpu.sensordev_at 0 = sysctl_result.ok ⟨"cpu0", 1⟩ ∧
      ¬ "acpiac".toList <+: "cpu0".toList ∧ ¬ "acpibat".toList <+: "cpu0".toList ∧
      (loop_body env_cpu 0 (init env_cpu)).2.ac_head = [] ∧
      (loop_body env_cpu 0 (init env_cpu)).2.bat_head = [] ∧
      (loop_body env_cpu 0 (init env_cpu)).2.queries = [Query.dev 0] :=
  ⟨rfl, by decide, by decide,
    (loop_body_unclassified env_cpu 0 (init env_cpu) ⟨"cpu0", 1⟩ rfl
      (by decide) (by decide)).2⟩

/-- C7, failing input: the indicator reading 2^32 is non-zero, but `online` is an
`int`, the assignment keeps the low 32 bits, and the record is reported "OFF" /
"Disconnected". -/
theorem ac_wide_value_reported_off :
    (4294967296 : Int) ≠ 0 ∧
      env_ac_wide.sensor_at 0 SENSOR_INDICATOR 0
        = sysctl_result.ok ⟨"power supply", 4294967296, SENSOR_INDICATOR⟩ ∧
      (device_loop env_ac_wide 2 0 (init env_ac_wide)).map (fun st => st.ac_head)
        = some [⟨0⟩] ∧
      run env_ac_wide true 2 = some "AC0: OFF \n" ∧
      run env_ac_wide false 2 = some "AC0: Disconnected\n\n" := by
  decide

/-- C8, failing input: a battery none of whose sensor queries succeeds is listed
with the contents the allocated block happened to have, not with zeros. -/
theorem bat_unread_fields_not_zero :
    (device_loop env_bat_unread 2 0 (init env_bat_unread)).map (fun st => st.bat_head)
        = some [⟨"junk", 11, 12, 13, 14, 15, 16, 17, 18⟩] := by
  decide

/-! ### Queue insertion -/

theorem insert_ac_fields (st : State) (ac : ac_stat) :
    (insert_ac st ac).bat_head = st.bat_head ∧ (insert_ac st ac).first_bat = st.first_bat ∧
      (insert_ac st ac).sensordev = st.sensordev ∧ (insert_ac st ac).sensor = st.sensor ∧
      (insert_ac st ac).queries = st.queries := by
  unfold insert_ac
  split <;> exact ⟨rfl, rfl, rfl, rfl, rfl⟩

theorem insert_bat_fields (st : State) (bat : bat_stat) :
    (insert_bat st bat).ac_head = st.ac_head ∧ (insert_bat st bat).first_ac = st.first_ac ∧
      (insert_bat st bat).sensordev = st.sensordev ∧ (insert_bat st bat).sensor = st.sensor ∧
      (insert_bat st bat).queries = st.queries := by
  unfold insert_bat
  split <;> exact ⟨rfl, rfl, rfl, rfl, rfl⟩

theorem insert_ac_appends (st : State) (ac : ac_stat) (h : st.first_ac = true → st.ac_head = []) :
    (insert_ac st ac).ac_head = st.ac_head ++ [ac] ∧ (insert_ac st ac).first_ac = false := by
  unfold insert_ac
  by_cases hf : st.first_ac = true
  · rw [if_pos hf]
    simp [h hf]
  · rw [if_neg hf]
    simp at hf
    simp [hf]

theorem insert_bat_appends (st : State) (bat : bat_stat)
    (h : st.first_bat = true → st.bat_head = []) :
    (insert_bat st bat).bat_head = st.bat_head ++ [bat] ∧
      (insert_bat st bat).first_bat = false := by
  unfold insert_bat
  by_cases hf : st.first_bat = true
  · rw [if_pos hf]
    simp [h hf]
  · rw [if_neg hf]
    simp at hf
    simp [hf]

/-! ### The slot loop and the type loop -/

/-- The slot loop touches only the sensor buffer and the query log. -/
theorem slot_loop_frame (env : Env) (sd_num : Nat) (type : sensor_type) :
    ∀ (todo n : Nat) (st : State) (bat : Option bat_stat),
      (slot_loop env sd_num type todo n st bat).1.ac_head = st.ac_head ∧
      (slot_loop env sd_num type todo n st bat).1.bat_head = st.bat_head ∧
      (slot_loop env sd_num type todo n st bat).1.first_ac = st.first_ac ∧
      (slot_loop env sd_num type todo n st bat).1.first_bat = st.first_bat ∧
      (slot_loop env sd_num type todo n st bat).1.sensordev = st.sensordev := by
  intro todo
  induction todo with
  | zero => intro n st bat; exact ⟨rfl, rfl, rfl, rfl, rfl⟩
  | succ todo ih =>
    intro n st bat
    simp only [slot_loop]
    split
    · exact ih _ _ _
    · exact ⟨rfl, rfl, rfl, rfl, rfl⟩
    · exact ih _ _ _

/-- When every reading of the type succeeds, the slot loop feeds the readings of
the slots `n, n+1, ..., n+todo-1` to `process_bat_sensor`, in this order. -/
theorem slot_loop_all_ok (env : Env) (sd_num : Nat) (type : sensor_type) (rd : Nat → sensor)
    (hs : ∀ n, env.sensor_at sd_num type n = sysctl_result.ok (rd n)) :
    ∀ (todo n : Nat) (st : State) (bat : Option bat_stat),
      (slot_loop env sd_num type todo n st bat).2
        = bat.map (fun b => ((List.range' n todo).map rd).foldl process_bat_sensor b) := by
  intro todo
  induction todo with
  | zero => intro n st bat; cases bat <;> rfl
  | succ todo ih =>
    intro n st bat
    unfold slot_loop
    simp only [hs, sysctl_outcome, List.range'_succ, List.map_cons, List.foldl_cons]
    rw [ih]
    cases bat <;> rfl

theorem type_loop_frame (env : Env) (sd_num : Nat) (st : State) (bat : Option bat_stat) :
    (type_loop env sd_num st bat).1.ac_head = st.ac_head ∧
      (type_loop env sd_num st bat).1.bat_head = st.bat_head ∧
      (type_loop env sd_num st bat).1.first_ac = st.first_ac ∧
      (type_loop env sd_num st bat).1.first_bat = st.first_bat ∧
      (type_loop env sd_num st bat).1.sensordev = st.sensordev := by
  unfold type_loop bat_types
  simp only [List.foldl_cons, List.foldl_nil]
  have h1 := slot_loop_frame env sd_num SENSOR_VOLTS_DC st.sensordev.sensors_count.toNat 0 st bat
  generalize slot_loop env sd_num SENSOR_VOLTS_DC st.sensordev.sensors_count.toNat 0 st bat
    = sb1 at h1 ⊢
  have h2 := slot_loop_frame env sd_num SENSOR_WATTS sb1.1.sensordev.sensors_count.toNat 0
    sb1.1 sb1.2
  generalize slot_loop env sd_num SENSOR_WATTS sb1.1.sensordev.sensors_count.toNat 0
    sb1.1 sb1.2 = sb2 at h2 ⊢
  have h3 := slot_loop_frame env sd_num SENSOR_WATTHOUR sb2.1.sensordev.sensors_count.toNat 0
    sb2.1 sb2.2
  generalize slot_loop env sd_num SENSOR_WATTHOUR sb2.1.sensordev.sensors_count.toNat 0
    sb2.1 sb2.2 = sb3 at h3 ⊢
  have h4 := slot_loop_frame env sd_num SENSOR_INTEGER sb3.1.sensordev.sensors_count.toNat 0
    sb3.1 sb3.2
  generalize slot_loop env sd_num SENSOR_INTEGER sb3.1.sensordev.sensors_count.toNat 0
    sb3.1 sb3.2 = sb4 at h4 ⊢
  obtain ⟨a1, b1, c1, d1, e1⟩ := h1
  obtain ⟨a2, b2, c2, d2, e2⟩ := h2
  obtain ⟨a3, b3, c3, d3, e3⟩ := h3
  obtain ⟨a4, b4, c4, d4, e4⟩ := h4
  exact ⟨by rw [a4, a3, a2, a1], by rw [b4, b3, b2, b1], by rw [c4, c3, c2, c1],
    by rw [d4, d3, d2, d1], by rw [e4, e3, e2, e1]⟩

theorem type_loop_all_ok (env : Env) (sd_num : Nat) (d : Device) (st : State)
    (bat : Option bat_stat) (hd : st.sensordev = d.descr)
    (hs : ∀ t n, env.sensor_at sd_num t n = sysctl_result.ok (d.reading t n)) :
    (type_loop env sd_num st bat).2 = bat.map (fun b => bat_of b d) := by
  unfold type_loop bat_of bat_readings bat_types
  simp only [List.foldl_cons, List.foldl_nil, List.flatMap_cons, List.flatMap_nil, List.foldl_append,
    List.append_nil]
  have f1 := slot_loop_frame env sd_num SENSOR_VOLTS_DC st.sensordev.sensors_count.toNat 0 st bat
  have o1 := slot_loop_all_ok env sd_num SENSOR_VOLTS_DC _ (hs SENSOR_VOLTS_DC)
    st.sensordev.sensors_count.toNat 0 st bat
  generalize slot_loop env sd_num SENSOR_VOLTS_DC st.sensordev.sensors_count.toNat 0 st bat
    = sb1 at f1 o1 ⊢
  have f2 := slot_loop_frame env sd_num SENSOR_WATTS sb1.1.sensordev.sensors_count.toNat 0
    sb1.1 sb1.2
  have o2 := slot_loop_all_ok env sd_num SENSOR_WATTS _ (hs SENSOR_WATTS)
    sb1.1.sensordev.sensors_count.toNat 0 sb1.1 sb1.2
  generalize slot_loop env sd_num SENSOR_WATTS sb1.1.sensordev.sensors_count.toNat 0
    sb1.1 sb1.2 = sb2 at f2 o2 ⊢
  have f3 := slot_loop_frame env sd_num SENSOR_WATTHOUR sb2.1.sensordev.sensors_count.toNat 0
    sb2.1 sb2.2
  have o3 := slot_loop_all_ok env sd_num SENSOR_WATTHOUR _ (hs SENSOR_WATTHOUR)
    sb2.1.sensordev.sensors_count.toNat 0 sb2.1 sb2.2
  generalize slot_loop env sd_num SENSOR_WATTHOUR sb2.1.sensordev.sensors_count.toNat 0
    sb2.1 sb2.2 = sb3 at f3 o3 ⊢
  have o4 := slot_loop_all_ok env sd_num SENSOR_INTEGER _ (hs SENSOR_INTEGER)
    sb3.1.sensordev.sensors_count.toNat 0 sb3.1 sb3.2
  rw [o4, o3, o2, o1, f3.2.2.2.2, f2.2.2.2.2, f1.2.2.2.2, hd]
  cases bat with
  | none => rfl
  | some b => simp only [Option.map_some', List.range_eq_range', List.foldl_append]

/-! ### One pass through the loop body when every query succeeds -/

theorem is_ac_iff (d : Device) :
    strncmp acpi_pow d.descr.xname (strlen acpi_pow) = 0 ↔ is_ac d = true := by
  rw [strncmp_strlen_iff_starts, is_ac, List.isPrefixOf_iff_prefix]
  rfl

theorem is_bat_iff (d : Device) :
    strncmp acpi_bat d.descr.xname (strlen acpi_bat) = 0 ↔ is_bat d = true := by
  rw [strncmp_strlen_iff_starts, is_bat, List.isPrefixOf_iff_prefix]
  rfl

theorem check_ac_present (env : Env) (sd_num : Nat) (st : State) (d : Device)
    (hd : st.sensordev = d.descr)
    (hs : ∀ t n, env.sensor_at sd_num t n = sysctl_result.ok (d.reading t n))
    (hw : flags_ok st) :
    ∃ st1, check_ac env sd_num st = (Ctl.fall, st1) ∧ flags_ok st1 ∧
      st1.sensordev = d.descr ∧
      st1.ac_head = st.ac_head ++
        (if is_ac d then ((env.malloc_ac sd_num).map (fun _ => ac_of d)).toList else []) ∧
      st1.bat_head = st.bat_head := by
  have hcond : strncmp acpi_pow st.sensordev.xname (strlen acpi_pow) = 0 ↔ is_ac d = true := by
    rw [hd]; exact is_ac_iff d
  unfold check_ac
  by_cases hc : is_ac d = true
  · rw [if_pos (hcond.2 hc), if_pos hc]
    simp only [hs, sysctl_outcome]
    cases env.malloc_ac sd_num with
    | none => exact ⟨_, rfl, hw, hd, by simp, rfl⟩
    | some ac =>
      refine ⟨_, rfl, ?_⟩
      obtain ⟨hw1, hw2⟩ := hw
      unfold insert_ac flags_ok
      by_cases hf : st.first_ac = true
      · simp [hf, hw1 hf, hd, ac_of]
        exact hw2
      · simp only [Bool.not_eq_true] at hf
        simp [hf, hd, ac_of]
        exact hw2
  · rw [if_neg (fun h => hc (hcond.1 h)), if_neg hc]
    exact ⟨st, rfl, hw, hd, by simp, rfl⟩

theorem check_bat_present (env : Env) (sd_num : Nat) (st : State) (d : Device)
    (hd : st.sensordev = d.descr)
    (hs : ∀ t n, env.sensor_at sd_num t n = sysctl_result.ok (d.reading t n))
    (hw : flags_ok st) :
    flags_ok (check_bat env sd_num st) ∧
      (check_bat env sd_num st).ac_head = st.ac_head ∧
      (check_bat env sd_num st).bat_head
        = st.bat_head ++
          (if is_bat d then ((env.malloc_bat sd_num).map (fun b => bat_of b d)).toList
            else []) := by
  have hcond : strncmp acpi_bat st.sensordev.xname (strlen acpi_bat) = 0 ↔ is_bat d = true := by
    rw [hd]; exact is_bat_iff d
  unfold check_bat
  by_cases hc : is_bat d = true
  · rw [if_pos (hcond.2 hc), if_pos hc]
    dsimp only
    have hfr := type_loop_frame env sd_num st (env.malloc_bat sd_num)
    have hok := type_loop_all_ok env sd_num d st (env.malloc_bat sd_num) hd hs
    generalize type_loop env sd_num st (env.malloc_bat sd_num) = sb at hfr hok ⊢
    obtain ⟨s1, ob⟩ := sb
    simp only at hfr hok
    subst hok
    cases env.malloc_bat sd_num with
    | none =>
      simp only [Option.map_none', Option.toList_none, List.append_nil]
      exact ⟨⟨fun h => by rw [hfr.1]; exact hw.1 (hfr.2.2.1 ▸ h),
        fun h => by rw [hfr.2.1]; exact hw.2 (hfr.2.2.2.1 ▸ h)⟩, hfr.1, hfr.2.1⟩
    | some b =>
      simp only [Option.map_some', Option.toList_some]
      have hw1 : s1.first_bat = true → s1.bat_head = [] := by
        rw [hfr.2.2.2.1, hfr.2.1]; exact hw.2
      have hi := insert_bat_appends s1 (bat_of b d) hw1
      have hf := insert_bat_fields s1 (bat_of b d)
      refine ⟨⟨?_, ?_⟩, ?_, ?_⟩
      · intro h; rw [hf.2.1, hfr.2.2.1] at h; rw [hf.1, hfr.1]; exact hw.1 h
      · intro h; rw [hi.2] at h; exact absurd h (by decide)
      · rw [hf.1, hfr.1]
      · rw [hi.1, hfr.2.1]
  · rw [if_neg (fun h => hc (hcond.1 h)), if_neg hc]
    exact ⟨hw, rfl, by simp⟩

theorem loop_body_present (env : Env) (sd_num : Nat) (st : State) (d : Device)
    (hq : env.sensordev_at sd_num = sysctl_result.ok d.descr)
    (hs : ∀ t n, env.sensor_at sd_num t n = sysctl_result.ok (d.reading t n))
    (hw : flags_ok st) :
    ∃ st1, loop_body env sd_num st = (Ctl.fall, st1) ∧ flags_ok st1 ∧
      st1.ac_head = st.ac_head ++
        (if is_ac d then ((env.malloc_ac sd_num).map (fun _ => ac_of d)).toList else []) ∧
      st1.bat_head = st.bat_head ++
        (if is_bat d then ((env.malloc_bat sd_num).map (fun b => bat_of b d)).toList
          else []) := by
  unfold loop_body
  simp only [hq, sysctl_outcome]
  obtain ⟨st1, h1, hw1, hd1, ha1, hb1⟩ := check_ac_present env sd_num
    { st with queries := st.queries ++ [Query.dev sd_num], sensordev := d.descr } d rfl hs hw
  rw [h1]
  obtain ⟨hw2, ha2, hb2⟩ := check_bat_present env sd_num st1 d hd1 hs hw1
  exact ⟨_, rfl, hw2, by rw [ha2, ha1], by rw [hb2, hb1]⟩

theorem ac_records_cons (env : Env) (j : Nat) (d : Device) (ds : List Device) :
    ac_records env j (d :: ds)
      = (if is_ac d then ((env.malloc_ac j).map (fun _ => ac_of d)).toList else [])
        ++ ac_records env (j + 1) ds := by
  unfold ac_records
  rw [List.enumFrom_cons, List.filter_cons]
  by_cases hc : is_ac d = true
  · simp only [hc, if_true, List.filterMap_cons]
    cases env.malloc_ac j <;> rfl
  · simp only [hc, if_false, Bool.false_eq_true, List.nil_append]

theorem bat_records_cons (env : Env) (j : Nat) (d : Device) (ds : List Device) :
    bat_records env j (d :: ds)
      = (if is_bat d then ((env.malloc_bat j).map (fun b => bat_of b d)).toList else [])
        ++ bat_records env (j + 1) ds := by
  unfold bat_records
  rw [List.enumFrom_cons, List.filter_cons]
  by_cases hc : is_bat d = true
  · simp only [hc, if_true, List.filterMap_cons]
    cases env.malloc_bat j <;> rfl
  · simp only [hc, if_false, Bool.false_eq_true, List.nil_append]

/-- Enumeration of the devices `ds` presented at the indices `j, j+1, ...`,
followed by `ENOENT`: the loop ends, having appended the records of the devices
whose allocation succeeded. -/
theorem device_loop_present (env : Env) :
    ∀ (ds : List Device) (j : Nat) (st : State),
      (∀ k d, ds[k]? = some d →
        env.sensordev_at (j + k) = sysctl_result.ok d.descr ∧
        ∀ t n, env.sensor_at (j + k) t n = sysctl_result.ok (d.reading t n)) →
      env.sensordev_at (j + ds.length) = sysctl_result.fail ENOENT →
      flags_ok st →
      ∃ st1, device_loop env (ds.length + 1) j st = some st1 ∧
        st1.ac_head = st.ac_head ++ ac_records env j ds ∧
        st1.bat_head = st.bat_head ++ bat_records env j ds := by
  intro ds
  induction ds with
  | nil =>
    intro j st _ hend _
    refine ⟨{ st with queries := st.queries ++ [Query.dev j] }, ?_, by simp [ac_records],
      by simp [bat_records]⟩
    simp only [List.length_nil, Nat.add_zero] at hend
    simp [device_loop, loop_body, hend, sysctl_outcome, ENOENT, ENXIO]
  | cons d ds ih =>
    intro j st hpres hend hw
    obtain ⟨hq, hs⟩ := hpres 0 d (by simp)
    obtain ⟨st1, h1, hw1, ha1, hb1⟩ := loop_body_present env j st d hq hs hw
    have hpres1 : ∀ k d1, ds[k]? = some d1 →
        env.sensordev_at (j + 1 + k) = sysctl_result.ok d1.descr ∧
        ∀ t n, env.sensor_at (j + 1 + k) t n = sysctl_result.ok (d1.reading t n) := by
      intro k d1 hk
      have := hpres (k + 1) d1 (by simpa using hk)
      rw [show j + (k + 1) = j + 1 + k by omega] at this
      exact this
    have hend1 : env.sensordev_at (j + 1 + ds.length) = sysctl_result.fail ENOENT := by
      rw [show j + 1 + ds.length = j + (d :: ds).length by simp; omega]
      exact hend
    obtain ⟨st2, h2, ha2, hb2⟩ := ih (j + 1) st1 hpres1 hend1 hw1
    refine ⟨st2, ?_, ?_, ?_⟩
    · rw [List.length_cons, device_loop, h1]
      exact h2
    · rw [ha2, ha1, List.append_assoc, ac_records_cons]
    · rw [hb2, hb1, List.append_assoc, bat_records_cons]

theorem print_ac_short (c : Nat) (ac : ac_stat) : print_ac true c ac = short_ac_entry c ac := rfl

theorem print_bat_short (c : Nat) (bat : bat_stat) :
    print_bat true c bat = short_bat_entry c bat := rfl

theorem foldl_print_short {α : Type} (f : Nat → α → String) :
    ∀ (l : List α) (c : Nat) (out : String),
      (l.foldl (fun (st : Nat × String) x => (st.1 + 1, st.2 ++ f st.1 x)) (c, out)).2
        = out ++ concat_all ((l.enumFrom c).map (fun p => f p.1 p.2)) := by
  intro l
  induction l with
  | nil => intro c out; simp [concat_all]
  | cons x xs ih =>
    intro c out
    rw [List.foldl_cons, ih, List.enumFrom_cons, List.map_cons, concat_all, String.append_assoc]

theorem print_stat_short (acs : List ac_stat) (bats : List bat_stat) :
    print_stat true acs bats = short_report acs bats := by
  unfold print_stat short_report
  simp only [print_ac_short, print_bat_short]
  rw [foldl_print_short, foldl_print_short]
  simp [List.enum]

theorem bitlen_aux_bounds : ∀ (fuel n : Nat), n ≤ fuel →
    n < 2 ^ bitlen_aux fuel n ∧ (0 < n → 2 ^ (bitlen_aux fuel n - 1) ≤ n) := by
  intro fuel
  induction fuel with
  | zero =>
    intro n hn
    have : n = 0 := by omega
    subst this
    simp [bitlen_aux]
  | succ fuel ih =>
    intro n hn
    unfold bitlen_aux
    by_cases h0 : n = 0
    · subst h0; simp
    · rw [if_neg h0]
      obtain ⟨hlt, hge⟩ := ih (n / 2) (by omega)
      refine ⟨?_, fun _ => ?_⟩
      · rw [pow_succ]; omega
      · rw [Nat.add_sub_cancel]
        by_cases h2 : n / 2 = 0
        · rw [h2] at hlt ⊢
          have hk : bitlen_aux fuel 0 = 0 := by cases fuel <;> simp [bitlen_aux]
          rw [hk]; simp; omega
        · have hk : bitlen_aux fuel (n / 2) ≠ 0 := by
            intro hk; rw [hk] at hlt; simp at hlt; exact h2 hlt
          have := hge (Nat.pos_of_ne_zero h2)
          obtain ⟨k, hk'⟩ := Nat.exists_eq_succ_of_ne_zero hk
          rw [hk'] at this ⊢
          rw [Nat.succ_sub_one] at this
          rw [Nat.succ_eq_add_one, pow_succ]; omega

theorem bitlen_bounds (n : Nat) :
    n < 2 ^ bitlen n ∧ (0 < n → 2 ^ (bitlen n - 1) ≤ n) :=
  bitlen_aux_bounds n n (le_refl n)

theorem scale_ratio (N D : Nat) (e : Int) :
    ((scale_num N e : Nat) : ℚ) / ((scale_den D e : Nat) : ℚ) = (N : ℚ) / D * (2 : ℚ) ^ (-e) := by
  unfold scale_num scale_den
  push_cast
  rcases le_total 0 e with h | h
  · obtain ⟨k, rfl⟩ := Int.eq_ofNat_of_zero_le h
    have h1 : (-(k : Int)).toNat = 0 := by simp
    rw [h1, Int.toNat_natCast, zpow_neg, zpow_natCast]
    rcases eq_or_ne (D : ℚ) 0 with hD | hD
    · simp [hD]
    · field_simp
  · obtain ⟨k, hk⟩ := Int.eq_ofNat_of_zero_le (neg_nonneg.2 h)
    have he : e = -(k : Int) := by omega
    subst he
    have h1 : (-(k : Int)).toNat = 0 := by simp
    rw [h1, neg_neg, Int.toNat_natCast, zpow_natCast]
    rcases eq_or_ne (D : ℚ) 0 with hD | hD
    · simp [hD]
    · field_simp

theorem rne_error (N D : Nat) (hD : 0 < D) : |((rne N D : Nat) : ℚ) - (N : ℚ) / D| ≤ 1 / 2 := by
  have hDq : (0 : ℚ) < D := by exact_mod_cast hD
  have hdiv : (N : ℚ) / D = (N / D : Nat) + ((N % D : Nat) : ℚ) / D := by
    have h := Nat.div_add_mod N D
    have h' : (N : ℚ) = (D : ℚ) * ((N / D : Nat) : ℚ) + ((N % D : Nat) : ℚ) := by
      exact_mod_cast h.symm
    field_simp
    linarith
  have hr : N % D < D := Nat.mod_lt _ hD
  have hrq : ((N % D : Nat) : ℚ) < D := by exact_mod_cast hr
  have hr0 : (0 : ℚ) ≤ ((N % D : Nat) : ℚ) := Nat.cast_nonneg _
  rw [hdiv, abs_le]
  unfold rne
  by_cases h1 : 2 * (N % D) < D
  · rw [if_pos h1]
    have h1q : 2 * ((N % D : Nat) : ℚ) < D := by exact_mod_cast h1
    have : ((N % D : Nat) : ℚ) / D < 1 / 2 := by rw [div_lt_div_iff₀ hDq (by norm_num)]; linarith
    have : 0 ≤ ((N % D : Nat) : ℚ) / D := div_nonneg hr0 hDq.le
    constructor <;> linarith
  · rw [if_neg h1]
    by_cases h2 : D < 2 * (N % D)
    · rw [if_pos h2]
      have h2q : (D : ℚ) < 2 * ((N % D : Nat) : ℚ) := by exact_mod_cast h2
      have : 1 / 2 < ((N % D : Nat) : ℚ) / D := by rw [div_lt_div_iff₀ (by norm_num) hDq]; linarith
      have : ((N % D : Nat) : ℚ) / D < 1 := by rw [div_lt_one hDq]; exact hrq
      push_cast
      constructor <;> linarith
    · rw [if_neg h2]
      have h3 : 2 * (N % D) = D := by omega
      have h3q : 2 * ((N % D : Nat) : ℚ) = D := by exact_mod_cast h3
      have : ((N % D : Nat) : ℚ) / D = 1 / 2 := by rw [div_eq_div_iff hDq.ne' (by norm_num)]; linarith
      split
      · constructor <;> linarith
      · push_cast
        constructor <;> linarith
theorem round_error_of_scaled (V X : ℚ) (m p : Nat) (e : Int)
    (hX : X = V * (2 : ℚ) ^ (-e)) (hlow : (2 : ℚ) ^ p / 2 ≤ X) (herr : |(m : ℚ) - X| ≤ 1 / 2) :
    |(m : ℚ) * (2 : ℚ) ^ e - V| ≤ V / 2 ^ p := by
  have h2e : (0 : ℚ) < (2 : ℚ) ^ e := zpow_pos (by norm_num) e
  have h2p : (0 : ℚ) < (2 : ℚ) ^ p := pow_pos (by norm_num) p
  have hV : V = X * (2 : ℚ) ^ e := by
    rw [hX, mul_assoc, ← zpow_add₀ (by norm_num : (2 : ℚ) ≠ 0)]
    simp
  have h1 : (m : ℚ) * (2 : ℚ) ^ e - V = ((m : ℚ) - X) * (2 : ℚ) ^ e := by rw [hV]; ring
  rw [h1, abs_mul, abs_of_pos h2e]
  have h3 : |(m : ℚ) - X| * (2 : ℚ) ^ e ≤ 1 / 2 * (2 : ℚ) ^ e :=
    mul_le_mul_of_nonneg_right herr h2e.le
  have h4 : 1 / 2 * (2 : ℚ) ^ e ≤ V / 2 ^ p := by
    rw [hV, le_div_iff₀ h2p]
    have : 1 / 2 * (2 : ℚ) ^ e * 2 ^ p = ((2 : ℚ) ^ p / 2) * (2 : ℚ) ^ e := by ring
    rw [this]
    exact mul_le_mul_of_nonneg_right hlow h2e.le
  exact h3.trans h4

/-- Rounding to `p` bits returns a finite value within relative error `2^-p`. -/
theorem fp_round_spec (p : Nat) (hp : 0 < p) (s : Bool) (N D : Nat) (hN : 0 < N) (hD : 0 < D) :
    ∃ m e, fp_round p s N D = fp.fin s m e ∧
      |(m : ℚ) * (2 : ℚ) ^ e - (N : ℚ) / D| ≤ (N : ℚ) / D / 2 ^ p := by
  have hNq : (0 : ℚ) < N := by exact_mod_cast hN
  have hDq : (0 : ℚ) < D := by exact_mod_cast hD
  have two_ne : (2 : ℚ) ≠ 0 := by norm_num
  -- the scaled value is at least 2^(p-1), whichever exponent is chosen
  have hlow : ∀ e : Int,
      e = (if 2 ^ p * scale_den D ((bitlen N : Int) - (bitlen D : Int) - (p : Int))
            ≤ scale_num N ((bitlen N : Int) - (bitlen D : Int) - (p : Int))
          then (bitlen N : Int) - (bitlen D : Int) - (p : Int) + 1
          else (bitlen N : Int) - (bitlen D : Int) - (p : Int)) →
      (2 : ℚ) ^ p / 2 ≤ (N : ℚ) / D * (2 : ℚ) ^ (-e) := by
    intro e he
    by_cases hc : 2 ^ p * scale_den D ((bitlen N : Int) - (bitlen D : Int) - (p : Int))
            ≤ scale_num N ((bitlen N : Int) - (bitlen D : Int) - (p : Int))
    · rw [if_pos hc] at he
      have hden : 0 < scale_den D ((bitlen N : Int) - (bitlen D : Int) - (p : Int)) :=
        Nat.mul_pos hD (pow_pos (by norm_num) _)
      have hdenq : (0 : ℚ) <
          ((scale_den D ((bitlen N : Int) - (bitlen D : Int) - (p : Int)) : Nat) : ℚ) := by
        exact_mod_cast hden
      have hcq : (2 : ℚ) ^ p *
          ((scale_den D ((bitlen N : Int) - (bitlen D : Int) - (p : Int)) : Nat) : ℚ)
          ≤ ((scale_num N ((bitlen N : Int) - (bitlen D : Int) - (p : Int)) : Nat) : ℚ) := by
        exact_mod_cast hc
      have h0 := scale_ratio N D ((bitlen N : Int) - (bitlen D : Int) - (p : Int))
      have h1 : (2 : ℚ) ^ p ≤ (N : ℚ) / D *
          (2 : ℚ) ^ (-((bitlen N : Int) - (bitlen D : Int) - (p : Int))) := by
        rw [← h0, le_div_iff₀ hdenq]; exact hcq
      rw [he, neg_add, zpow_add₀ two_ne, ← mul_assoc]
      have : (2 : ℚ) ^ (-1 : Int) = 1 / 2 := by norm_num
      rw [this]
      linarith
    · rw [if_neg hc] at he
      obtain ⟨_, hNlo⟩ := bitlen_bounds N
      obtain ⟨hDhi, _⟩ := bitlen_bounds D
      have hNlo := hNlo hN
      have ha : 1 ≤ bitlen N := by
        by_contra hcon
        have : bitlen N = 0 := by omega
        have h2 := (bitlen_bounds N).1
        rw [this] at h2
        simp at h2
        omega
      have hNq' : (2 : ℚ) ^ (bitlen N - 1) ≤ N := by exact_mod_cast hNlo
      have hDq' : (D : ℚ) < (2 : ℚ) ^ bitlen D := by exact_mod_cast hDhi
      have hexp : -e = ((bitlen D : Nat) : Int) + (p : Int) - ((bitlen N : Nat) : Int) := by
        rw [he]; ring
      have hz : (2 : ℚ) ^ (-e) = (2 : ℚ) ^ bitlen D * (2 : ℚ) ^ p / (2 : ℚ) ^ bitlen N := by
        rw [hexp, zpow_sub₀ two_ne, zpow_add₀ two_ne, zpow_natCast, zpow_natCast, zpow_natCast]
      have hpa : (2 : ℚ) ^ bitlen N = 2 * (2 : ℚ) ^ (bitlen N - 1) := by
        rw [← pow_succ']
        congr 1
        omega
      have hpos1 : (0 : ℚ) < (2 : ℚ) ^ (bitlen N - 1) := pow_pos (by norm_num) _
      have hpos2 : (0 : ℚ) < (2 : ℚ) ^ bitlen D := pow_pos (by norm_num) _
      have hpos3 : (0 : ℚ) < (2 : ℚ) ^ p := pow_pos (by norm_num) _
      rw [hz, hpa]
      rw [div_mul_div_comm, le_div_iff₀ (by positivity)]
      have e1 : (2 : ℚ) ^ p / 2 * ((D : ℚ) * (2 * (2 : ℚ) ^ (bitlen N - 1)))
          = (2 : ℚ) ^ p * (2 : ℚ) ^ (bitlen N - 1) * D := by ring
      have e2 : (N : ℚ) * ((2 : ℚ) ^ bitlen D * (2 : ℚ) ^ p)
          = (2 : ℚ) ^ p * N * (2 : ℚ) ^ bitlen D := by ring
      rw [e1, e2]
      have s1 : (2 : ℚ) ^ p * (2 : ℚ) ^ (bitlen N - 1) * D
          ≤ (2 : ℚ) ^ p * N * D :=
        mul_le_mul_of_nonneg_right (mul_le_mul_of_nonneg_left hNq' hpos3.le) hDq.le
      have s2 : (2 : ℚ) ^ p * N * D ≤ (2 : ℚ) ^ p * N * (2 : ℚ) ^ bitlen D :=
        mul_le_mul_of_nonneg_left hDq'.le (mul_nonneg hpos3.le hNq.le)
      exact s1.trans s2
  unfold fp_round
  rw [if_neg (Nat.pos_iff_ne_zero.1 hN)]
  dsimp only
  generalize he : (if 2 ^ p * scale_den D ((bitlen N : Int) - (bitlen D : Int) - (p : Int))
            ≤ scale_num N ((bitlen N : Int) - (bitlen D : Int) - (p : Int))
          then (bitlen N : Int) - (bitlen D : Int) - (p : Int) + 1
          else (bitlen N : Int) - (bitlen D : Int) - (p : Int)) = e
  have hl := hlow e he.symm
  have hden : 0 < scale_den D e := Nat.mul_pos hD (pow_pos (by norm_num) _)
  have herr := rne_error (scale_num N e) (scale_den D e) hden
  rw [scale_ratio] at herr
  have hmain := round_error_of_scaled ((N : ℚ) / D) _ (rne (scale_num N e) (scale_den D e)) p e
    rfl hl herr
  by_cases hm : rne (scale_num N e) (scale_den D e) = 2 ^ p
  · rw [if_pos hm]
    refine ⟨_, _, rfl, ?_⟩
    rw [hm] at hmain
    have : (((2 ^ (p - 1) : Nat) : ℚ)) * (2 : ℚ) ^ (e + 1) = (((2 ^ p : Nat) : ℚ)) * (2 : ℚ) ^ e := by
      obtain ⟨k, rfl⟩ : ∃ k, p = k + 1 := ⟨p - 1, by omega⟩
      rw [Nat.add_sub_cancel, zpow_add₀ two_ne]
      push_cast
      ring
    rw [this]
    exact hmain
  · rw [if_neg hm]
    exact ⟨_, _, rfl, hmain⟩
theorem rel_close_mono {ε ε' x' x : ℚ} (h : rel_close ε x' x) (hε : ε ≤ ε') :
    rel_close ε' x' x :=
  le_trans h (mul_le_mul_of_nonneg_right hε (abs_nonneg x))

theorem rel_close_trans {ε1 ε2 x y z : ℚ} (h1 : rel_close ε1 y x) (h2 : rel_close ε2 z y)
    (hε2 : 0 ≤ ε2) : rel_close (ε1 + ε2 + ε1 * ε2) z x := by
  unfold rel_close at *
  have hy : |y| ≤ |x| + ε1 * |x| := by
    have : |y| ≤ |y - x| + |x| := by
      have := abs_add (y - x) x
      simpa using this
    linarith
  have hzx : |z - x| ≤ |z - y| + |y - x| := by
    have := abs_add (z - y) (y - x)
    simpa using this
  have : ε2 * |y| ≤ ε2 * (|x| + ε1 * |x|) := mul_le_mul_of_nonneg_left hy hε2
  nlinarith

theorem rel_close_mul {ε1 ε2 a' a b' b : ℚ} (h1 : rel_close ε1 a' a) (h2 : rel_close ε2 b' b) :
    rel_close (ε1 + ε2 + ε1 * ε2) (a' * b') (a * b) := by
  unfold rel_close at *
  have e : a' * b' - a * b = (a' - a) * b + a * (b' - b) + (a' - a) * (b' - b) := by ring
  have t1 : |(a' - a) * b| ≤ ε1 * |a| * |b| := by
    rw [abs_mul]; exact mul_le_mul_of_nonneg_right h1 (abs_nonneg b)
  have t2 : |a * (b' - b)| ≤ |a| * (ε2 * |b|) := by
    rw [abs_mul]; exact mul_le_mul_of_nonneg_left h2 (abs_nonneg a)
  have t3 : |(a' - a) * (b' - b)| ≤ ε1 * |a| * (ε2 * |b|) := by
    rw [abs_mul]
    exact mul_le_mul h1 h2 (abs_nonneg _) (le_trans (abs_nonneg _) h1)
  rw [e, abs_mul a b]
  have := abs_add ((a' - a) * b + a * (b' - b)) ((a' - a) * (b' - b))
  have := abs_add ((a' - a) * b) (a * (b' - b))
  nlinarith

theorem rel_close_ne_zero {ε x' x : ℚ} (h : rel_close ε x' x) (hε : ε < 1) (hx : x ≠ 0) :
    x' ≠ 0 := by
  intro h0
  unfold rel_close at h
  rw [h0, zero_sub, abs_neg] at h
  have : 0 < |x| := abs_pos.2 hx
  nlinarith

theorem rel_close_div {ε1 ε2 a' a b' b : ℚ} (h1 : rel_close ε1 a' a) (h2 : rel_close ε2 b' b)
    (hε1 : 0 ≤ ε1) (hε0 : 0 ≤ ε2) (hε2 : ε2 < 1) (hb : b ≠ 0) :
    rel_close ((ε1 + ε2) / (1 - ε2)) (a' / b') (a / b) := by
  have hb' : b' ≠ 0 := rel_close_ne_zero h2 hε2 hb
  unfold rel_close at *
  have hbpos : 0 < |b| := abs_pos.2 hb
  have hb'pos : 0 < |b'| := abs_pos.2 hb'
  have h1e : 0 < 1 - ε2 := by linarith
  have hb'low : (1 - ε2) * |b| ≤ |b'| := by
    have : |b| ≤ |b - b'| + |b'| := by
      have := abs_add (b - b') b'
      simpa using this
    rw [abs_sub_comm] at this
    linarith
  have e : a' / b' - a / b = ((a' - a) * b - a * (b' - b)) / (b' * b) := by
    field_simp
    ring
  have hnum : |(a' - a) * b - a * (b' - b)| ≤ (ε1 + ε2) * (|a| * |b|) := by
    have t1 : |(a' - a) * b| ≤ ε1 * |a| * |b| := by
      rw [abs_mul]; exact mul_le_mul_of_nonneg_right h1 (abs_nonneg b)
    have t2 : |a * (b' - b)| ≤ |a| * (ε2 * |b|) := by
      rw [abs_mul]; exact mul_le_mul_of_nonneg_left h2 (abs_nonneg a)
    have := abs_sub ((a' - a) * b) (a * (b' - b))
    nlinarith
  rw [e, abs_div, abs_mul, abs_div, div_le_iff₀ (mul_pos hb'pos hbpos)]
  have hε : 0 ≤ ε1 + ε2 := by linarith
  calc |(a' - a) * b - a * (b' - b)| ≤ (ε1 + ε2) * (|a| * |b|) := hnum
    _ = (ε1 + ε2) / (1 - ε2) * (|a| / |b|) * ((1 - ε2) * |b| * |b|) := by
        field_simp
        ring
    _ ≤ (ε1 + ε2) / (1 - ε2) * (|a| / |b|) * (|b'| * |b|) := by
        apply mul_le_mul_of_nonneg_left
        · exact mul_le_mul_of_nonneg_right hb'low hbpos.le
        · exact mul_nonneg (div_nonneg hε h1e.le) (div_nonneg (abs_nonneg _) hbpos.le)
theorem fp_round_toRat (p : Nat) (hp : 0 < p) (s : Bool) (N D : Nat) (hD : 0 < D) :
    ∃ q, (fp_round p s N D).toRat = some q ∧
      rel_close (1 / 2 ^ p) q ((if s then -1 else 1) * ((N : ℚ) / D)) := by
  rcases Nat.eq_zero_or_pos N with h0 | hN
  · subst h0
    refine ⟨0, ?_, ?_⟩
    · simp [fp_round, fp.toRat]
    · simp [rel_close]
  · obtain ⟨m, e, hr, herr⟩ := fp_round_spec p hp s N D hN hD
    refine ⟨_, by rw [hr]; rfl, ?_⟩
    have hV : (0 : ℚ) ≤ (N : ℚ) / D := by positivity
    have hs : |(if s then (-1 : ℚ) else 1)| = 1 := by cases s <;> simp
    unfold rel_close
    rw [mul_assoc, ← mul_sub, abs_mul, abs_mul, hs, one_mul, one_mul, abs_of_nonneg hV]
    calc |(m : ℚ) * 2 ^ e - (N : ℚ) / D| ≤ (N : ℚ) / D / 2 ^ p := herr
      _ = 1 / 2 ^ p * ((N : ℚ) / D) := by ring

theorem fp_of_int_toRat (p : Nat) (hp : 0 < p) (v : Int) :
    ∃ q, (fp_of_int p v).toRat = some q ∧ rel_close (1 / 2 ^ p) q (v : ℚ) := by
  obtain ⟨q, hq, hc⟩ := fp_round_toRat p hp (decide (v < 0)) v.natAbs 1 Nat.one_pos
  refine ⟨q, hq, ?_⟩
  have : (if decide (v < 0) = true then (-1 : ℚ) else 1) * (((v.natAbs : Nat) : ℚ) / ((1 : Nat) : ℚ))
      = (v : ℚ) := by
    rw [Nat.cast_one, div_one, Nat.cast_natAbs]
    by_cases h : v < 0
    · simp [h, abs_of_neg h]
    · simp [h, abs_of_nonneg (not_lt.1 h)]
  rw [this] at hc
  exact hc

theorem sign_xor (s t : Bool) :
    (if xor s t then (-1 : ℚ) else 1) = (if s then (-1 : ℚ) else 1) * (if t then (-1 : ℚ) else 1) := by
  cases s <;> cases t <;> simp

theorem fp_cvt_toRat (p : Nat) (hp : 0 < p) (x : fp) (v : ℚ) (hx : x.toRat = some v) :
    ∃ q, (fp_cvt p x).toRat = some q ∧ rel_close (1 / 2 ^ p) q v := by
  cases x with
  | fin s m e =>
    obtain ⟨q, hq, hc⟩ := fp_round_toRat p hp s (scale_num m (-e)) (scale_den 1 (-e))
      (Nat.mul_pos Nat.one_pos (pow_pos (by norm_num) _))
    refine ⟨q, hq, ?_⟩
    rw [scale_ratio, neg_neg, Nat.cast_one, div_one, ← mul_assoc] at hc
    simp only [fp.toRat, Option.some.injEq] at hx
    rw [hx] at hc
    exact hc
  | inf s => simp [fp.toRat] at hx
  | nan => simp [fp.toRat] at hx

theorem fp_div_toRat (p : Nat) (hp : 0 < p) (a b : fp) (va vb : ℚ)
    (ha : a.toRat = some va) (hb : b.toRat = some vb) (hvb : vb ≠ 0) :
    ∃ q, (fp_div p a b).toRat = some q ∧ rel_close (1 / 2 ^ p) q (va / vb) := by
  cases a with
  | fin s m e =>
    cases b with
    | fin t n f =>
      simp only [fp.toRat, Option.some.injEq] at ha hb
      have hn : n ≠ 0 := by
        intro h0; rw [h0] at hb; simp at hb; exact hvb hb.symm
      have hnq : (n : ℚ) ≠ 0 := by exact_mod_cast hn
      obtain ⟨q, hq, hc⟩ := fp_round_toRat p hp (xor s t) (scale_num m (f - e))
        (scale_den n (f - e)) (Nat.mul_pos (Nat.pos_of_ne_zero hn) (pow_pos (by norm_num) _))
      refine ⟨q, ?_, ?_⟩
      · simp only [fp_div, if_neg hn]
        exact hq
      · rw [scale_ratio, sign_xor] at hc
        have two_ne : (2 : ℚ) ≠ 0 := by norm_num
        have hst : (if t then (-1 : ℚ) else 1) ≠ 0 := by cases t <;> simp
        have hval : (if s then (-1 : ℚ) else 1) * (if t then (-1 : ℚ) else 1)
            * ((m : ℚ) / n * (2 : ℚ) ^ (-(f - e))) = va / vb := by
          rw [← ha, ← hb, neg_sub, zpow_sub₀ two_ne]
          have h2f : (2 : ℚ) ^ f ≠ 0 := zpow_ne_zero _ two_ne
          cases s <;> cases t <;> simp <;> field_simp
        rw [hval] at hc
        exact hc
    | inf t => simp [fp.toRat] at hb
    | nan => simp [fp.toRat] at hb
  | inf s => simp [fp.toRat] at ha
  | nan => simp [fp.toRat] at ha

theorem fp_mul_toRat (p : Nat) (hp : 0 < p) (a b : fp) (va vb : ℚ)
    (ha : a.toRat = some va) (hb : b.toRat = some vb) :
    ∃ q, (fp_mul p a b).toRat = some q ∧ rel_close (1 / 2 ^ p) q (va * vb) := by
  cases a with
  | fin s m e =>
    cases b with
    | fin t n f =>
      simp only [fp.toRat, Option.some.injEq] at ha hb
      obtain ⟨q, hq, hc⟩ := fp_round_toRat p hp (xor s t) (scale_num (m * n) (-(e + f)))
        (scale_den 1 (-(e + f))) (Nat.mul_pos Nat.one_pos (pow_pos (by norm_num) _))
      refine ⟨q, hq, ?_⟩
      rw [scale_ratio, sign_xor, neg_neg, Nat.cast_one, div_one] at hc
      have two_ne : (2 : ℚ) ≠ 0 := by norm_num
      have hval : (if s then (-1 : ℚ) else 1) * (if t then (-1 : ℚ) else 1)
          * (((m * n : Nat) : ℚ) * (2 : ℚ) ^ (e + f)) = va * vb := by
        rw [← ha, ← hb, zpow_add₀ two_ne]
        push_cast
        ring
      rw [hval] at hc
      exact hc
    | inf t => simp [fp.toRat] at hb
    | nan => simp [fp.toRat] at hb
  | inf s => simp [fp.toRat] at ha
  | nan => simp [fp.toRat] at ha
/-- The percentage of a record with non-zero design capacity is a finite `float`
within relative error `2^-21` of `100 * rem_cap / cap`. -/
theorem rem_per_close (b : bat_stat) (hcap : b.cap ≠ 0) :
    ∃ q, (rem_per b).toRat = some q ∧
      rel_close (1 / 2 ^ 21) q (100 * (b.rem_cap : ℚ) / (b.cap : ℚ)) := by
  have hcq : (b.cap : ℚ) ≠ 0 := by exact_mod_cast hcap
  obtain ⟨q1, hq1, c1⟩ := fp_of_int_toRat 24 (by norm_num) b.rem_cap
  obtain ⟨q2, hq2, c2⟩ := fp_of_int_toRat 24 (by norm_num) b.cap
  have hq2ne : q2 ≠ 0 := rel_close_ne_zero c2 (by norm_num) hcq
  obtain ⟨q3, hq3, c3⟩ := fp_div_toRat 24 (by norm_num) _ _ q1 q2 hq1 hq2 hq2ne
  obtain ⟨q4, hq4, c4⟩ := fp_cvt_toRat 53 (by norm_num) _ q3 hq3
  obtain ⟨q5, hq5, c5⟩ := fp_of_int_toRat 53 (by norm_num) 100
  obtain ⟨q6, hq6, c6⟩ := fp_mul_toRat 53 (by norm_num) _ _ q4 q5 hq4 hq5
  obtain ⟨q7, hq7, c7⟩ := fp_cvt_toRat 24 (by norm_num) _ q6 hq6
  refine ⟨q7, hq7, ?_⟩
  have d12 := rel_close_div c1 c2 (by norm_num) (by norm_num) (by norm_num) hcq
  have d3 := rel_close_trans d12 c3 (by norm_num)
  have d4 := rel_close_trans d3 c4 (by norm_num)
  have d45 := rel_close_mul d4 c5
  have d6 := rel_close_trans d45 c6 (by norm_num)
  have d7 := rel_close_trans d6 c7 (by norm_num)
  have e : (b.rem_cap : ℚ) / (b.cap : ℚ) * ((100 : Int) : ℚ)
      = 100 * (b.rem_cap : ℚ) / (b.cap : ℚ) := by
    push_cast; ring
  rw [e] at d7
  exact rel_close_mono d7 (by norm_num)

theorem fmt_f2_of_hundredths (s : Bool) (m : Nat) (e : Int) (k : Nat)
    (h : (m : ℚ) * (2 : ℚ) ^ e * 100 = k) :
    fmt_f2 (fp.fin s m e) = (if s then "-" else "") ++ toString (k / 100) ++ "." ++
      toString (k % 100 / 10) ++ toString (k % 10) := by
  have hden : 0 < scale_den 1 (-e) := Nat.mul_pos Nat.one_pos (pow_pos (by norm_num) _)
  have hdq : (0 : ℚ) < ((scale_den 1 (-e) : Nat) : ℚ) := by exact_mod_cast hden
  have hr := scale_ratio (m * 100) 1 (-e)
  rw [neg_neg, Nat.cast_one, div_one] at hr
  have hk : scale_num (m * 100) (-e) = k * scale_den 1 (-e) := by
    have : ((scale_num (m * 100) (-e) : Nat) : ℚ) = (k : ℚ) * ((scale_den 1 (-e) : Nat) : ℚ) := by
      rw [div_eq_iff hdq.ne'] at hr
      rw [hr, ← h]
      push_cast
      ring
    exact_mod_cast this
  have hrne : rne (scale_num (m * 100) (-e)) (scale_den 1 (-e)) = k := by
    unfold rne
    rw [hk, Nat.mul_mod_left, Nat.mul_div_cancel _ hden]
    simp [hden]
  simp only [fmt_f2, hrne]
theorem fmt_f2_fifty (x : fp) (h : x.toRat = some 50) : fmt_f2 x = "50.00" := by
  cases x with
  | fin s m e =>
    simp only [fp.toRat, Option.some.injEq] at h
    have h2e : (0 : ℚ) < (2 : ℚ) ^ e := zpow_pos (by norm_num) e
    have hm : (0 : ℚ) ≤ (m : ℚ) * (2 : ℚ) ^ e := mul_nonneg (Nat.cast_nonneg m) h2e.le
    cases s with
    | true =>
      exfalso
      simp only [if_true] at h
      linarith
    | false =>
      simp only [Bool.false_eq_true, if_false, one_mul] at h
      rw [fmt_f2_of_hundredths false m e 5000 (by rw [h]; norm_num)]
      decide
  | inf s => simp [fp.toRat] at h
  | nan => simp [fp.toRat] at h

/-- C3: the short report is the concatenation, in list order, of the entry
"AC<i>: ON " or "AC<i>: OFF " of each AC record, then the entry
"BAT<j>: <percent>% (<label>) " of each battery record, then a newline; for one
online AC record and one battery record with percentage 50 and label "LION0" it
is exactly "AC0: ON BAT0: 50.00% (LION0) \n". -/
theorem print_stat_short_form (acs : List ac_stat) (bats : List bat_stat)
    (ac : ac_stat) (bat : bat_stat) (hon : ac.online ≠ 0)
    (hper : (rem_per bat).toRat = some 50) (hlabel : bat.raw_bat = "LION0") :
    print_stat true [ac] [bat] = "AC0: ON BAT0: 50.00% (LION0) \n" ∧
      print_stat true acs bats
        = concat_all (acs.enum.map (fun p =>
            "AC" ++ toString p.1 ++ ": " ++ (if p.2.online ≠ 0 then "ON" else "OFF") ++ " ")) ++
          concat_all (bats.enum.map (fun p =>
            "BAT" ++ toString p.1 ++ ": " ++ fmt_f2 (rem_per p.2) ++ "% (" ++ p.2.raw_bat
              ++ ") ")) ++ "\n" := by
  refine ⟨?_, print_stat_short acs bats⟩
  rw [print_stat_short]
  simp only [short_report, List.enum, List.enumFrom_cons, List.enumFrom_nil, List.map_cons,
    List.map_nil, concat_all, short_ac_entry, short_bat_entry, hlabel, fmt_f2_fifty _ hper,
    if_pos hon]
  decide

set_option maxRecDepth 100000 in
/-- Witness for C3: `online = 1`, remaining 5,000,000 of 10,000,000. -/
theorem print_stat_short_form_witness :
    (⟨1⟩ : ac_stat).online ≠ 0 ∧
      (rem_per ⟨"LION0", 0, 0, 0, 0, 0, 0, 5000000, 10000000⟩).toRat = some 50 ∧
      print_stat true [⟨1⟩] [⟨"LION0", 0, 0, 0, 0, 0, 0, 5000000, 10000000⟩]
        = "AC0: ON BAT0: 50.00% (LION0) \n" := by
  have hr : rem_per ⟨"LION0", 0, 0, 0, 0, 0, 0, 5000000, 10000000⟩
      = fp.fin false 13107200 (-18) := by decide
  have hv : (rem_per ⟨"LION0", 0, 0, 0, 0, 0, 0, 5000000, 10000000⟩).toRat = some 50 := by
    rw [hr]
    simp only [fp.toRat, Option.some.injEq]
    norm_num
  exact ⟨by decide, hv,
    (print_stat_short_form [] [] ⟨1⟩ ⟨"LION0", 0, 0, 0, 0, 0, 0, 5000000, 10000000⟩
      (by decide) hv rfl).1⟩

set_option maxRecDepth 100000 in
/-- C4, counterexample: with remaining capacity 1 and design capacity 3 the
computed percentage is the `float` 8738134 * 2^-18 (33.33333587...), not 100/3. -/
theorem rem_per_counterexample :
    (⟨"", 0, 0, 0, 0, 0, 0, 1, 3⟩ : bat_stat).cap ≠ 0 ∧
      (rem_per ⟨"", 0, 0, 0, 0, 0, 0, 1, 3⟩).toRat
        ≠ some (100 * ((1 : Int) : ℚ) / ((3 : Int) : ℚ)) := by
  have hr : rem_per ⟨"", 0, 0, 0, 0, 0, 0, 1, 3⟩ = fp.fin false 8738134 (-18) := by decide
  refine ⟨by decide, ?_⟩
  rw [hr]
  simp only [fp.toRat, ne_eq, Option.some.injEq]
  norm_num

set_option maxRecDepth 100000 in
/-- C4, amended: for a record with non-zero design capacity the percentage is a
finite single-precision value within relative error 2^-21 of
100 * remainingCapacity / designCapacity; for 5,000,000 of 10,000,000 it is
exactly 50 and is printed as "50.00". -/
theorem rem_per_single_precision (b : bat_stat) (hcap : b.cap ≠ 0) :
    (∃ q, (rem_per b).toRat = some q ∧
      |q - 100 * (b.rem_cap : ℚ) / (b.cap : ℚ)|
        ≤ |100 * (b.rem_cap : ℚ) / (b.cap : ℚ)| / 2 ^ 21) ∧
    (b.rem_cap = 5000000 → b.cap = 10000000 →
      (rem_per b).toRat = some 50 ∧ fmt_f2 (rem_per b) = "50.00") := by
  constructor
  · obtain ⟨q, hq, hc⟩ := rem_per_close b hcap
    refine ⟨q, hq, ?_⟩
    unfold rel_close at hc
    calc |q - 100 * (b.rem_cap : ℚ) / (b.cap : ℚ)|
        ≤ 1 / 2 ^ 21 * |100 * (b.rem_cap : ℚ) / (b.cap : ℚ)| := hc
      _ = |100 * (b.rem_cap : ℚ) / (b.cap : ℚ)| / 2 ^ 21 := by ring
  · intro hr hc
    have hv : rem_per b = fp.fin false 13107200 (-18) := by
      unfold rem_per
      rw [hr, hc]
      decide
    have ht : (rem_per b).toRat = some 50 := by
      rw [hv]
      simp only [fp.toRat, Option.some.injEq]
      norm_num
    exact ⟨ht, fmt_f2_fifty _ ht⟩

/-- Witness for C4: remaining 5,000,000 of design capacity 10,000,000. -/
theorem rem_per_single_precision_witness :
    (⟨"LION0", 0, 0, 0, 0, 0, 0, 5000000, 10000000⟩ : bat_stat).cap ≠ 0 ∧
      (rem_per ⟨"LION0", 0, 0, 0, 0, 0, 0, 5000000, 10000000⟩).toRat = some 50 ∧
      fmt_f2 (rem_per ⟨"LION0", 0, 0, 0, 0, 0, 0, 5000000, 10000000⟩) = "50.00" :=
  ⟨by decide,
    (rem_per_single_precision ⟨"LION0", 0, 0, 0, 0, 0, 0, 5000000, 10000000⟩
      (by decide)).2 rfl rfl⟩

/-! ### The verbose report -/

theorem line_count_append (a b : String) : line_count (a ++ b) = line_count a + line_count b := by
  unfold line_count
  rw [String.toList, String.toList, String.toList, String.data_append, List.count_append]

theorem digitChar_ne_newline (n : Nat) : Nat.digitChar n ≠ '\n' := by
  rcases Nat.lt_or_ge n 16 with h | h
  · interval_cases n <;> decide
  · unfold Nat.digitChar
    repeat rw [if_neg (by omega)]
    decide

theorem toDigitsCore_count_newline (b : Nat) :
    ∀ (fuel n : Nat) (ds : List Char),
      (Nat.toDigitsCore b fuel n ds).count '\n' = ds.count '\n' := by
  intro fuel
  induction fuel with
  | zero => intro n ds; rfl
  | succ fuel ih =>
    intro n ds
    simp only [Nat.toDigitsCore]
    split
    · rw [List.count_cons_of_ne (digitChar_ne_newline _).symm]
    · rw [ih, List.count_cons_of_ne (digitChar_ne_newline _).symm]

theorem line_count_fmt_d (c : Nat) : line_count (fmt_d c) = 0 := by
  show (Nat.toDigits 10 c).asString.toList.count '\n' = 0
  show (Nat.toDigitsCore 10 (c + 1) c []).count '\n' = 0
  rw [toDigitsCore_count_newline]
  rfl

theorem line_count_fmt_f2 (x : fp) : line_count (fmt_f2 x) = 0 := by
  have hnat : ∀ n : Nat, line_count (toString n) = 0 := line_count_fmt_d
  cases x with
  | nan => decide
  | inf s => cases s <;> decide
  | fin s m e =>
    simp only [fmt_f2, line_count_append, hnat]
    cases s <;> decide

theorem line_count_print_ac (c : Nat) (ac : ac_stat) : line_count (print_ac false c ac) = 1 := by
  simp only [print_ac, Bool.false_eq_true, if_false, line_count_append, line_count_fmt_d]
  split <;> decide

theorem line_count_print_bat (c : Nat) (bat : bat_stat) :
    line_count (print_bat false c bat) = 9 + line_count bat.raw_bat := by
  simp only [print_bat, Bool.false_eq_true, if_false, line_count_append, line_count_fmt_d,
    line_count_fmt_f2]
  have h : ∀ s : String, s.toList.count '\n' = line_count s := fun _ => rfl
  have e1 : line_count "\n" = 1 := by decide
  have e2 : line_count "Battery" = 0 := by decide
  have e3 : line_count ": " = 0 := by decide
  have e4 : line_count "% remaining\n" = 1 := by decide
  have e5 : line_count ": design capacity of " = 0 := by decide
  have e6 : line_count " Wh\n" = 1 := by decide
  have e7 : line_count ": rate of " = 0 := by decide
  have e8 : line_count " W\n" = 1 := by decide
  have e9 : line_count ": Voltage is " = 0 := by decide
  have e10 : line_count " VDC out of " = 0 := by decide
  have e11 : line_count " VDC\n" = 1 := by decide
  have e12 : line_count ": last charged to " = 0 := by decide
  have e13 : line_count ": low capacity is set for " = 0 := by decide
  have e14 : line_count ": warning capacity is set for " = 0 := by decide
  have e15 : line_count ": remaining capacity at " = 0 := by decide
  rw [e1, e2, e3, e4, e5, e6, e7, e8, e9, e10, e11, e12, e13, e14, e15]
  omega

theorem line_count_foldl {α : Type} (f : Nat → α → String) (k : α → Nat)
    (hf : ∀ c x, line_count (f c x) = k x) :
    ∀ (l : List α) (c : Nat) (out : String),
      line_count (l.foldl (fun (st : Nat × String) x => (st.1 + 1, st.2 ++ f st.1 x)) (c, out)).2
        = line_count out + (l.map k).sum := by
  intro l
  induction l with
  | nil => intro c out; simp
  | cons x xs ih =>
    intro c out
    rw [List.foldl_cons, ih, line_count_append, hf, List.map_cons, List.sum_cons, Nat.add_assoc]

theorem line_count_print_stat (acs : List ac_stat) (bats : List bat_stat) :
    line_count (print_stat false acs bats)
      = acs.length + (bats.map (fun b => 9 + line_count b.raw_bat)).sum + 1 := by
  unfold print_stat
  simp only [line_count_append]
  rw [line_count_foldl (print_bat false) _ line_count_print_bat,
    line_count_foldl (print_ac false) _ line_count_print_ac]
  have e0 : line_count "" = 0 := by decide
  have e1 : line_count "\n" = 1 := by decide
  rw [e0, e1]
  simp

set_option maxRecDepth 100000 in
/-- C11, counterexample: the verbose report of a single battery record has ten
lines, the nine lines of the record and the closing empty line, not 8 + 1. -/
theorem verbose_lines_counterexample :
    line_count (print_stat false [] [⟨"LION0", 11100000, 12000000, 0, 50000000, 5000000,
      2500000, 30000000, 60000000⟩]) = 10 ∧
    (10 : Nat) ≠ 0 + 8 * 1 + 1 := by
  decide

/-- C11, amended: in verbose mode print_stat prints one line per AC record and
nine lines per battery record (label, percentage, design capacity, rate, voltage,
last charge, low capacity, warning capacity, remaining capacity), so for N AC
records and M battery records whose labels contain no newline the report has
N + 9*M lines followed by the final empty line. -/
theorem verbose_lines (acs : List ac_stat) (bats : List bat_stat)
    (hlabel : ∀ b ∈ bats, line_count b.raw_bat = 0) :
    line_count (print_stat false acs bats) = acs.length + 9 * bats.length + 1 ∧
      (∀ c ac, line_count (print_ac false c ac) = 1) ∧
      (∀ c b, b ∈ bats → line_count (print_bat false c b) = 9) := by
  refine ⟨?_, line_count_print_ac, ?_⟩
  · rw [line_count_print_stat]
    have : (bats.map (fun b => 9 + line_count b.raw_bat)).sum = 9 * bats.length := by
      clear acs
      induction bats with
      | nil => rfl
      | cons b bs ih =>
        rw [List.map_cons, List.sum_cons, hlabel b (List.mem_cons_self _ _),
          ih (fun x hx => hlabel x (List.mem_cons_of_mem _ hx)), List.length_cons]
        omega
    rw [this]
  · intro c b hb
    rw [line_count_print_bat, hlabel b hb]

set_option maxRecDepth 100000 in
/-- Witness for C11: two AC records and one battery record give 2 + 9 + 1 lines. -/
theorem verbose_lines_witness :
    (∀ b ∈ [(⟨"LION0", 11100000, 12000000, 0, 50000000, 5000000, 2500000, 30000000,
        60000000⟩ : bat_stat)], line_count b.raw_bat = 0) ∧
      line_count (print_stat false [⟨1⟩, ⟨0⟩] [⟨"LION0", 11100000, 12000000, 0, 50000000,
        5000000, 2500000, 30000000, 60000000⟩]) = 2 + 9 * 1 + 1 :=
  ⟨by decide, (verbose_lines [⟨1⟩, ⟨0⟩] [⟨"LION0", 11100000, 12000000, 0, 50000000,
      5000000, 2500000, 30000000, 60000000⟩] (by decide)).1⟩

/-! ### Insertion, append-only lists, exclusive classification -/

theorem foldl_plain_append {α : Type} (xs l : List α) : xs.foldl plain_append l = l ++ xs := by
  induction xs generalizing l with
  | nil => simp
  | cons x xs ih => rw [List.foldl_cons, ih, plain_append, List.append_assoc]; rfl

theorem foldl_insert_ac (acs : List ac_stat) :
    ∀ st : State, (st.first_ac = true → st.ac_head = []) →
      (acs.foldl insert_ac st).ac_head = st.ac_head ++ acs := by
  induction acs with
  | nil => intro st _; simp
  | cons x xs ih =>
    intro st h
    obtain ⟨h1, h2⟩ := insert_ac_appends st x h
    rw [List.foldl_cons, ih _ (fun hf => by rw [h2] at hf; exact absurd hf (by decide)), h1,
      List.append_assoc]
    rfl

theorem foldl_insert_bat (bats : List bat_stat) :
    ∀ st : State, (st.first_bat = true → st.bat_head = []) →
      (bats.foldl insert_bat st).bat_head = st.bat_head ++ bats := by
  induction bats with
  | nil => intro st _; simp
  | cons x xs ih =>
    intro st h
    obtain ⟨h1, h2⟩ := insert_bat_appends st x h
    rw [List.foldl_cons, ih _ (fun hf => by rw [h2] at hf; exact absurd hf (by decide)), h1,
      List.append_assoc]
    rfl

/-- C14: starting from the initial state (empty queues, both `first_` flags set),
any sequence of insertions by the head-if-first-else-tail rule leaves the queue
equal to the result of plain appends, i.e. to the inserted records in insertion
order; this holds for the AC queue and for the battery queue. -/
theorem insertion_is_plain_append (env : Env) (acs : List ac_stat) (bats : List bat_stat) :
    (acs.foldl insert_ac (init env)).ac_head = acs.foldl plain_append [] ∧
      (bats.foldl insert_bat (init env)).bat_head = bats.foldl plain_append [] ∧
      (acs.foldl insert_ac (init env)).ac_head = acs ∧
      (bats.foldl insert_bat (init env)).bat_head = bats := by
  have ha := foldl_insert_ac acs (init env) (fun _ => rfl)
  have hb := foldl_insert_bat bats (init env) (fun _ => rfl)
  rw [foldl_plain_append, foldl_plain_append, ha, hb]
  simp [init]

/-- The two checks of the loop body cannot both succeed on one name. -/
theorem checks_exclusive (name : String) :
    ¬ (strncmp acpi_pow name (strlen acpi_pow) = 0 ∧
       strncmp acpi_bat name (strlen acpi_bat) = 0) := by
  rw [strncmp_eq_zero_iff, strncmp_eq_zero_iff]
  rintro ⟨h1, h2⟩
  have e1 : (name.toList.take 6).take 5 = ['a', 'c', 'p', 'i', 'a'] := by
    rw [show strlen acpi_pow = 6 from rfl] at h1
    rw [← h1]; rfl
  have e2 : (name.toList.take 7).take 5 = ['a', 'c', 'p', 'i', 'b'] := by
    rw [show strlen acpi_bat = 7 from rfl] at h2
    rw [← h2]; rfl
  rw [List.take_take] at e1 e2
  simp only [Nat.min_def] at e1 e2
  simp at e1 e2
  rw [e1] at e2
  exact absurd e2 (by decide)

/-- The AC check, whatever the sensor query answers: the battery queue and the
descriptor buffer are untouched, and the AC queue is either unchanged or, when
the name matched and the body falls through, extended by one record at its end. -/
theorem check_ac_general (env : Env) (sd_num : Nat) (st : State) (hw : flags_ok st) :
    flags_ok (check_ac env sd_num st).2 ∧
      (check_ac env sd_num st).2.sensordev = st.sensordev ∧
      (check_ac env sd_num st).2.bat_head = st.bat_head ∧
      ((check_ac env sd_num st).2.ac_head = st.ac_head ∨
        (strncmp acpi_pow st.sensordev.xname (strlen acpi_pow) = 0 ∧
          (check_ac env sd_num st).1 = Ctl.fall ∧
          ∃ ac, (check_ac env sd_num st).2.ac_head = st.ac_head ++ [ac])) := by
  obtain ⟨hw1, hw2⟩ := hw
  unfold check_ac
  by_cases hc : strncmp acpi_pow st.sensordev.xname (strlen acpi_pow) = 0
  · rw [if_pos hc]
    dsimp only
    cases sysctl_outcome (env.sensor_at sd_num SENSOR_INDICATOR 0) st.sensor with
    | continue_ => exact ⟨⟨hw1, hw2⟩, rfl, rfl, Or.inl rfl⟩
    | break_ => exact ⟨⟨hw1, hw2⟩, rfl, rfl, Or.inl rfl⟩
    | proceed buf =>
      dsimp only
      cases env.malloc_ac sd_num with
      | none => exact ⟨⟨hw1, hw2⟩, rfl, rfl, Or.inl rfl⟩
      | some ac0 =>
        have hi := insert_ac_appends
          { st with queries := st.queries ++ [Query.sens sd_num SENSOR_INDICATOR 0], sensor := buf }
          { online := to_int buf.value } hw1
        have hf := insert_ac_fields
          { st with queries := st.queries ++ [Query.sens sd_num SENSOR_INDICATOR 0], sensor := buf }
          { online := to_int buf.value }
        refine ⟨⟨?_, ?_⟩, hf.2.2.1, hf.1, Or.inr ⟨hc, rfl, _, hi.1⟩⟩
        · intro h
          exact absurd (hi.2.symm.trans h) (by decide)
        · intro h
          exact hf.1.trans (hw2 (hf.2.1.symm.trans h))
  · rw [if_neg hc]
    exact ⟨⟨hw1, hw2⟩, rfl, rfl, Or.inl rfl⟩

/-- The battery check, whatever the sensor queries answer: the AC queue is
untouched, and the battery queue is unchanged when the name does not match and
extended at its end by the record the type loop hands back, if there is one
(there is none when `malloc` returned `NULL`), when it does. -/
theorem check_bat_general (env : Env) (sd_num : Nat) (st : State) (hw : flags_ok st) :
    flags_ok (check_bat env sd_num st) ∧
      (check_bat env sd_num st).ac_head = st.ac_head ∧
      ((¬ strncmp acpi_bat st.sensordev.xname (strlen acpi_bat) = 0 ∧
          check_bat env sd_num st = st) ∨
        (strncmp acpi_bat st.sensordev.xname (strlen acpi_bat) = 0 ∧
          (check_bat env sd_num st).bat_head
            = st.bat_head ++ (type_loop env sd_num st (env.malloc_bat sd_num)).2.toList)) := by
  unfold check_bat
  by_cases hc : strncmp acpi_bat st.sensordev.xname (strlen acpi_bat) = 0
  · rw [if_pos hc]
    dsimp only
    have hfr := type_loop_frame env sd_num st (env.malloc_bat sd_num)
    generalize type_loop env sd_num st (env.malloc_bat sd_num) = sb at hfr ⊢
    obtain ⟨s1, ob⟩ := sb
    simp only at hfr ⊢
    cases ob with
    | none =>
      simp only [Option.toList_none, List.append_nil]
      exact ⟨⟨fun h => by rw [hfr.1]; exact hw.1 (hfr.2.2.1 ▸ h),
        fun h => by rw [hfr.2.1]; exact hw.2 (hfr.2.2.2.1 ▸ h)⟩, hfr.1, Or.inr ⟨hc, hfr.2.1⟩⟩
    | some b =>
      simp only [Option.toList_some]
      have hw1 : s1.first_bat = true → s1.bat_head = [] := by
        rw [hfr.2.2.2.1, hfr.2.1]; exact hw.2
      have hi := insert_bat_appends s1 b hw1
      have hf := insert_bat_fields s1 b
      refine ⟨⟨?_, ?_⟩, ?_, Or.inr ⟨hc, ?_⟩⟩
      · intro h; rw [hf.2.1, hfr.2.2.1] at h; rw [hf.1, hfr.1]; exact hw.1 h
      · intro h; rw [hi.2] at h; exact absurd h (by decide)
      · rw [hf.1, hfr.1]
      · rw [hi.1, hfr.2.1]
  · rw [if_neg hc]
    exact ⟨hw, rfl, Or.inl ⟨hc, rfl⟩⟩

/-- One pass through the loop body from a state satisfying `flags_ok`: the
invariant is kept, and the two queues grow at their ends by at most one record
in total. -/
theorem loop_body_general (env : Env) (sd_num : Nat) (st : State) (hw : flags_ok st) :
    flags_ok (loop_body env sd_num st).2 ∧
      ∃ acs bats, (loop_body env sd_num st).2.ac_head = st.ac_head ++ acs ∧
        (loop_body env sd_num st).2.bat_head = st.bat_head ++ bats ∧
        acs.length + bats.length ≤ 1 := by
  unfold loop_body
  dsimp only
  cases sysctl_outcome (env.sensordev_at sd_num) st.sensordev with
  | continue_ => exact ⟨hw, [], [], by simp, by simp, by simp⟩
  | break_ => exact ⟨hw, [], [], by simp, by simp, by simp⟩
  | proceed buf =>
    dsimp only
    have hS : ∃ S0 : State,
        S0 = { st with queries := st.queries ++ [Query.dev sd_num], sensordev := buf } :=
      ⟨_, rfl⟩
    obtain ⟨S0, hS0⟩ := hS
    rw [← hS0]
    have hw0 : flags_ok S0 := by rw [hS0]; exact hw
    have hac0 : S0.ac_head = st.ac_head := by rw [hS0]
    have hbat0 : S0.bat_head = st.bat_head := by rw [hS0]
    obtain ⟨hw1, hd1, hb1, ha1⟩ := check_ac_general env sd_num S0 hw0
    rw [hac0] at ha1
    rw [hbat0] at hb1
    generalize check_ac env sd_num S0 = r at hw1 hd1 hb1 ha1 ⊢
    obtain ⟨c, st1⟩ := r
    simp only at hw1 hd1 hb1 ha1
    obtain ⟨hw2, ha2, hb2⟩ := check_bat_general env sd_num st1 hw1
    rcases ha1 with ha1 | ⟨hm, hfall, ac, ha1⟩
    · cases c with
      | fall =>
        dsimp only
        rcases hb2 with ⟨_, hb2⟩ | ⟨_, hb2⟩
        · rw [hb2]
          exact ⟨hw1, [], [], by simp [ha1], by simp [hb1], by simp⟩
        · refine ⟨hw2, [], _, by simp [ha2, ha1], by rw [hb2, hb1], ?_⟩
          cases (type_loop env sd_num st1 (env.malloc_bat sd_num)).2 <;> simp
      | continue_ => exact ⟨hw1, [], [], by simp [ha1], by simp [hb1], by simp⟩
      | break_ => exact ⟨hw1, [], [], by simp [ha1], by simp [hb1], by simp⟩
    · subst hfall
      dsimp only
      rcases hb2 with ⟨_, hb2⟩ | ⟨hm2, _⟩
      · rw [hb2]
        exact ⟨hw1, [ac], [], ha1, by simp [hb1], by simp⟩
      · rw [hd1] at hm2
        exact absurd ⟨hm, hm2⟩ (checks_exclusive _)

theorem device_loop_extends (env : Env) :
    ∀ (fuel sd_num : Nat) (st st1 : State), flags_ok st →
      device_loop env fuel sd_num st = some st1 →
      flags_ok st1 ∧ st.ac_head <+: st1.ac_head ∧ st.bat_head <+: st1.bat_head := by
  intro fuel
  induction fuel with
  | zero => intro sd_num st st1 _ h; simp [device_loop] at h
  | succ fuel ih =>
    intro sd_num st st1 hw h
    obtain ⟨hw1, acs, bats, ha, hb, _⟩ := loop_body_general env sd_num st hw
    rw [device_loop] at h
    generalize loop_body env sd_num st = r at hw1 ha hb h
    obtain ⟨c, st2⟩ := r
    simp only at hw1 ha hb
    have hpa : st.ac_head <+: st2.ac_head := ⟨acs, ha.symm⟩
    have hpb : st.bat_head <+: st2.bat_head := ⟨bats, hb.symm⟩
    cases c with
    | break_ =>
      simp only [Option.some.injEq] at h
      subst h
      exact ⟨hw1, hpa, hpb⟩
    | fall =>
      obtain ⟨h1, h2, h3⟩ := ih _ _ _ hw1 h
      exact ⟨h1, hpa.trans h2, hpb.trans h3⟩
    | continue_ =>
      obtain ⟨h1, h2, h3⟩ := ih _ _ _ hw1 h
      exact ⟨h1, hpa.trans h2, hpb.trans h3⟩

/-- C13: the invariant `flags_ok` holds in the initial state and is kept by every
pass through the loop body, and in a pass from such a state the AC list and the
battery list before the pass are prefixes of the lists after it; hence the lists
of any state of a run are prefixes of the lists the run ends with. -/
theorem lists_append_only (env : Env) (sd_num : Nat) (st : State) (hw : flags_ok st) :
    flags_ok (init env) ∧
      flags_ok (loop_body env sd_num st).2 ∧
      st.ac_head <+: (loop_body env sd_num st).2.ac_head ∧
      st.bat_head <+: (loop_body env sd_num st).2.bat_head ∧
      ∀ fuel st1, device_loop env fuel sd_num st = some st1 →
        st.ac_head <+: st1.ac_head ∧ st.bat_head <+: st1.bat_head := by
  obtain ⟨hw1, acs, bats, ha, hb, _⟩ := loop_body_general env sd_num st hw
  refine ⟨⟨fun _ => rfl, fun _ => rfl⟩, hw1, ⟨acs, ha.symm⟩, ⟨bats, hb.symm⟩, ?_⟩
  intro fuel st1 h
  exact (device_loop_extends env fuel sd_num st st1 hw h).2

/-- C19: no device name passes both the "acpiac" check and the "acpibat" check of
the loop body, so one pass of the loop body adds at most one record in total to
the AC list and the battery list. -/
theorem classification_exclusive (env : Env) (sd_num : Nat) (st : State) (name : String)
    (hw : flags_ok st) :
    ¬ (strncmp acpi_pow name (strlen acpi_pow) = 0 ∧
        strncmp acpi_bat name (strlen acpi_bat) = 0) ∧
      (loop_body env sd_num st).2.ac_head.length + (loop_body env sd_num st).2.bat_head.length
        ≤ st.ac_head.length + st.bat_head.length + 1 := by
  refine ⟨checks_exclusive name, ?_⟩
  obtain ⟨_, acs, bats, ha, hb, hl⟩ := loop_body_general env sd_num st hw
  rw [ha, hb, List.length_append, List.length_append]
  omega

set_option maxRecDepth 100000 in
/-- Witness for C13: the pass over device 4 (the second battery) of the example
devices, from the state the passes over devices 0 to 3 have built, whose AC list
holds the two adapters and whose battery list holds the first battery: the AC
list stays as it is and the battery list keeps its record and gains one. -/
theorem lists_append_only_witness :
    flags_ok (state_before_pass (env_of example_devs) 4) ∧
      (state_before_pass (env_of example_devs) 4).ac_head = [⟨1⟩, ⟨0⟩] ∧
      ((state_before_pass (env_of example_devs) 4).bat_head.map
        (fun b => (b.raw_bat, b.cap, b.rem_cap))) = [("LION0", 10000000, 5000000)] ∧
      (state_before_pass (env_of example_devs) 4).ac_head
        <+: (loop_body (env_of example_devs) 4
              (state_before_pass (env_of example_devs) 4)).2.ac_head ∧
      (state_before_pass (env_of example_devs) 4).bat_head
        <+: (loop_body (env_of example_devs) 4
              (state_before_pass (env_of example_devs) 4)).2.bat_head ∧
      (loop_body (env_of example_devs) 4
          (state_before_pass (env_of example_devs) 4)).2.ac_head = [⟨1⟩, ⟨0⟩] ∧
      ((loop_body (env_of example_devs) 4
          (state_before_pass (env_of example_devs) 4)).2.bat_head.map
        (fun b => (b.raw_bat, b.cap, b.rem_cap)))
        = [("LION0", 10000000, 5000000), ("LION1", 40000000, 30000000)] :=
  ⟨⟨fun h => absurd h (by decide), fun h => absurd h (by decide)⟩,
    by decide,
    by decide,
    (lists_append_only (env_of example_devs) 4 (state_before_pass (env_of example_devs) 4)
      ⟨fun h => absurd h (by decide), fun h => absurd h (by decide)⟩).2.2.1,
    (lists_append_only (env_of example_devs) 4 (state_before_pass (env_of example_devs) 4)
      ⟨fun h => absurd h (by decide), fun h => absurd h (by decide)⟩).2.2.2.1,
    by decide,
    by decide⟩

set_option maxRecDepth 100000 in
/-- Witness for C19: the pass over device 2 (an AC adapter) of the example
devices adds one record, to the AC list only. -/
theorem classification_exclusive_witness :
    flags_ok (init (env_of example_devs)) ∧
      ¬ (strncmp acpi_pow "acpiac0" (strlen acpi_pow) = 0 ∧
          strncmp acpi_bat "acpiac0" (strlen acpi_bat) = 0) ∧
      (loop_body (env_of example_devs) 2 (init (env_of example_devs))).2.ac_head.length
        + (loop_body (env_of example_devs) 2 (init (env_of example_devs))).2.bat_head.length
        ≤ 0 + 0 + 1 :=
  ⟨⟨fun _ => rfl, fun _ => rfl⟩,
    classification_exclusive (env_of example_devs) 2 (init (env_of example_devs)) "acpiac0"
      ⟨fun _ => rfl, fun _ => rfl⟩⟩

/-- C20: processing the same reading twice gives the same record as processing
it once, for every record and every reading. -/
theorem process_bat_sensor_idempotent (r : bat_stat) (s : sensor) :
    process_bat_sensor (process_bat_sensor r s) s = process_bat_sensor r s := by
  obtain ⟨d, v, t⟩ := s
  cases t
  case SENSOR_VOLTS_DC =>
    by_cases h1 : strcmp d bat_volt = 0 <;> by_cases h2 : strcmp d bat_cvolt = 0 <;>
      simp [process_bat_sensor, h1, h2]
  case SENSOR_WATTS =>
    by_cases h1 : strcmp d bat_rate = 0 <;> simp [process_bat_sensor, h1]
  case SENSOR_WATTHOUR =>
    by_cases h1 : strcmp d bat_last = 0 <;> by_cases h2 : strcmp d bat_warn = 0 <;>
      by_cases h3 : strcmp d bat_low = 0 <;> by_cases h4 : strcmp d bat_rem = 0 <;>
      by_cases h5 : strcmp d bat_cap = 0 <;>
      simp [process_bat_sensor, h1, h2, h3, h4, h5]
  all_goals rfl

/-! ### Failing queries -/

/-- C15: for a device whose descriptor begins with "acpiac", an indicator query
failing with `ENXIO` leaves both lists as they were and the loop goes on with
the next device index; an indicator query failing with `ENOENT` leaves both
lists as they were and ends the loop at once, so the lists the report is printed
from are those before this device. -/
theorem ac_sensor_failure (env : Env) (sd_num : Nat) (st : State) (d : sensordev)
    (hq : sysctl_outcome (env.sensordev_at sd_num) st.sensordev = Outcome.proceed d)
    (hac : "acpiac".toList <+: d.xname.toList) :
    (env.sensor_at sd_num SENSOR_INDICATOR 0 = sysctl_result.fail ENXIO →
      loop_body env sd_num st = (Ctl.continue_,
        { st with sensordev := d, queries := st.queries ++
            [Query.dev sd_num, Query.sens sd_num SENSOR_INDICATOR 0] }) ∧
      (loop_body env sd_num st).2.ac_head = st.ac_head ∧
      (loop_body env sd_num st).2.bat_head = st.bat_head ∧
      ∀ fuel, device_loop env (fuel + 1) sd_num st
        = device_loop env fuel (sd_num + 1) (loop_body env sd_num st).2) ∧
    (env.sensor_at sd_num SENSOR_INDICATOR 0 = sysctl_result.fail ENOENT →
      loop_body env sd_num st = (Ctl.break_,
        { st with sensordev := d, queries := st.queries ++
            [Query.dev sd_num, Query.sens sd_num SENSOR_INDICATOR 0] }) ∧
      ∀ fuel, ∃ st1, device_loop env (fuel + 1) sd_num st = some st1 ∧
        st1.ac_head = st.ac_head ∧ st1.bat_head = st.bat_head ∧
        ∀ print_short, print_stat print_short st1.ac_head st1.bat_head
          = print_stat print_short st.ac_head st.bat_head) := by
  have hm : strncmp acpi_pow d.xname (strlen acpi_pow) = 0 :=
    (strncmp_strlen_iff_starts _ _).2 hac
  constructor
  · intro hs
    have h : loop_body env sd_num st = (Ctl.continue_,
        { st with sensordev := d, queries := st.queries ++
            [Query.dev sd_num, Query.sens sd_num SENSOR_INDICATOR 0] }) := by
      unfold loop_body
      dsimp only
      rw [hq]
      dsimp only
      unfold check_ac
      dsimp only
      rw [if_pos hm, hs]
      simp [sysctl_outcome]
    refine ⟨h, by rw [h], by rw [h], ?_⟩
    intro fuel
    rw [device_loop, h]
  · intro hs
    have h : loop_body env sd_num st = (Ctl.break_,
        { st with sensordev := d, queries := st.queries ++
            [Query.dev sd_num, Query.sens sd_num SENSOR_INDICATOR 0] }) := by
      unfold loop_body
      dsimp only
      rw [hq]
      dsimp only
      unfold check_ac
      dsimp only
      rw [if_pos hm, hs]
      simp [sysctl_outcome, ENOENT, ENXIO]
    refine ⟨h, ?_⟩
    intro fuel
    exact ⟨{ st with sensordev := d, queries := st.queries ++
        [Query.dev sd_num, Query.sens sd_num SENSOR_INDICATOR 0] },
      by rw [device_loop, h], rfl, rfl, fun _ => rfl⟩

set_option maxRecDepth 100000 in
/-- Witness for C15: with `ENXIO` the battery at the next index is still listed,
with `ENOENT` the report is empty. -/
theorem ac_sensor_failure_witness :
    sysctl_outcome ((env_ac_fails ENXIO).sensordev_at 0) (init (env_ac_fails ENXIO)).sensordev
        = Outcome.proceed ⟨"acpiac0", 1⟩ ∧
      "acpiac".toList <+: "acpiac0".toList ∧
      device_loop (env_ac_fails ENXIO) 3 0 (init (env_ac_fails ENXIO))
        = device_loop (env_ac_fails ENXIO) 2 1
            (loop_body (env_ac_fails ENXIO) 0 (init (env_ac_fails ENXIO))).2 ∧
      run (env_ac_fails ENXIO) true 3 = some "BAT0: 50.00% (LION0) \n" ∧
      run (env_ac_fails ENOENT) true 3 = some "\n" :=
  ⟨rfl, by decide,
    ((ac_sensor_failure (env_ac_fails ENXIO) 0 (init (env_ac_fails ENXIO)) ⟨"acpiac0", 1⟩ rfl
      (by decide)).1 rfl).2.2.2 2,
    by decide, by decide⟩

/-- The slot loop hands back a record exactly when it was given one. -/
theorem slot_loop_isSome (env : Env) (sd_num : Nat) (type : sensor_type) :
    ∀ (todo n : Nat) (st : State) (bat : Option bat_stat),
      (slot_loop env sd_num type todo n st bat).2.isSome = bat.isSome := by
  intro todo
  induction todo with
  | zero => intro n st bat; rfl
  | succ todo ih =>
    intro n st bat
    simp only [slot_loop]
    split
    · exact ih _ _ _
    · rfl
    · rw [ih]
      cases bat <;> rfl

/-- The type loop hands back a record exactly when it was given one. -/
theorem type_loop_isSome (env : Env) (sd_num : Nat) (st : State) (bat : Option bat_stat) :
    (type_loop env sd_num st bat).2.isSome = bat.isSome := by
  unfold type_loop bat_types
  simp only [List.foldl_cons, List.foldl_nil]
  rw [slot_loop_isSome, slot_loop_isSome, slot_loop_isSome, slot_loop_isSome]

theorem check_bat_sensordev (env : Env) (sd_num : Nat) (st : State) :
    (check_bat env sd_num st).sensordev = st.sensordev := by
  unfold check_bat
  split
  · dsimp only
    have hfr := type_loop_frame env sd_num st (env.malloc_bat sd_num)
    generalize type_loop env sd_num st (env.malloc_bat sd_num) = sb at hfr ⊢
    obtain ⟨s1, ob⟩ := sb
    cases ob with
    | none => exact hfr.2.2.2.2
    | some b => exact ((insert_bat_fields _ _).2.2.1).trans hfr.2.2.2.2
  · rfl

/-- A pass that works with a descriptor beginning with "acpibat" leaves the
descriptor in the buffer; it appends one battery record when the allocation
succeeds and none when `malloc` returns `NULL`. -/
theorem process_descriptor_bat (env : Env) (sd_num : Nat) (st : State) (d : sensordev)
    (hw : flags_ok st) (hbat : "acpibat".toList <+: d.xname.toList) :
    flags_ok (process_descriptor env sd_num st d).2 ∧
      (process_descriptor env sd_num st d).2.sensordev = d ∧
      ((env.malloc_bat sd_num).isSome = true →
        ∃ b, (process_descriptor env sd_num st d).2.bat_head = st.bat_head ++ [b]) ∧
      (env.malloc_bat sd_num = none →
        (process_descriptor env sd_num st d).2.bat_head = st.bat_head) := by
  have hm : strncmp acpi_bat d.xname (strlen acpi_bat) = 0 :=
    (strncmp_strlen_iff_starts _ _).2 hbat
  have hn : ¬ strncmp acpi_pow d.xname (strlen acpi_pow) = 0 :=
    fun h => checks_exclusive d.xname ⟨h, hm⟩
  have hS : ∃ S0 : State,
      S0 = { st with queries := st.queries ++ [Query.dev sd_num], sensordev := d } :=
    ⟨_, rfl⟩
  obtain ⟨S0, hS0⟩ := hS
  have hw0 : flags_ok S0 := by rw [hS0]; exact hw
  have hd0 : S0.sensordev = d := by rw [hS0]
  have hb0 : S0.bat_head = st.bat_head := by rw [hS0]
  have hac : check_ac env sd_num S0 = (Ctl.fall, S0) := by
    unfold check_ac
    rw [hd0, if_neg hn]
  have hp : process_descriptor env sd_num st d = (Ctl.fall, check_bat env sd_num S0) := by
    unfold process_descriptor
    rw [← hS0, hac]
  rw [hp]
  obtain ⟨hw1, _, hcase⟩ := check_bat_general env sd_num S0 hw0
  have hsome := type_loop_isSome env sd_num S0 (env.malloc_bat sd_num)
  refine ⟨hw1, by rw [check_bat_sensordev, hd0], ?_, ?_⟩
  · intro hal
    rcases hcase with ⟨hno, _⟩ | ⟨_, hb⟩
    · rw [hd0] at hno; exact absurd hm hno
    · rw [hal] at hsome
      cases hr : (type_loop env sd_num S0 (env.malloc_bat sd_num)).2 with
      | none => rw [hr] at hsome; cases hsome
      | some b => exact ⟨b, by rw [hb, hb0, hr]; rfl⟩
  · intro hal
    rcases hcase with ⟨hno, _⟩ | ⟨_, hb⟩
    · rw [hd0] at hno; exact absurd hm hno
    · cases hr : (type_loop env sd_num S0 (env.malloc_bat sd_num)).2 with
      | none => rw [hb, hb0, hr]; simp
      | some b => rw [hr, hal] at hsome; cases hsome

set_option maxRecDepth 100000 in
/-- Counterexample to C18 as stated: the battery `acpibat0` at index 0 is
followed by an `EIO` failure of the descriptor query at index 1, the stale
descriptor is processed as a battery, its twelve sensor queries are issued, but
the `malloc` of that pass returns `NULL`, so the pass adds no record: the battery
list holds one record, not two. -/
theorem unclassified_failure_counterexample :
    env_stale_no_memory.sensordev_at 0 = sysctl_result.ok ⟨"acpibat0", 3⟩ ∧
      env_stale_no_memory.sensordev_at 1 = sysctl_result.fail 5 ∧
      (5 : Nat) ≠ ENXIO ∧ (5 : Nat) ≠ ENOENT ∧
      (loop_body env_stale_no_memory 0 (init env_stale_no_memory)).2.bat_head.length = 1 ∧
      (loop_body env_stale_no_memory 1
        (loop_body env_stale_no_memory 0 (init env_stale_no_memory)).2).2.bat_head.length = 1 ∧
      sensor_queries (loop_body env_stale_no_memory 1
        (loop_body env_stale_no_memory 0 (init env_stale_no_memory)).2).2.queries = 24 ∧
      run env_stale_no_memory true 3 = some "BAT0: 50.00% (LION0) \n" := by
  refine ⟨rfl, rfl, by decide, by decide, by decide, by decide, by decide, by decide⟩

/-- C18 (amended): a descriptor query that fails with an errno other than `ENXIO`
and `ENOENT` is followed by exactly the processing a successful query is
followed by, applied to the descriptor the buffer already holds; so a battery at
index i followed by such a failure at index i+1 yields two battery records when
both allocations succeed (and one record less for each allocation that fails). A
failing sensor query is treated alike, in the slot loop and in the AC check: the
reading left in the buffer is processed, into the record if there is one. -/
theorem unclassified_failure (env : Env) (sd_num : Nat) (st : State) (errno : Nat)
    (h1 : errno ≠ ENXIO) (h2 : errno ≠ ENOENT) :
    (env.sensordev_at sd_num = sysctl_result.fail errno →
      loop_body env sd_num st = process_descriptor env sd_num st st.sensordev) ∧
    (∀ d, env.sensordev_at sd_num = sysctl_result.ok d →
      loop_body env sd_num st = process_descriptor env sd_num st d) ∧
    (∀ d, flags_ok st → env.sensordev_at sd_num = sysctl_result.ok d →
      "acpibat".toList <+: d.xname.toList →
      env.sensordev_at (sd_num + 1) = sysctl_result.fail errno →
      ((env.malloc_bat sd_num).isSome = true → (env.malloc_bat (sd_num + 1)).isSome = true →
        ∃ b1 b2, (loop_body env (sd_num + 1) (loop_body env sd_num st).2).2.bat_head
          = st.bat_head ++ [b1, b2]) ∧
      (env.malloc_bat sd_num).toList.length + (env.malloc_bat (sd_num + 1)).toList.length
        + st.bat_head.length
        = (loop_body env (sd_num + 1) (loop_body env sd_num st).2).2.bat_head.length) ∧
    (∀ type todo n bat, env.sensor_at sd_num type n = sysctl_result.fail errno →
      slot_loop env sd_num type (todo + 1) n st bat
        = slot_loop env sd_num type todo (n + 1)
            { st with queries := st.queries ++ [Query.sens sd_num type n] }
            (bat.map (fun b => process_bat_sensor b st.sensor))) ∧
    (∀ type todo n bat v, env.sensor_at sd_num type n = sysctl_result.ok v →
      slot_loop env sd_num type (todo + 1) n st bat
        = slot_loop env sd_num type todo (n + 1)
            { st with queries := st.queries ++ [Query.sens sd_num type n], sensor := v }
            (bat.map (fun b => process_bat_sensor b v))) ∧
    ("acpiac".toList <+: st.sensordev.xname.toList →
      env.sensor_at sd_num SENSOR_INDICATOR 0 = sysctl_result.fail errno →
      (∀ ac, env.malloc_ac sd_num = some ac →
        check_ac env sd_num st = (Ctl.fall,
          insert_ac { st with queries := st.queries ++ [Query.sens sd_num SENSOR_INDICATOR 0] }
            { online := to_int st.sensor.value })) ∧
      (env.malloc_ac sd_num = none →
        check_ac env sd_num st = (Ctl.fall,
          { st with queries := st.queries ++ [Query.sens sd_num SENSOR_INDICATOR 0] }))) := by
  have hfail : ∀ {α : Type} (buf : α),
      sysctl_outcome (sysctl_result.fail errno) buf = Outcome.proceed buf := by
    intro α buf
    simp [sysctl_outcome, h1, h2]
  have hdesc_fail : env.sensordev_at sd_num = sysctl_result.fail errno →
      loop_body env sd_num st = process_descriptor env sd_num st st.sensordev := by
    intro hq
    unfold loop_body process_descriptor
    dsimp only
    rw [hq, hfail]
    try rfl
  have hdesc_ok : ∀ d, env.sensordev_at sd_num = sysctl_result.ok d →
      loop_body env sd_num st = process_descriptor env sd_num st d := by
    intro d hq
    unfold loop_body process_descriptor
    dsimp only
    rw [hq]
    rfl
  refine ⟨hdesc_fail, hdesc_ok, ?_, ?_, ?_, ?_⟩
  · intro d hw hq hbat hq2
    rw [hdesc_ok d hq]
    obtain ⟨hw1, hd1, hb1, hn1⟩ := process_descriptor_bat env sd_num st d hw hbat
    generalize (process_descriptor env sd_num st d).2 = st1 at hw1 hd1 hb1 hn1 ⊢
    have hstep : loop_body env (sd_num + 1) st1
        = process_descriptor env (sd_num + 1) st1 st1.sensordev := by
      unfold loop_body process_descriptor
      dsimp only
      rw [hq2, hfail]
      try rfl
    rw [hstep, hd1]
    obtain ⟨_, _, hb2, hn2⟩ := process_descriptor_bat env (sd_num + 1) st1 d hw1 hbat
    constructor
    · intro ha1 ha2
      obtain ⟨b1, hb1⟩ := hb1 ha1
      obtain ⟨b2, hb2⟩ := hb2 ha2
      exact ⟨b1, b2, by rw [hb2, hb1, List.append_assoc]; rfl⟩
    · cases hm1 : env.malloc_bat sd_num with
      | none =>
        cases hm2 : env.malloc_bat (sd_num + 1) with
        | none => rw [hn2 hm2, hn1 hm1]; simp
        | some x2 =>
          obtain ⟨b2, hb2⟩ := hb2 (by rw [hm2]; rfl)
          rw [hb2, hn1 hm1]; simp; omega
      | some x1 =>
        obtain ⟨b1, hb1⟩ := hb1 (by rw [hm1]; rfl)
        cases hm2 : env.malloc_bat (sd_num + 1) with
        | none => rw [hn2 hm2, hb1]; simp; omega
        | some x2 =>
          obtain ⟨b2, hb2⟩ := hb2 (by rw [hm2]; rfl)
          rw [hb2, hb1]; simp; omega
  · intro type todo n bat hs
    rw [slot_loop]
    dsimp only
    rw [hs, hfail]
    cases bat <;> rfl
  · intro type todo n bat v hs
    rw [slot_loop]
    dsimp only
    rw [hs]
    cases bat <;> rfl
  · intro hac hs
    have hm : strncmp acpi_pow st.sensordev.xname (strlen acpi_pow) = 0 :=
      (strncmp_strlen_iff_starts _ _).2 hac
    constructor
    · intro ac hal
      unfold check_ac
      rw [if_pos hm]
      dsimp only
      rw [hs, hfail, hal]
    · intro hal
      unfold check_ac
      rw [if_pos hm]
      dsimp only
      rw [hs, hfail, hal]

set_option maxRecDepth 100000 in
/-- Witness for C18: the battery at index 0 followed by an `EIO` failure of the
descriptor query at index 1 is listed twice when both allocations succeed. -/
theorem unclassified_failure_witness :
    (5 : Nat) ≠ ENXIO ∧ (5 : Nat) ≠ ENOENT ∧
      env_stale.sensordev_at 1 = sysctl_result.fail 5 ∧
      loop_body env_stale 1 (loop_body env_stale 0 (init env_stale)).2
        = process_descriptor env_stale 1 (loop_body env_stale 0 (init env_stale)).2
            ⟨"acpibat0", 3⟩ ∧
      (∃ b1 b2, (loop_body env_stale 1 (loop_body env_stale 0 (init env_stale)).2).2.bat_head
          = (init env_stale).bat_head ++ [b1, b2]) ∧
      run env_stale true 3 = some "BAT0: 50.00% (LION0) BAT1: nan% (LION0) \n" :=
  ⟨by decide, by decide, rfl,
    (unclassified_failure env_stale 1 (loop_body env_stale 0 (init env_stale)).2 5
      (by decide) (by decide)).1 rfl,
    ((unclassified_failure env_stale 0 (init env_stale) 5
      (by decide) (by decide)).2.2.1 ⟨"acpibat0", 3⟩ ⟨fun _ => rfl, fun _ => rfl⟩ rfl
      (by decide) rfl).1 rfl rfl,
    by decide⟩

/-! ### The battery sensor loops under failures -/

theorem sysctl_outcome_break_iff {α : Type} (r : sysctl_result α) (buf : α) :
    sysctl_outcome r buf = Outcome.break_ ↔ r = sysctl_result.fail ENOENT := by
  cases r with
  | ok v => simp [sysctl_outcome]
  | fail e =>
    unfold sysctl_outcome
    by_cases h1 : e = ENXIO
    · subst h1; simp [ENOENT, ENXIO]
    · by_cases h2 : e = ENOENT
      · subst h2; simp [ENOENT, ENXIO]
      · simp [h1, h2]

theorem slots_from_eq_filter (r : Nat → sysctl_result sensor) :
    ∀ (todo n : Nat), slots_from r todo n
      = (List.range' n todo).filter
          (fun j => (List.range' n (j - n)).all
            (fun m => decide (r m ≠ sysctl_result.fail ENOENT))) := by
  intro todo
  induction todo with
  | zero => intro n; rfl
  | succ todo ih =>
    intro n
    rw [slots_from, List.range'_succ, List.filter_cons]
    have h0 : (List.range' n (n - n)).all
        (fun m => decide (r m ≠ sysctl_result.fail ENOENT)) = true := by
      rw [Nat.sub_self]; rfl
    rw [if_pos h0]
    congr 1
    have hsplit : ∀ j ∈ List.range' (n + 1) todo,
        (List.range' n (j - n)).all (fun m => decide (r m ≠ sysctl_result.fail ENOENT))
          = (decide (r n ≠ sysctl_result.fail ENOENT) &&
              (List.range' (n + 1) (j - (n + 1))).all
                (fun m => decide (r m ≠ sysctl_result.fail ENOENT))) := by
      intro j hj
      have hjn : n + 1 ≤ j := (List.mem_range'_1.1 hj).1
      have : j - n = (j - (n + 1)) + 1 := by omega
      rw [this, List.range'_succ, List.all_cons]
    by_cases hr : r n = sysctl_result.fail ENOENT
    · rw [if_pos hr]
      symm
      rw [List.filter_eq_nil_iff]
      intro j hj
      rw [hsplit j hj]
      simp [hr]
    · rw [if_neg hr, ih (n + 1)]
      apply List.filter_congr
      intro j hj
      rw [hsplit j hj]
      simp [hr]

theorem slots_from_zero (r : Nat → sysctl_result sensor) (S : Nat) :
    slots_from r S 0 = slots_queried r S := by
  rw [slots_from_eq_filter, slots_queried, List.range_eq_range']
  simp only [Nat.sub_zero]
  apply List.filter_congr
  intro j _
  rw [List.range_eq_range']

/-- The queries issued by the slot loop. -/
theorem slot_loop_queries (env : Env) (sd_num : Nat) (type : sensor_type) :
    ∀ (todo n : Nat) (st : State) (bat : Option bat_stat),
      (slot_loop env sd_num type todo n st bat).1.queries
        = st.queries ++ (slots_from (env.sensor_at sd_num type) todo n).map
            (Query.sens sd_num type) := by
  intro todo
  induction todo with
  | zero => intro n st bat; simp [slot_loop, slots_from]
  | succ todo ih =>
    intro n st bat
    rw [slot_loop, slots_from]
    dsimp only
    have hb := sysctl_outcome_break_iff (env.sensor_at sd_num type n) st.sensor
    cases ho : sysctl_outcome (env.sensor_at sd_num type n) st.sensor with
    | continue_ =>
      have hne : ¬ env.sensor_at sd_num type n = sysctl_result.fail ENOENT := by
        intro h; rw [hb.2 h] at ho; cases ho
      rw [if_neg hne]
      dsimp only
      rw [ih]
      simp
    | break_ =>
      rw [if_pos (hb.1 ho)]
      simp
    | proceed buf =>
      have hne : ¬ env.sensor_at sd_num type n = sysctl_result.fail ENOENT := by
        intro h; rw [hb.2 h] at ho; cases ho
      rw [if_neg hne]
      dsimp only
      rw [ih]
      simp

/-- The record after the slot loop, when every failure is `ENXIO` or `ENOENT`. -/
theorem slot_loop_record (env : Env) (sd_num : Nat) (type : sensor_type)
    (hcl : ∀ n e, env.sensor_at sd_num type n = sysctl_result.fail e → e = ENXIO ∨ e = ENOENT) :
    ∀ (todo n : Nat) (st : State) (bat : Option bat_stat),
      (slot_loop env sd_num type todo n st bat).2
        = bat.map (fun b => ((slots_from (env.sensor_at sd_num type) todo n).filterMap
            (fun j => match env.sensor_at sd_num type j with
              | sysctl_result.ok v => some v
              | sysctl_result.fail _ => none)).foldl process_bat_sensor b) := by
  intro todo
  induction todo with
  | zero => intro n st bat; cases bat <;> simp [slot_loop, slots_from]
  | succ todo ih =>
    intro n st bat
    rw [slot_loop, slots_from]
    dsimp only
    cases hr : env.sensor_at sd_num type n with
    | ok v =>
      simp only [sysctl_outcome, List.filterMap_cons, hr, if_false, reduceCtorEq]
      rw [ih]
      cases bat <;> rfl
    | fail e =>
      rcases hcl n e hr with he | he
      · subst he
        simp only [sysctl_outcome, List.filterMap_cons, hr, if_true]
        rw [ih]
        cases bat <;> simp [ENOENT, ENXIO]
      · subst he
        cases bat <;> simp [sysctl_outcome, hr, ENXIO, ENOENT]

theorem type_loop_queries (env : Env) (sd_num : Nat) (st : State) (bat : Option bat_stat) :
    (type_loop env sd_num st bat).1.queries
      = st.queries ++ bat_types.flatMap (fun t =>
          (slots_queried (env.sensor_at sd_num t) st.sensordev.sensors_count.toNat).map
            (Query.sens sd_num t)) := by
  unfold type_loop bat_types
  simp only [List.foldl_cons, List.foldl_nil, List.flatMap_cons, List.flatMap_nil,
    List.append_nil, ← slots_from_zero]
  have f1 := slot_loop_frame env sd_num SENSOR_VOLTS_DC st.sensordev.sensors_count.toNat 0 st bat
  have q1 := slot_loop_queries env sd_num SENSOR_VOLTS_DC st.sensordev.sensors_count.toNat 0 st bat
  generalize slot_loop env sd_num SENSOR_VOLTS_DC st.sensordev.sensors_count.toNat 0 st bat
    = sb1 at f1 q1 ⊢
  have f2 := slot_loop_frame env sd_num SENSOR_WATTS sb1.1.sensordev.sensors_count.toNat 0
    sb1.1 sb1.2
  have q2 := slot_loop_queries env sd_num SENSOR_WATTS sb1.1.sensordev.sensors_count.toNat 0
    sb1.1 sb1.2
  generalize slot_loop env sd_num SENSOR_WATTS sb1.1.sensordev.sensors_count.toNat 0
    sb1.1 sb1.2 = sb2 at f2 q2 ⊢
  have f3 := slot_loop_frame env sd_num SENSOR_WATTHOUR sb2.1.sensordev.sensors_count.toNat 0
    sb2.1 sb2.2
  have q3 := slot_loop_queries env sd_num SENSOR_WATTHOUR sb2.1.sensordev.sensors_count.toNat 0
    sb2.1 sb2.2
  generalize slot_loop env sd_num SENSOR_WATTHOUR sb2.1.sensordev.sensors_count.toNat 0
    sb2.1 sb2.2 = sb3 at f3 q3 ⊢
  have q4 := slot_loop_queries env sd_num SENSOR_INTEGER sb3.1.sensordev.sensors_count.toNat 0
    sb3.1 sb3.2
  rw [q4, q3, q2, q1, f3.2.2.2.2, f2.2.2.2.2, f1.2.2.2.2]
  simp only [List.append_assoc]

theorem type_loop_record (env : Env) (sd_num : Nat) (st : State) (bat : Option bat_stat)
    (hcl : ∀ t n e, env.sensor_at sd_num t n = sysctl_result.fail e → e = ENXIO ∨ e = ENOENT) :
    (type_loop env sd_num st bat).2
      = bat.map (fun b => (bat_types.flatMap (fun t =>
          readings_fed (env.sensor_at sd_num t) st.sensordev.sensors_count.toNat)).foldl
          process_bat_sensor b) := by
  unfold type_loop bat_types readings_fed
  simp only [List.foldl_cons, List.foldl_nil, List.flatMap_cons, List.flatMap_nil,
    List.append_nil, List.foldl_append, ← slots_from_zero]
  have f1 := slot_loop_frame env sd_num SENSOR_VOLTS_DC st.sensordev.sensors_count.toNat 0 st bat
  have q1 := slot_loop_record env sd_num SENSOR_VOLTS_DC (hcl SENSOR_VOLTS_DC)
    st.sensordev.sensors_count.toNat 0 st bat
  generalize slot_loop env sd_num SENSOR_VOLTS_DC st.sensordev.sensors_count.toNat 0 st bat
    = sb1 at f1 q1 ⊢
  have f2 := slot_loop_frame env sd_num SENSOR_WATTS sb1.1.sensordev.sensors_count.toNat 0
    sb1.1 sb1.2
  have q2 := slot_loop_record env sd_num SENSOR_WATTS (hcl SENSOR_WATTS)
    sb1.1.sensordev.sensors_count.toNat 0 sb1.1 sb1.2
  generalize slot_loop env sd_num SENSOR_WATTS sb1.1.sensordev.sensors_count.toNat 0
    sb1.1 sb1.2 = sb2 at f2 q2 ⊢
  have f3 := slot_loop_frame env sd_num SENSOR_WATTHOUR sb2.1.sensordev.sensors_count.toNat 0
    sb2.1 sb2.2
  have q3 := slot_loop_record env sd_num SENSOR_WATTHOUR (hcl SENSOR_WATTHOUR)
    sb2.1.sensordev.sensors_count.toNat 0 sb2.1 sb2.2
  generalize slot_loop env sd_num SENSOR_WATTHOUR sb2.1.sensordev.sensors_count.toNat 0
    sb2.1 sb2.2 = sb3 at f3 q3 ⊢
  have q4 := slot_loop_record env sd_num SENSOR_INTEGER (hcl SENSOR_INTEGER)
    sb3.1.sensordev.sensors_count.toNat 0 sb3.1 sb3.2
  rw [q4, q3, q2, q1, f3.2.2.2.2, f2.2.2.2.2, f1.2.2.2.2]
  cases bat <;> rfl

/-- The query log after the battery check on a matching name is the one the type
loop leaves: queueing the record issues no query. -/
theorem check_bat_queries_eq (env : Env) (sd_num : Nat) (st : State)
    (hm : strncmp acpi_bat st.sensordev.xname (strlen acpi_bat) = 0) :
    (check_bat env sd_num st).queries
      = (type_loop env sd_num st (env.malloc_bat sd_num)).1.queries := by
  unfold check_bat
  rw [if_pos hm]
  dsimp only
  generalize type_loop env sd_num st (env.malloc_bat sd_num) = sb
  obtain ⟨s1, ob⟩ := sb
  cases ob with
  | none => rfl
  | some b => exact (insert_bat_fields _ _).2.2.2.2

set_option maxRecDepth 100000 in
/-- Counterexample to C16 as stated: the battery with four slots and gaps of
`env_bat_gaps`, on a system where `malloc` returns `NULL`; the ten sensor
queries are issued in the stated order, but there is no record to append, the
battery list stays empty and the report is a bare newline. -/
theorem battery_sensor_failures_counterexample :
    flags_ok { init env_bat_gaps_no_memory with sensordev := ⟨"acpibat0", 4⟩ } ∧
      "acpibat".toList <+: "acpibat0".toList ∧
      (check_bat env_bat_gaps_no_memory 0
          { init env_bat_gaps_no_memory with sensordev := ⟨"acpibat0", 4⟩ }).queries.length
        = 10 ∧
      (check_bat env_bat_gaps_no_memory 0
          { init env_bat_gaps_no_memory with sensordev := ⟨"acpibat0", 4⟩ }).bat_head = [] ∧
      run env_bat_gaps_no_memory true 2 = some "\n" := by
  refine ⟨⟨fun _ => rfl, fun _ => rfl⟩, by decide, by decide, by decide, by decide⟩

/-- C16 (amended): for a device whose descriptor begins with "acpibat" and
reports S sensor slots, the sensor queries issued are those of the types
voltage, power, energy, integer in this order, within each type the slots 0, 1,
... in increasing order, a slot being queried exactly when no earlier slot of
the same type answered `ENOENT` (so `ENXIO` skips one slot only, `ENOENT` ends
the loop of its type only, and the next type starts again at slot 0), whether or
not the allocation succeeded; afterwards one record is appended to the battery
list if the allocation succeeded, and the list is left as it was if `malloc`
returned `NULL`. When every failure is `ENXIO` or `ENOENT` the record is the
allocated block after the successful readings of the queried slots, in query
order. -/
theorem battery_sensor_failures (env : Env) (sd_num : Nat) (st : State)
    (hw : flags_ok st) (hbat : "acpibat".toList <+: st.sensordev.xname.toList) :
    bat_types = [SENSOR_VOLTS_DC, SENSOR_WATTS, SENSOR_WATTHOUR, SENSOR_INTEGER] ∧
    (check_bat env sd_num st).queries
      = st.queries ++ bat_types.flatMap (fun t =>
          (slots_queried (env.sensor_at sd_num t) st.sensordev.sensors_count.toNat).map
            (Query.sens sd_num t)) ∧
    (∀ t j, j ∈ slots_queried (env.sensor_at sd_num t) st.sensordev.sensors_count.toNat ↔
      j < st.sensordev.sensors_count.toNat ∧
        ∀ m < j, env.sensor_at sd_num t m ≠ sysctl_result.fail ENOENT) ∧
    (∀ t, (slots_queried (env.sensor_at sd_num t) st.sensordev.sensors_count.toNat).Sorted
      (· < ·)) ∧
    (∀ block, env.malloc_bat sd_num = some block →
      ∃ bat, (check_bat env sd_num st).bat_head = st.bat_head ++ [bat] ∧
        ((∀ t n e, env.sensor_at sd_num t n = sysctl_result.fail e → e = ENXIO ∨ e = ENOENT) →
          bat = (bat_types.flatMap (fun t =>
            readings_fed (env.sensor_at sd_num t) st.sensordev.sensors_count.toNat)).foldl
              process_bat_sensor block)) ∧
    (env.malloc_bat sd_num = none → (check_bat env sd_num st).bat_head = st.bat_head) := by
  have hm : strncmp acpi_bat st.sensordev.xname (strlen acpi_bat) = 0 :=
    (strncmp_strlen_iff_starts _ _).2 hbat
  have hsome := type_loop_isSome env sd_num st (env.malloc_bat sd_num)
  obtain ⟨_, _, hcase⟩ := check_bat_general env sd_num st hw
  have hb : (check_bat env sd_num st).bat_head
      = st.bat_head ++ (type_loop env sd_num st (env.malloc_bat sd_num)).2.toList := by
    rcases hcase with ⟨hno, _⟩ | ⟨_, hb⟩
    · exact absurd hm hno
    · exact hb
  refine ⟨rfl, ?_, ?_, ?_, ?_, ?_⟩
  · rw [check_bat_queries_eq env sd_num st hm, type_loop_queries]
  · intro t j
    unfold slots_queried
    rw [List.mem_filter, List.mem_range, List.all_eq_true]
    simp only [List.mem_range, decide_eq_true_eq]
  · intro t
    unfold slots_queried
    exact (List.sorted_lt_range _).filter _
  · intro block hal
    cases hr : (type_loop env sd_num st (env.malloc_bat sd_num)).2 with
    | none => rw [hr, hal] at hsome; cases hsome
    | some b =>
      refine ⟨b, by rw [hb, hr]; rfl, fun hcl => ?_⟩
      have hrec := type_loop_record env sd_num st (env.malloc_bat sd_num) hcl
      rw [hr, hal, Option.map_some'] at hrec
      exact Option.some.inj hrec
  · intro hal
    cases hr : (type_loop env sd_num st (env.malloc_bat sd_num)).2 with
    | none => rw [hb, hr]; simp
    | some b => rw [hr, hal] at hsome; cases hsome

set_option maxRecDepth 100000 in
/-- Witness for C16: a battery with four slots and gaps; voltage slot 0 is
skipped and slots 1..3 are still queried, power stops after slot 0, energy after
slot 2, integer after slot 1, and the record is listed. -/
theorem battery_sensor_failures_witness :
    flags_ok { init env_bat_gaps with sensordev := ⟨"acpibat0", 4⟩ } ∧
      "acpibat".toList <+: "acpibat0".toList ∧
      (check_bat env_bat_gaps 0
          { init env_bat_gaps with sensordev := ⟨"acpibat0", 4⟩ }).queries
        = [Query.sens 0 SENSOR_VOLTS_DC 0, Query.sens 0 SENSOR_VOLTS_DC 1,
           Query.sens 0 SENSOR_VOLTS_DC 2, Query.sens 0 SENSOR_VOLTS_DC 3,
           Query.sens 0 SENSOR_WATTS 0,
           Query.sens 0 SENSOR_WATTHOUR 0, Query.sens 0 SENSOR_WATTHOUR 1,
           Query.sens 0 SENSOR_WATTHOUR 2,
           Query.sens 0 SENSOR_INTEGER 0, Query.sens 0 SENSOR_INTEGER 1] ∧
      (check_bat env_bat_gaps 0
          { init env_bat_gaps with sensordev := ⟨"acpibat0", 4⟩ }).bat_head
        = [⟨"LION0", 11100000, 0, 0, 0, 0, 0, 15000000, 60000000⟩] ∧
      run env_bat_gaps true 2 = some "BAT0: 25.00% (LION0) \n" := by
  have h := battery_sensor_failures env_bat_gaps 0
    { init env_bat_gaps with sensordev := ⟨"acpibat0", 4⟩ }
    ⟨fun _ => rfl, fun _ => rfl⟩ (by decide)
  refine ⟨⟨fun _ => rfl, fun _ => rfl⟩, by decide, ?_, by decide, by decide⟩
  rw [h.2.1]
  decide

theorem check_ac_general_sensordev (env : Env) (sd_num : Nat) (st : State) :
    (check_ac env sd_num st).2.sensordev = st.sensordev := by
  unfold check_ac
  split
  · dsimp only
    cases sysctl_outcome (env.sensor_at sd_num SENSOR_INDICATOR 0) st.sensor with
    | continue_ => rfl
    | break_ => rfl
    | proceed buf =>
      dsimp only
      cases env.malloc_ac sd_num with
      | none => rfl
      | some ac => exact (insert_ac_fields _ _).2.2.1
  · rfl

/-! ### Bounded work -/

theorem sensor_queries_append (a b : List Query) :
    sensor_queries (a ++ b) = sensor_queries a + sensor_queries b := by
  unfold sensor_queries; exact List.countP_append _ _ _

theorem descriptor_queries_append (a b : List Query) :
    descriptor_queries (a ++ b) = descriptor_queries a + descriptor_queries b := by
  unfold descriptor_queries; exact List.countP_append _ _ _

theorem sensor_queries_map_sens (sd_num : Nat) (t : sensor_type) (l : List Nat) :
    sensor_queries (l.map (Query.sens sd_num t)) = l.length ∧
      descriptor_queries (l.map (Query.sens sd_num t)) = 0 := by
  induction l with
  | nil => exact ⟨rfl, rfl⟩
  | cons x xs ih =>
    obtain ⟨h1, h2⟩ := ih
    unfold sensor_queries descriptor_queries at *
    rw [List.map_cons, List.countP_cons, List.countP_cons, h1, h2]
    simp

theorem slots_queried_length (r : Nat → sysctl_result sensor) (S : Nat) :
    (slots_queried r S).length ≤ S := by
  unfold slots_queried
  exact (List.length_filter_le _ _).trans (by rw [List.length_range])

/-- The battery check issues at most `4 * S` sensor queries and no descriptor
query, `S` being the slot count in the descriptor buffer. -/
theorem check_bat_queries (env : Env) (sd_num : Nat) (st : State) (S : Nat)
    (hS : st.sensordev.sensors_count.toNat ≤ S) :
    sensor_queries (check_bat env sd_num st).queries ≤ sensor_queries st.queries + 4 * S ∧
      descriptor_queries (check_bat env sd_num st).queries = descriptor_queries st.queries := by
  by_cases hm : strncmp acpi_bat st.sensordev.xname (strlen acpi_bat) = 0
  · rw [check_bat_queries_eq env sd_num st hm, type_loop_queries]
    unfold bat_types
    simp only [List.flatMap_cons, List.flatMap_nil, List.append_nil, sensor_queries_append,
      descriptor_queries_append, (sensor_queries_map_sens _ _ _).1,
      (sensor_queries_map_sens _ _ _).2]
    have h1 := slots_queried_length (env.sensor_at sd_num SENSOR_VOLTS_DC)
      st.sensordev.sensors_count.toNat
    have h2 := slots_queried_length (env.sensor_at sd_num SENSOR_WATTS)
      st.sensordev.sensors_count.toNat
    have h3 := slots_queried_length (env.sensor_at sd_num SENSOR_WATTHOUR)
      st.sensordev.sensors_count.toNat
    have h4 := slots_queried_length (env.sensor_at sd_num SENSOR_INTEGER)
      st.sensordev.sensors_count.toNat
    constructor <;> omega
  · have : check_bat env sd_num st = st := by unfold check_bat; rw [if_neg hm]
    rw [this]
    exact ⟨Nat.le_add_right _ _, rfl⟩

/-- The AC check issues one sensor query when the name matches and none
otherwise, and no descriptor query. -/
theorem check_ac_queries (env : Env) (sd_num : Nat) (st : State) :
    descriptor_queries (check_ac env sd_num st).2.queries = descriptor_queries st.queries ∧
      ((strncmp acpi_pow st.sensordev.xname (strlen acpi_pow) = 0 ∧
          sensor_queries (check_ac env sd_num st).2.queries = sensor_queries st.queries + 1) ∨
        (¬ strncmp acpi_pow st.sensordev.xname (strlen acpi_pow) = 0 ∧
          check_ac env sd_num st = (Ctl.fall, st))) := by
  unfold check_ac
  by_cases hc : strncmp acpi_pow st.sensordev.xname (strlen acpi_pow) = 0
  · rw [if_pos hc]
    dsimp only
    have hq : sensor_queries (st.queries ++ [Query.sens sd_num SENSOR_INDICATOR 0])
        = sensor_queries st.queries + 1 := by rw [sensor_queries_append]; rfl
    have hd : descriptor_queries (st.queries ++ [Query.sens sd_num SENSOR_INDICATOR 0])
        = descriptor_queries st.queries := by rw [descriptor_queries_append]; rfl
    cases sysctl_outcome (env.sensor_at sd_num SENSOR_INDICATOR 0) st.sensor with
    | continue_ => exact ⟨hd, Or.inl ⟨hc, hq⟩⟩
    | break_ => exact ⟨hd, Or.inl ⟨hc, hq⟩⟩
    | proceed buf =>
      dsimp only
      cases env.malloc_ac sd_num with
      | none => exact ⟨hd, Or.inl ⟨hc, hq⟩⟩
      | some ac =>
        dsimp only
        rw [(insert_ac_fields _ _).2.2.2.2]
        exact ⟨hd, Or.inl ⟨hc, hq⟩⟩
  · rw [if_neg hc]
    exact ⟨rfl, Or.inr ⟨hc, rfl⟩⟩

theorem loop_body_proceed (env : Env) (sd_num : Nat) (st : State) (buf : sensordev)
    (ho : sysctl_outcome (env.sensordev_at sd_num) st.sensordev = Outcome.proceed buf) :
    loop_body env sd_num st = process_descriptor env sd_num st buf := by
  unfold loop_body process_descriptor
  dsimp only
  rw [ho]

/-- The AC check followed by the battery check issues at most `max 1 (4 * S)`
sensor queries. -/
theorem process_descriptor_queries (env : Env) (sd_num : Nat) (st : State) (d : sensordev)
    (S : Nat) (hS : d.sensors_count.toNat ≤ S) :
    sensor_queries (process_descriptor env sd_num st d).2.queries
        ≤ sensor_queries st.queries + max 1 (4 * S) ∧
      descriptor_queries (process_descriptor env sd_num st d).2.queries
        = descriptor_queries st.queries + 1 ∧
      (process_descriptor env sd_num st d).2.sensordev = d := by
  have hS0 : ∃ S0 : State,
      S0 = { st with queries := st.queries ++ [Query.dev sd_num], sensordev := d } :=
    ⟨_, rfl⟩
  obtain ⟨S0, hS0⟩ := hS0
  have h0q : sensor_queries S0.queries = sensor_queries st.queries := by
    rw [hS0]; show sensor_queries (st.queries ++ [Query.dev sd_num]) = _
    rw [sensor_queries_append]; rfl
  have h0d : descriptor_queries S0.queries = descriptor_queries st.queries + 1 := by
    rw [hS0]; show descriptor_queries (st.queries ++ [Query.dev sd_num]) = _
    rw [descriptor_queries_append]; rfl
  have h0s : S0.sensordev = d := by rw [hS0]
  unfold process_descriptor
  rw [← hS0]
  obtain ⟨hd, hcase⟩ := check_ac_queries env sd_num S0
  have hsd := (check_ac_general_sensordev env sd_num S0)
  rcases hcase with ⟨hm, hq⟩ | ⟨hn, he⟩
  · generalize check_ac env sd_num S0 = r at hd hq hsd ⊢
    obtain ⟨c, st1⟩ := r
    simp only at hd hq hsd
    cases c with
    | fall =>
      dsimp only
      have hnb : ¬ strncmp acpi_bat st1.sensordev.xname (strlen acpi_bat) = 0 := by
        rw [hsd]; exact fun h => checks_exclusive _ ⟨hm, h⟩
      have : check_bat env sd_num st1 = st1 := by unfold check_bat; rw [if_neg hnb]
      rw [this]
      exact ⟨by rw [hq]; omega, by rw [hd, h0d], by rw [hsd, h0s]⟩
    | continue_ => exact ⟨by dsimp only; rw [hq]; omega, by rw [hd, h0d], by rw [hsd, h0s]⟩
    | break_ => exact ⟨by dsimp only; rw [hq]; omega, by rw [hd, h0d], by rw [hsd, h0s]⟩
  · rw [he]
    dsimp only
    obtain ⟨h1, h2⟩ := check_bat_queries env sd_num S0 S (by rw [h0s]; exact hS)
    exact ⟨by omega, by rw [h2, h0d], by rw [check_bat_sensordev, h0s]⟩

/-- One pass through the loop body: one descriptor query, at most
`max 1 (4 * S)` sensor queries, and the descriptor buffer keeps a slot count of
at most `S`. -/
theorem loop_body_queries (env : Env) (sd_num : Nat) (st : State) (S : Nat)
    (hbuf : st.sensordev.sensors_count.toNat ≤ S)
    (hS : ∀ d, env.sensordev_at sd_num = sysctl_result.ok d → d.sensors_count.toNat ≤ S) :
    (loop_body env sd_num st).2.sensordev.sensors_count.toNat ≤ S ∧
      sensor_queries (loop_body env sd_num st).2.queries
        ≤ sensor_queries st.queries + max 1 (4 * S) ∧
      descriptor_queries (loop_body env sd_num st).2.queries
        = descriptor_queries st.queries + 1 := by
  have hq : sensor_queries (st.queries ++ [Query.dev sd_num]) = sensor_queries st.queries := by
    rw [sensor_queries_append]; rfl
  have hd : descriptor_queries (st.queries ++ [Query.dev sd_num])
      = descriptor_queries st.queries + 1 := by rw [descriptor_queries_append]; rfl
  cases ho : sysctl_outcome (env.sensordev_at sd_num) st.sensordev with
  | continue_ =>
    have h : loop_body env sd_num st
        = (Ctl.continue_, { st with queries := st.queries ++ [Query.dev sd_num] }) := by
      unfold loop_body
      dsimp only
      rw [ho]
    rw [h]
    exact ⟨hbuf, by dsimp only; rw [hq]; omega, hd⟩
  | break_ =>
    have h : loop_body env sd_num st
        = (Ctl.break_, { st with queries := st.queries ++ [Query.dev sd_num] }) := by
      unfold loop_body
      dsimp only
      rw [ho]
    rw [h]
    exact ⟨hbuf, by dsimp only; rw [hq]; omega, hd⟩
  | proceed buf =>
    have hb : buf.sensors_count.toNat ≤ S := by
      cases hr : env.sensordev_at sd_num with
      | ok d =>
        rw [hr] at ho
        simp only [sysctl_outcome, Outcome.proceed.injEq] at ho
        rw [← ho]
        exact hS d hr
      | fail e =>
        rw [hr] at ho
        unfold sysctl_outcome at ho
        dsimp only at ho
        split at ho
        · cases ho
        · split at ho
          · cases ho
          · simp only [Outcome.proceed.injEq] at ho
            rw [← ho]
            exact hbuf
    rw [loop_body_proceed env sd_num st buf ho]
    obtain ⟨h1, h2, h3⟩ := process_descriptor_queries env sd_num st buf S hb
    exact ⟨by rw [h3]; exact hb, h1, h2⟩

/-- A descriptor query answered `ENXIO` is followed by no sensor query: the pass
logs the descriptor query and goes on with the next index. -/
theorem loop_body_skipped (env : Env) (sd_num : Nat) (st : State)
    (hq : env.sensordev_at sd_num = sysctl_result.fail ENXIO) :
    loop_body env sd_num st
      = (Ctl.continue_, { st with queries := st.queries ++ [Query.dev sd_num] }) := by
  unfold loop_body
  dsimp only
  rw [hq]
  rfl

/-- If the descriptor query at index `j + k` answers `ENOENT`, the loop started
at index `j` ends within `k + 1` passes, and only the passes whose descriptor
query is not answered `ENXIO` issue sensor queries. -/
theorem device_loop_terminates (env : Env) (S : Nat)
    (hS : ∀ i d, env.sensordev_at i = sysctl_result.ok d → d.sensors_count.toNat ≤ S) :
    ∀ (k j : Nat) (st : State),
      env.sensordev_at (j + k) = sysctl_result.fail ENOENT →
      st.sensordev.sensors_count.toNat ≤ S →
      ∃ st1, device_loop env (k + 1) j st = some st1 ∧
        sensor_queries st1.queries ≤ sensor_queries st.queries +
          (List.range' j k).countP
              (fun i => decide (env.sensordev_at i ≠ sysctl_result.fail ENXIO))
            * max 1 (4 * S) ∧
        descriptor_queries st1.queries ≤ descriptor_queries st.queries + (k + 1) := by
  intro k
  induction k with
  | zero =>
    intro j st hend _
    rw [Nat.add_zero] at hend
    refine ⟨{ st with queries := st.queries ++ [Query.dev j] }, ?_, ?_, ?_⟩
    · simp [device_loop, loop_body, hend, sysctl_outcome, ENOENT, ENXIO]
    · rw [sensor_queries_append]
      simp [sensor_queries]
    · rw [descriptor_queries_append]
      simp [descriptor_queries]
  | succ k ih =>
    intro j st hend hbuf
    have hend1 : env.sensordev_at (j + 1 + k) = sysctl_result.fail ENOENT := by
      rw [show j + 1 + k = j + (k + 1) by omega]; exact hend
    rw [List.range'_succ, List.countP_cons]
    by_cases hx : env.sensordev_at j = sysctl_result.fail ENXIO
    · have hsq : sensor_queries (st.queries ++ [Query.dev j]) = sensor_queries st.queries := by
        rw [sensor_queries_append]; rfl
      have hdq : descriptor_queries (st.queries ++ [Query.dev j])
          = descriptor_queries st.queries + 1 := by rw [descriptor_queries_append]; rfl
      obtain ⟨st2, h2, hq2, hd2⟩ := ih (j + 1)
        { st with queries := st.queries ++ [Query.dev j] } hend1 hbuf
      refine ⟨st2, ?_, ?_, ?_⟩
      · rw [device_loop, loop_body_skipped env j st hx]
        exact h2
      · rw [if_neg (by simp [hx]), Nat.add_zero]
        exact hq2.trans (by dsimp only; rw [hsq])
      · exact hd2.trans (by dsimp only; rw [hdq]; omega)
    · rw [if_pos (by simp [hx])]
      obtain ⟨hb1, hq1, hd1⟩ := loop_body_queries env j st S hbuf (hS j)
      rw [device_loop]
      generalize loop_body env j st = r at hb1 hq1 hd1 ⊢
      obtain ⟨c, st1⟩ := r
      simp only at hb1 hq1 hd1
      have hcnt : ∃ cnt, (List.range' (j + 1) k).countP
          (fun i => decide (env.sensordev_at i ≠ sysctl_result.fail ENXIO)) = cnt := ⟨_, rfl⟩
      obtain ⟨cnt, hcnt⟩ := hcnt
      rw [hcnt]
      have hmul : (cnt + 1) * max 1 (4 * S) = cnt * max 1 (4 * S) + max 1 (4 * S) := by
        rw [Nat.add_mul, Nat.one_mul]
      have hgo : ∃ st2, device_loop env (k + 1) (j + 1) st1 = some st2 ∧
          sensor_queries st2.queries ≤ sensor_queries st.queries + (cnt + 1) * max 1 (4 * S) ∧
          descriptor_queries st2.queries ≤ descriptor_queries st.queries + (k + 1 + 1) := by
        obtain ⟨st2, h2, hq2, hd2⟩ := ih (j + 1) st1 hend1 hb1
        rw [hcnt] at hq2
        exact ⟨st2, h2, by rw [hmul]; omega, by omega⟩
      cases c with
      | break_ => exact ⟨st1, rfl, by rw [hmul]; omega, by omega⟩
      | fall => exact hgo
      | continue_ => exact hgo

/-- A kernel that never answers `ENOENT`: the loop does not end. -/
theorem device_loop_never_ends :
    ∀ (fuel sd_num : Nat) (st : State), device_loop env_all_enxio fuel sd_num st = none := by
  intro fuel
  induction fuel with
  | zero => intro sd_num st; rfl
  | succ fuel ih =>
    intro sd_num st
    rw [device_loop]
    have : loop_body env_all_enxio sd_num st
        = (Ctl.continue_, { st with queries := st.queries ++ [Query.dev sd_num] }) := by
      simp [loop_body, env_all_enxio, sysctl_outcome]
    rw [this]
    exact ih _ _

set_option maxRecDepth 100000 in
/-- Counterexample to C17 as stated, one fact for each way the claim fails.
(1) A kernel that answers every descriptor query with `ENXIO`: the loop never
ends, whatever the number of passes allowed. (2) One battery with one sensor
slot (D = 1, S = 1): four sensor queries, one per sensor type, more than D * S.
(3) One AC adapter whose descriptor reports no slot (D = 1, S = 0): one sensor
query, more than D * S and more than D * 4 * S. (4) A battery with three slots
followed by a descriptor query failing with `EIO`: one descriptor was returned,
S = 3, and the stale descriptor is enumerated again, 24 sensor queries, more
than 1 * 4 * 3. (5) A first descriptor query failing with `EIO` over a stack
buffer that happens to read as a battery with two slots: no device reported a
slot count, yet eight sensor queries are issued. -/
theorem bounded_work_counterexample :
    (∀ fuel, device_loop env_all_enxio fuel 0 (init env_all_enxio) = none) ∧
    ((device_loop (env_of one_battery) 2 0 (init (env_of one_battery))).map
        (fun st => (descriptor_queries st.queries, sensor_queries st.queries))
      = some (2, 4) ∧
      enumerated (env_of one_battery) 1 = 1 ∧ ¬ (4 ≤ 1 * 1)) ∧
    ((device_loop env_ac_no_slots 2 0 (init env_ac_no_slots)).map
        (fun st => (descriptor_queries st.queries, sensor_queries st.queries))
      = some (2, 1) ∧
      enumerated env_ac_no_slots 1 = 1 ∧ ¬ (1 ≤ 1 * 0) ∧ ¬ (1 ≤ 1 * (4 * 0))) ∧
    ((device_loop env_stale 3 0 (init env_stale)).map
        (fun st => (descriptor_queries st.queries, sensor_queries st.queries))
      = some (3, 24) ∧
      ((List.range 2).countP (fun i => match env_stale.sensordev_at i with
        | sysctl_result.ok _ => true
        | sysctl_result.fail _ => false)) = 1 ∧
      enumerated env_stale 2 = 2 ∧ ¬ (24 ≤ 1 * max 1 (4 * 3))) ∧
    ((device_loop env_stack_garbage 2 0 (init env_stack_garbage)).map
        (fun st => (descriptor_queries st.queries, sensor_queries st.queries))
      = some (2, 8) ∧
      enumerated env_stack_garbage 1 = 1 ∧ ¬ (8 ≤ 1 * max 1 (4 * 0))) := by
  refine ⟨fun fuel => device_loop_never_ends fuel 0 _, by decide, by decide, by decide, by decide⟩

/-- C17 (amended): when the descriptor query at some index E answers `ENOENT`
and no descriptor (returned by the kernel or found in the buffer at the start)
reports more than S sensor slots, the run ends after at most E + 1 descriptor
queries and at most D * max(1, 4 * S) sensor queries, D being the number of
descriptors enumerated, i.e. of indices below E whose descriptor query is not
answered `ENXIO`: up to four types times S slots for a battery, one for an AC
adapter, none for an index that is skipped. -/
theorem bounded_work (env : Env) (E S : Nat)
    (hend : env.sensordev_at E = sysctl_result.fail ENOENT)
    (hS : ∀ i d, env.sensordev_at i = sysctl_result.ok d → d.sensors_count ≤ (S : Int))
    (hS0 : env.stack_sensordev.sensors_count ≤ (S : Int)) :
    ∃ st, device_loop env (E + 1) 0 (init env) = some st ∧
      descriptor_queries st.queries ≤ E + 1 ∧
      sensor_queries st.queries ≤ enumerated env E * max 1 (4 * S) ∧
      st.queries.length ≤ (E + 1) + enumerated env E * max 1 (4 * S) := by
  have hS' : ∀ i d, env.sensordev_at i = sysctl_result.ok d → d.sensors_count.toNat ≤ S := by
    intro i d h
    have := hS i d h
    omega
  obtain ⟨st, h1, h2, h3⟩ := device_loop_terminates env S hS' E 0 (init env)
    (by rw [Nat.zero_add]; exact hend)
    (by show env.stack_sensordev.sensors_count.toNat ≤ S; omega)
  have e1 : sensor_queries (init env).queries = 0 := rfl
  have e2 : descriptor_queries (init env).queries = 0 := rfl
  rw [e1, Nat.zero_add, ← List.range_eq_range'] at h2
  rw [e2, Nat.zero_add] at h3
  have h2' : sensor_queries st.queries ≤ enumerated env E * max 1 (4 * S) := h2
  refine ⟨st, h1, h3, h2', ?_⟩
  have hlen : st.queries.length = descriptor_queries st.queries + sensor_queries st.queries := by
    generalize st.queries = qs
    unfold descriptor_queries sensor_queries
    induction qs with
    | nil => rfl
    | cons q qs ih =>
      rw [List.length_cons, List.countP_cons, List.countP_cons, ih]
      cases q <;> simp <;> omega
  rw [hlen]
  omega

set_option maxRecDepth 100000 in
/-- Witness for C17: forty indices answered `ENXIO`, then a battery with one
slot, then `ENOENT` at index 41 (E = 41, D = 1, S = 1): the run ends after 42
descriptor queries and issues four sensor queries, the bound D * max(1, 4 * S). -/
theorem bounded_work_witness :
    env_sparse.sensordev_at 41 = sysctl_result.fail ENOENT ∧
      enumerated env_sparse 41 = 1 ∧
      (device_loop env_sparse 42 0 (init env_sparse)).map
          (fun st => (descriptor_queries st.queries, sensor_queries st.queries))
        = some (42, 4) ∧
      ∃ st, device_loop env_sparse 42 0 (init env_sparse) = some st ∧
        descriptor_queries st.queries ≤ 41 + 1 ∧
        sensor_queries st.queries ≤ enumerated env_sparse 41 * max 1 (4 * 1) ∧
        st.queries.length ≤ (41 + 1) + enumerated env_sparse 41 * max 1 (4 * 1) := by
  refine ⟨rfl, by decide, by decide, bounded_work env_sparse 41 1 rfl ?_ (by decide)⟩
  intro i d h
  simp only [env_sparse] at h
  split at h
  · simp only [sysctl_result.ok.injEq] at h
    rw [← h]
    decide
  · split at h <;> cases h

/-! ### Command line -/

theorem getopt_hv_eq_flags (args : List String) :
    getopt_hv args = (flags args).map (fun o => if o = 'h' ∨ o = 'v' then o else '?') := by
  induction args with
  | nil => rfl
  | cons a rest ih =>
    have e1 : a = "-" ↔ a.toList = ['-'] := String.ext_iff
    have e2 : a = "--" ↔ a.toList = ['-', '-'] := String.ext_iff
    unfold flags option_args at ih ⊢
    rw [getopt_hv, List.takeWhile_cons]
    split
    · rename_i c cs hl
      by_cases hdd : c = '-' ∧ cs = []
      · rw [if_pos hdd]
        have : a = "--" := e2.2 (by rw [hl, hdd.1, hdd.2])
        simp [this]
      · rw [if_neg hdd]
        have h1 : a.toList.head? = some '-' := by rw [hl]; rfl
        have h2 : a ≠ "-" := by rw [Ne, e1, hl]; simp
        have h3 : a ≠ "--" := by
          rw [Ne, e2, hl]
          intro h
          simp at h
          exact hdd h
        have hc : decide (a.toList.head? = some '-' ∧ a ≠ "-" ∧ a ≠ "--") = true :=
          decide_eq_true ⟨h1, h2, h3⟩
        rw [if_pos hc, List.flatMap_cons, List.map_append, ih, hl]
        rfl
    · rename_i hno
      have hc : ¬ (a.toList.head? = some '-' ∧ a ≠ "-" ∧ a ≠ "--") := by
        rintro ⟨h1, h2, h3⟩
        rw [Ne, e1] at h2
        rw [Ne, e2] at h3
        cases hl : a.toList with
        | nil => rw [hl] at h1; simp at h1
        | cons c0 l1 =>
          rw [hl] at h1 h2 h3
          simp only [List.head?_cons, Option.some.injEq] at h1
          subst h1
          cases l1 with
          | nil => exact h2 rfl
          | cons c1 l2 => exact hno c1 l2 hl
      have hc' : ¬ decide (a.toList.head? = some '-' ∧ a ≠ "-" ∧ a ≠ "--") = true := by
        simpa using hc
      rw [if_neg hc']
      rfl

theorem parse_opts_map (l : List Char) :
    ∀ ps : Bool, parse_opts (l.map (fun o => if o = 'h' ∨ o = 'v' then o else '?')) ps
      = if ∀ c ∈ l, c = 'v' then some (if l = [] then ps else false) else none := by
  induction l with
  | nil => intro ps; simp [parse_opts]
  | cons c cs ih =>
    intro ps
    rw [List.map_cons, parse_opts]
    by_cases hv : c = 'v'
    · subst hv
      rw [if_pos (by decide), ih]
      by_cases hall : ∀ c ∈ cs, c = 'v'
      · have h2 : ∀ c ∈ 'v' :: cs, c = 'v' := by
          intro c hc
          rcases List.mem_cons.1 hc with h | h
          · exact h
          · exact hall c h
        rw [if_pos hall, if_pos h2, if_neg (List.cons_ne_nil _ _)]
        split <;> rfl
      · have h2 : ¬ ∀ c ∈ 'v' :: cs, c = 'v' :=
          fun h => hall (fun c hc => h c (List.mem_cons_of_mem _ hc))
        rw [if_neg hall, if_neg h2]
    · have hcl : ¬ (if c = 'h' ∨ c = 'v' then c else '?') = 'v' := by
        split
        · exact hv
        · decide
      rw [if_neg hcl, if_neg (by simp [hv])]

theorem print_stat_verbose (acs : List ac_stat) (bats : List bat_stat) :
    print_stat false acs bats = verbose_report acs bats := by
  have ha : ∀ (c : Nat) (ac : ac_stat), print_ac false c ac = verbose_ac_entry c ac :=
    fun _ _ => rfl
  have hb : ∀ (c : Nat) (bat : bat_stat), print_bat false c bat = verbose_bat_entry c bat :=
    fun _ _ => rfl
  unfold print_stat verbose_report
  simp only [ha, hb]
  rw [foldl_print_short, foldl_print_short]
  simp [List.enum]

theorem usage_text (progname : String) :
    usage progname
      = "usage: " ++ progname ++ " [OPTIONS]\nSimple utility for printing battery status\n\t-h\t\tthis help message\n\t-v\t\tverbose\n" := by
  unfold usage
  rw [String.append_assoc, String.append_assoc, String.append_assoc]
  rfl

/-- C12: writing "flags" for the characters after the '-' of the option
arguments scanned before option parsing stops: if some flag is not 'v' (such as
'h'), the program prints the usage text (the line "usage: <progname> [OPTIONS]",
the description line and the two option lines) and nothing else, issues no
query and exits with status 1, whatever the kernel answers; if there are flags
and all are 'v', it is the enumeration followed by the verbose report and exit
status 0; with no flag it is the enumeration followed by the short report and
exit status 0. In the last two cases the run ends whenever the kernel presents a
list of devices. -/
theorem command_line (env : Env) (progname : String) (args : List String) (fuel : Nat) :
    ((∃ c ∈ flags args, c ≠ 'v') →
      main env progname args fuel
        = some { stdout := "usage: " ++ progname ++ " [OPTIONS]\nSimple utility for printing battery status\n\t-h\t\tthis help message\n\t-v\t\tverbose\n",
                 status := 1, queries := [] }) ∧
    ((∀ c ∈ flags args, c = 'v') → flags args ≠ [] →
      main env progname args fuel
        = (device_loop env fuel 0 (init env)).map
            (fun st => { stdout := verbose_report st.ac_head st.bat_head, status := 0,
                         queries := st.queries })) ∧
    (flags args = [] →
      main env progname args fuel
        = (device_loop env fuel 0 (init env)).map
            (fun st => { stdout := short_report st.ac_head st.bat_head, status := 0,
                         queries := st.queries })) ∧
    ((∀ c ∈ flags args, c = 'v') → ∀ devs, presents env devs →
      ∃ e, main env progname args (devs.length + 1) = some e ∧ e.status = 0) := by
  have hp := parse_opts_map (flags args) true
  rw [← getopt_hv_eq_flags] at hp
  refine ⟨?_, ?_, ?_, ?_⟩
  · rintro ⟨c, hc, hne⟩
    have : ¬ ∀ c ∈ flags args, c = 'v' := fun h => hne (h c hc)
    rw [if_neg this] at hp
    unfold main
    rw [hp, ← usage_text]
  · intro hall hne
    rw [if_pos hall, if_neg hne] at hp
    unfold main
    rw [hp]
    simp only [print_stat_verbose]
  · intro hnil
    rw [if_pos (by rw [hnil]; simp), if_pos hnil] at hp
    unfold main
    rw [hp]
    simp only [print_stat_short]
  · intro hall devs hpres
    rw [if_pos hall] at hp
    obtain ⟨hq, hend⟩ := hpres
    obtain ⟨st, hst, _, _⟩ := device_loop_present env devs 0 (init env)
      (fun k d hk => by rw [Nat.zero_add]; exact hq k d hk)
      (by rw [Nat.zero_add]; exact hend)
      ⟨fun _ => rfl, fun _ => rfl⟩
    unfold main
    rw [hp]
    dsimp only
    rw [hst]
    exact ⟨_, rfl, rfl⟩

set_option maxRecDepth 100000 in
/-- Witness for C12: `-h`, an unknown flag, `-v` followed by `-h`, `-v` alone,
`-vv`, no argument, and a non-option argument in front of `-h`, each with the
text written to standard output. -/
theorem command_line_witness :
    (∃ c ∈ flags ["-h"], c ≠ 'v') ∧
      main (env_of example_devs) "battery" ["-h"] 6
        = some ⟨"usage: battery [OPTIONS]\nSimple utility for printing battery status\n\t-h\t\tthis help message\n\t-v\t\tverbose\n", 1, []⟩ ∧
      main (env_of example_devs) "battery" ["-x"] 0
        = some ⟨"usage: battery [OPTIONS]\nSimple utility for printing battery status\n\t-h\t\tthis help message\n\t-v\t\tverbose\n", 1, []⟩ ∧
      main (env_of example_devs) "battery" ["-v", "-h"] 6
        = some ⟨"usage: battery [OPTIONS]\nSimple utility for printing battery status\n\t-h\t\tthis help message\n\t-v\t\tverbose\n", 1, []⟩ ∧
      (main (env_of example_devs) "battery" ["-v"] 6).map (fun e => (e.stdout, e.status))
        = some ("AC0: Connected\nAC1: Disconnected\nBattery0: LION0\nBattery0: 50.00% remaining\nBattery0: design capacity of 10.00 Wh\nBattery0: rate of 0.00 W\nBattery0: Voltage is 12.00 VDC out of 11.10 VDC\nBattery0: last charged to 10.00 Wh\nBattery0: low capacity is set for 0.00 Wh\nBattery0: warning capacity is set for 0.00 Wh\nBattery0: remaining capacity at 5.00 Wh\nBattery1: LION1\nBattery1: 75.00% remaining\nBattery1: design capacity of 40.00 Wh\nBattery1: rate of 0.00 W\nBattery1: Voltage is 12.00 VDC out of 11.10 VDC\nBattery1: last charged to 40.00 Wh\nBattery1: low capacity is set for 0.00 Wh\nBattery1: warning capacity is set for 0.00 Wh\nBattery1: remaining capacity at 30.00 Wh\n\n", 0) ∧
      (main (env_of example_devs) "battery" ["-vv"] 6).map (fun e => (e.stdout, e.status))
        = (main (env_of example_devs) "battery" ["-v"] 6).map (fun e => (e.stdout, e.status)) ∧
      (main (env_of example_devs) "battery" [] 6).map (fun e => (e.stdout, e.status))
        = some ("AC0: ON AC1: OFF BAT0: 50.00% (LION0) BAT1: 75.00% (LION1) \n", 0) ∧
      (main (env_of example_devs) "battery" ["status", "-h"] 6).map
          (fun e => (e.stdout, e.status))
        = some ("AC0: ON AC1: OFF BAT0: 50.00% (LION0) BAT1: 75.00% (LION1) \n", 0) :=
  ⟨by decide,
    (command_line (env_of example_devs) "battery" ["-h"] 6).1 (by decide),
    by decide, by decide, by decide, by decide, by decide, by decide⟩

end Battery
